import Mathlib

/-! # Root-Finding: the four iteration methods of `script.js`

A shallow embedding of `falsePosition`, `bisection`, `newtonRaphson`, `secant` and
`derivative` from `src/False-Position-main/script.js`, in two readings of its numbers.  In the
first, the arithmetic is exact: the JavaScript numbers are the elements of a linearly ordered
field `K` (the rationals for evaluation), and the function built from the equation is a total
`func : K → K`.  In the second, the numbers are what the script computes with, IEEE-754 doubles
(`F64`, with rounding to nearest, overflow, underflow, signed zeros and `NaN`), and the four
methods are given again over them (`bisectionF`, ...), statement by statement.  A property that
is stated of exact arithmetic is proved of the first reading; a property of the run of the
script itself is proved of the second, and inputs on which the two readings differ are
evaluated there.

Each of the four functions is the same `while (iteration < maxIterations) { ... iteration++ }`
loop followed by `return iteration < maxIterations ? root : null`.  The embedding keeps the loop
body of each function as its own definition (`falsePositionBody`, ...) and runs it with
`whileLoop`.  The side effects of a run are made explicit as fields of `Run`: the rows inserted
into the iterations table and the messages sent to `console.error`.  Three further fields are
bookkeeping that the script does not store but that its execution determines: the divisors of the
divisions that were evaluated, the number of times the loop body was entered, and the values of
the loop variables after each pass that reached `iteration++`.

`findRoot` and `displayResult` are embedded as well, from the `try` statement on.  There the
function built from the equation may throw, so the four methods are given a second time for a
`func : K → Option K` (`falsePositionM`, ...); `methodsM_of_total` shows that for a function
that never throws they do what the first versions do.
-/

namespace RootFinding

/-- The values a `root` variable or a return value can hold:
`undefined` (declared by `let root;`, not yet assigned), `null`, or a number. -/
inductive JsVal (K : Type) where
  | undefined : JsVal K
  | null : JsVal K
  | num (x : K) : JsVal K
  deriving DecidableEq, Repr

/-- One row inserted into the iterations table (`iterationsTable.insertRow(-1)`): the method
name, the printed iteration number, and the numbers of the cells.  Newton-Raphson leaves the cells
`a`, `b` and `f(b)` empty. -/
structure IterationRecord (K : Type) where
  method : String
  iteration : Nat
  a : Option K
  b : Option K
  root : K
  fa : K
  fb : Option K
  froot : K
  deriving DecidableEq, Repr

/-- How one pass through a loop body ends: it reaches `iteration++` with new values of the loop
variables, leaves the loop by `break`, or leaves the function by `return v`. -/
inductive Flow (σ K : Type) where
  | next (s : σ) : Flow σ K
  | brk (s : σ) : Flow σ K
  | ret (v : JsVal K) : Flow σ K

/-- What one pass through a loop body does: how it ends, the row it inserted (if it got that
far), the message it sent to `console.error` (if any), and the divisors of the divisions it
evaluated, in order. -/
structure Pass (σ K : Type) where
  flow : Flow σ K
  row : Option (IterationRecord K)
  error : Option String
  divisors : List K

/-- A finished call of one of the four methods: the returned value, the rows inserted, the
`console.error` messages, and the bookkeeping fields `divisors` (divisors of all divisions
evaluated), `passes` (how many times the loop body was entered) and `states` (the loop variables
after each pass that reached `iteration++`). -/
structure Run (σ K : Type) where
  result : JsVal K
  rows : List (IterationRecord K)
  errors : List String
  divisors : List K
  passes : Nat
  states : List σ

/-- The loop variables `a`, `b`, `root` of `falsePosition`, `bisection` and `secant`. -/
structure Vars (K : Type) where
  a : K
  b : K
  root : JsVal K

section Definitions
variable {K σ : Type}

/-- The loop skeleton shared by the four methods, started with the counter at `iteration`:
```
while (iteration < maxIterations) { body; iteration++; }
return iteration < maxIterations ? root : null;
```
`rootOf` reads the variable `root` out of the loop variables.  A `break` in the body jumps to the
`return` statement with `iteration` unchanged; a `return` in the body ends the call. -/
def whileLoop (maxIterations : Nat) (rootOf : σ → JsVal K) (body : Nat → σ → Pass σ K)
    (iteration : Nat) (s : σ) : Run σ K :=
  if iteration < maxIterations then
    let p := body iteration s
    match p.flow with
    | Flow.ret v =>
      { result := v, rows := p.row.toList, errors := p.error.toList,
        divisors := p.divisors, passes := 1, states := [] }
    | Flow.brk s1 =>
      { result := if iteration < maxIterations then rootOf s1 else JsVal.null,
        rows := p.row.toList, errors := p.error.toList,
        divisors := p.divisors, passes := 1, states := [] }
    | Flow.next s1 =>
      let r := whileLoop maxIterations rootOf body (iteration + 1) s1
      { result := r.result, rows := p.row.toList ++ r.rows,
        errors := p.error.toList ++ r.errors,
        divisors := p.divisors ++ r.divisors, passes := r.passes + 1,
        states := s1 :: r.states }
  else
    { result := if iteration < maxIterations then rootOf s else JsVal.null,
      rows := [], errors := [], divisors := [], passes := 0, states := [] }
termination_by maxIterations - iteration
decreasing_by omega

variable [LinearOrderedField K]

/-- The body of the loop of `falsePosition` (script.js lines 14-44), its arithmetic and
comparisons read exactly; `falsePositionBodyF` is the same body computed in doubles, where
`a * fb - b * fa` can overflow to `NaN` and the estimate can round onto an endpoint. -/
def falsePositionBody (func : K → K) (tolerance : K) (iteration : Nat) (s : Vars K) :
    Pass (Vars K) K :=
  let fa := func s.a
  let fb := func s.b
  if fa = fb then
    { flow := Flow.ret JsVal.null, row := none,
      error := some "False Position method failed: division by zero or no convergence.",
      divisors := [] }
  else
    let root := (s.a * fb - s.b * fa) / (fb - fa)
    let froot := func root
    let newRow : IterationRecord K :=
      { method := "False Position", iteration := iteration + 1, a := some s.a, b := some s.b,
        root := root, fa := fa, fb := some fb, froot := froot }
    if |froot| < tolerance then
      { flow := Flow.brk { a := s.a, b := s.b, root := JsVal.num root }, row := some newRow,
        error := none, divisors := [fb - fa] }
    else
      let a := if froot * fa < 0 then s.a else root
      let b := if froot * fa < 0 then root else s.b
      if root < a ∨ root > b then
        { flow := Flow.ret JsVal.null, row := some newRow,
          error := some
            "False Position method failed: root estimate outside the interval [a, b].",
          divisors := [fb - fa] }
      else
        { flow := Flow.next { a := a, b := b, root := JsVal.num root }, row := some newRow,
          error := none, divisors := [fb - fa] }

/-- The function `falsePosition(func, a, b, tolerance, maxIterations)` (script.js lines 7-48):
`iteration = 0`, `root` undefined, then the loop. -/
def falsePosition (func : K → K) (a b tolerance : K) (maxIterations : Nat) : Run (Vars K) K :=
  whileLoop maxIterations Vars.root (falsePositionBody func tolerance) 0
    { a := a, b := b, root := JsVal.undefined }

/-- The body of the loop of `bisection` (script.js lines 58-82), its arithmetic and comparisons
read exactly; `bisectionBodyF` is the same body computed in doubles, where the products
`fa * fb` and `froot * fa` can underflow to a zero and the midpoint is rounded. -/
def bisectionBody (func : K → K) (tolerance : K) (iteration : Nat) (s : Vars K) :
    Pass (Vars K) K :=
  let fa := func s.a
  let fb := func s.b
  if fa * fb > 0 then
    { flow := Flow.ret JsVal.null, row := none,
      error := some "Bisection method failed: endpoints have the same sign or no convergence.",
      divisors := [] }
  else
    let root := s.a + (s.b - s.a) / 2
    let froot := func root
    let newRow : IterationRecord K :=
      { method := "Bisection", iteration := iteration + 1, a := some s.a, b := some s.b,
        root := root, fa := fa, fb := some fb, froot := froot }
    if |froot| < tolerance then
      { flow := Flow.brk { a := s.a, b := s.b, root := JsVal.num root }, row := some newRow,
        error := none, divisors := [2] }
    else
      let a := if froot * fa < 0 then s.a else root
      let b := if froot * fa < 0 then root else s.b
      { flow := Flow.next { a := a, b := b, root := JsVal.num root }, row := some newRow,
        error := none, divisors := [2] }

/-- The function `bisection(func, a, b, tolerance, maxIterations)` (script.js lines 51-86). -/
def bisection (func : K → K) (a b tolerance : K) (maxIterations : Nat) : Run (Vars K) K :=
  whileLoop maxIterations Vars.root (bisectionBody func tolerance) 0
    { a := a, b := b, root := JsVal.undefined }

/-- The default value `1e-6` of the parameter `epsilon` of `derivative`. -/
def defaultEpsilon : K := 1e-6

/-- The function `derivative(func, x, epsilon)` (script.js lines 152-154). -/
def derivative (func : K → K) (x : K) (epsilon : K) : K :=
  (func (x + epsilon) - func (x - epsilon)) / (2 * epsilon)

/-- The divisor of the one division that a call `derivative(func, x, epsilon)` evaluates. -/
def derivativeDivisor (epsilon : K) : K := 2 * epsilon

/-- The body of the loop of `newtonRaphson` (script.js lines 95-113).  Its only loop variable is
`root`, always a number; `derivative(func, root)` is called with the default `epsilon`. -/
def newtonRaphsonBody (func : K → K) (tolerance : K) (iteration : Nat) (s : K) : Pass K K :=
  let fa := func s
  let fprimea := derivative func s defaultEpsilon
  if fprimea = 0 then
    { flow := Flow.ret JsVal.null, row := none,
      error := some "Newton-Raphson method failed: derivative is zero or no convergence.",
      divisors := [derivativeDivisor defaultEpsilon] }
  else
    let root := s - fa / fprimea
    let froot := func root
    let newRow : IterationRecord K :=
      { method := "Newton-Raphson", iteration := iteration + 1, a := none, b := none,
        root := root, fa := fa, fb := none, froot := froot }
    if |froot| < tolerance then
      { flow := Flow.brk root, row := some newRow, error := none,
        divisors := [derivativeDivisor defaultEpsilon, fprimea] }
    else
      { flow := Flow.next root, row := some newRow, error := none,
        divisors := [derivativeDivisor defaultEpsilon, fprimea] }

/-- The function `newtonRaphson(func, initialGuess, tolerance, maxIterations)`
(script.js lines 88-117): `iteration = 0`, `root = initialGuess`, then the loop. -/
def newtonRaphson (func : K → K) (initialGuess tolerance : K) (maxIterations : Nat) :
    Run K K :=
  whileLoop maxIterations JsVal.num (newtonRaphsonBody func tolerance) 0 initialGuess

/-- The body of the loop of `secant` (script.js lines 126-146). -/
def secantBody (func : K → K) (tolerance : K) (iteration : Nat) (s : Vars K) :
    Pass (Vars K) K :=
  let fa := func s.a
  let fb := func s.b
  if fa = fb then
    { flow := Flow.ret JsVal.null, row := none,
      error := some "Secant method failed: division by zero or no convergence.",
      divisors := [] }
  else
    let root := s.b - (fb * (s.b - s.a)) / (fb - fa)
    let froot := func root
    let newRow : IterationRecord K :=
      { method := "Secant", iteration := iteration + 1, a := some s.a, b := some s.b,
        root := root, fa := fa, fb := some fb, froot := froot }
    if |froot| < tolerance then
      { flow := Flow.brk { a := s.a, b := s.b, root := JsVal.num root }, row := some newRow,
        error := none, divisors := [fb - fa] }
    else
      { flow := Flow.next { a := s.b, b := root, root := JsVal.num root }, row := some newRow,
        error := none, divisors := [fb - fa] }

/-- The function `secant(func, a, b, tolerance, maxIterations)` (script.js lines 119-150). -/
def secant (func : K → K) (a b tolerance : K) (maxIterations : Nat) : Run (Vars K) K :=
  whileLoop maxIterations Vars.root (secantBody func tolerance) 0
    { a := a, b := b, root := JsVal.undefined }

/-- The facts about one pass that the four loop bodies have in common, for the function `func`
and the tolerance `tolerance`: a `return` inside the loop returns `null` after a message to
`console.error`; a `break` happens after a row was inserted whose root estimate is now in
`root` and whose residual is below the tolerance; a pass that reaches `iteration++` has inserted
a row whose root estimate is now in `root` and whose residual is not below the tolerance; every
row carries the number `iteration + 1` and the residual `func root`. -/
structure BodySpec (func : K → K) (tolerance : K) (rootOf : σ → JsVal K)
    (body : Nat → σ → Pass σ K) : Prop where
  ret_spec : ∀ i s v, (body i s).flow = Flow.ret v →
    v = JsVal.null ∧ ∃ msg, (body i s).error = some msg
  brk_spec : ∀ i s s1, (body i s).flow = Flow.brk s1 →
    ∃ r, (body i s).row = some r ∧ rootOf s1 = JsVal.num r.root ∧ |r.froot| < tolerance
  next_spec : ∀ i s s1, (body i s).flow = Flow.next s1 →
    ∃ r, (body i s).row = some r ∧ rootOf s1 = JsVal.num r.root ∧ ¬ |r.froot| < tolerance
  row_spec : ∀ i s r, (body i s).row = some r → r.iteration = i + 1 ∧ r.froot = func r.root

/-- The loop variables at the start of pass `k + 1` of a loop started with the counter at
`iteration` and the variables `s`, when the first `k` passes all reached `iteration++`
(none of them ended in `break` or `return`); `none` otherwise.  The bound `maxIterations` plays
no part: this follows the loop body alone. -/
def stateAfter (body : Nat → σ → Pass σ K) (iteration : Nat) (s : σ) : Nat → Option σ
  | 0 => some s
  | k + 1 =>
    match (body iteration s).flow with
    | Flow.next s1 => stateAfter body (iteration + 1) s1 k
    | Flow.brk _ => none
    | Flow.ret _ => none

/-! ### `findRoot`, with an evaluator that may throw

`findRoot` builds the function with `new Function('x', ...)` inside a `try` block and calls
the selected method there.  Building can throw (malformed equation) and so can every call of
the function built.  A function that may throw is a `K → Option K`, `none` standing for a thrown
exception; the four methods are given again for such a function (`falsePositionM`, ...), line
by line as before, a thrown exception ending the call at once.  In each loop body the calls of
`func` come before the row is inserted, so a pass that throws has inserted no row and sent no
message. -/

/-- A call of a method with a function that may throw: the value returned, `none` when an
exception left the call, and the rows inserted and messages sent to `console.error` up to
then. -/
structure Call (K : Type) where
  returned : Option (JsVal K)
  rows : List (IterationRecord K)
  errors : List String

/-- The loop skeleton of `whileLoop` for a body that may throw (`none`). -/
def whileLoopM (maxIterations : Nat) (rootOf : σ → JsVal K)
    (body : Nat → σ → Option (Pass σ K)) (iteration : Nat) (s : σ) : Call K :=
  if iteration < maxIterations then
    match body iteration s with
    | none => { returned := none, rows := [], errors := [] }
    | some p =>
      match p.flow with
      | Flow.ret v => { returned := some v, rows := p.row.toList, errors := p.error.toList }
      | Flow.brk s1 =>
        { returned := some (if iteration < maxIterations then rootOf s1 else JsVal.null),
          rows := p.row.toList, errors := p.error.toList }
      | Flow.next s1 =>
        let r := whileLoopM maxIterations rootOf body (iteration + 1) s1
        { returned := r.returned, rows := p.row.toList ++ r.rows,
          errors := p.error.toList ++ r.errors }
  else
    { returned := some (if iteration < maxIterations then rootOf s else JsVal.null),
      rows := [], errors := [] }
termination_by maxIterations - iteration
decreasing_by omega

/-- The body of the loop of `falsePosition` for a function that may throw. -/
def falsePositionBodyM (func : K → Option K) (tolerance : K) (iteration : Nat) (s : Vars K) :
    Option (Pass (Vars K) K) :=
  match func s.a with
  | none => none
  | some fa =>
    match func s.b with
    | none => none
    | some fb =>
      if fa = fb then
        some { flow := Flow.ret JsVal.null, row := none,
               error := some
                 "False Position method failed: division by zero or no convergence.",
               divisors := [] }
      else
        let root := (s.a * fb - s.b * fa) / (fb - fa)
        match func root with
        | none => none
        | some froot =>
          let newRow : IterationRecord K :=
            { method := "False Position", iteration := iteration + 1, a := some s.a,
              b := some s.b, root := root, fa := fa, fb := some fb, froot := froot }
          if |froot| < tolerance then
            some { flow := Flow.brk { a := s.a, b := s.b, root := JsVal.num root },
                   row := some newRow, error := none, divisors := [fb - fa] }
          else
            let a := if froot * fa < 0 then s.a else root
            let b := if froot * fa < 0 then root else s.b
            if root < a ∨ root > b then
              some { flow := Flow.ret JsVal.null, row := some newRow,
                     error := some
                       "False Position method failed: root estimate outside the interval [a, b].",
                     divisors := [fb - fa] }
            else
              some { flow := Flow.next { a := a, b := b, root := JsVal.num root },
                     row := some newRow, error := none, divisors := [fb - fa] }

/-- The function `falsePosition` for a function that may throw. -/
def falsePositionM (func : K → Option K) (a b tolerance : K) (maxIterations : Nat) : Call K :=
  whileLoopM maxIterations Vars.root (falsePositionBodyM func tolerance) 0
    { a := a, b := b, root := JsVal.undefined }

/-- The body of the loop of `bisection` for a function that may throw. -/
def bisectionBodyM (func : K → Option K) (tolerance : K) (iteration : Nat) (s : Vars K) :
    Option (Pass (Vars K) K) :=
  match func s.a with
  | none => none
  | some fa =>
    match func s.b with
    | none => none
    | some fb =>
      if fa * fb > 0 then
        some { flow := Flow.ret JsVal.null, row := none,
               error := some
                 "Bisection method failed: endpoints have the same sign or no convergence.",
               divisors := [] }
      else
        let root := s.a + (s.b - s.a) / 2
        match func root with
        | none => none
        | some froot =>
          let newRow : IterationRecord K :=
            { method := "Bisection", iteration := iteration + 1, a := some s.a,
              b := some s.b, root := root, fa := fa, fb := some fb, froot := froot }
          if |froot| < tolerance then
            some { flow := Flow.brk { a := s.a, b := s.b, root := JsVal.num root },
                   row := some newRow, error := none, divisors := [2] }
          else
            let a := if froot * fa < 0 then s.a else root
            let b := if froot * fa < 0 then root else s.b
            some { flow := Flow.next { a := a, b := b, root := JsVal.num root },
                   row := some newRow, error := none, divisors := [2] }

/-- The function `bisection` for a function that may throw. -/
def bisectionM (func : K → Option K) (a b tolerance : K) (maxIterations : Nat) : Call K :=
  whileLoopM maxIterations Vars.root (bisectionBodyM func tolerance) 0
    { a := a, b := b, root := JsVal.undefined }

/-- The function `derivative` for a function that may throw: `func(x + epsilon)` is called
first, then `func(x - epsilon)`. -/
def derivativeM (func : K → Option K) (x : K) (epsilon : K) : Option K :=
  match func (x + epsilon) with
  | none => none
  | some fplus =>
    match func (x - epsilon) with
    | none => none
    | some fminus => some ((fplus - fminus) / (2 * epsilon))

/-- The body of the loop of `newtonRaphson` for a function that may throw. -/
def newtonRaphsonBodyM (func : K → Option K) (tolerance : K) (iteration : Nat) (s : K) :
    Option (Pass K K) :=
  match func s with
  | none => none
  | some fa =>
    match derivativeM func s defaultEpsilon with
    | none => none
    | some fprimea =>
      if fprimea = 0 then
        some { flow := Flow.ret JsVal.null, row := none,
               error := some
                 "Newton-Raphson method failed: derivative is zero or no convergence.",
               divisors := [derivativeDivisor defaultEpsilon] }
      else
        let root := s - fa / fprimea
        match func root with
        | none => none
        | some froot =>
          let newRow : IterationRecord K :=
            { method := "Newton-Raphson", iteration := iteration + 1, a := none, b := none,
              root := root, fa := fa, fb := none, froot := froot }
          if |froot| < tolerance then
            some { flow := Flow.brk root, row := some newRow, error := none,
                   divisors := [derivativeDivisor defaultEpsilon, fprimea] }
          else
            some { flow := Flow.next root, row := some newRow, error := none,
                   divisors := [derivativeDivisor defaultEpsilon, fprimea] }

/-- The function `newtonRaphson` for a function that may throw. -/
def newtonRaphsonM (func : K → Option K) (initialGuess tolerance : K) (maxIterations : Nat) :
    Call K :=
  whileLoopM maxIterations JsVal.num (newtonRaphsonBodyM func tolerance) 0 initialGuess

/-- The body of the loop of `secant` for a function that may throw. -/
def secantBodyM (func : K → Option K) (tolerance : K) (iteration : Nat) (s : Vars K) :
    Option (Pass (Vars K) K) :=
  match func s.a with
  | none => none
  | some fa =>
    match func s.b with
    | none => none
    | some fb =>
      if fa = fb then
        some { flow := Flow.ret JsVal.null, row := none,
               error := some "Secant method failed: division by zero or no convergence.",
               divisors := [] }
      else
        let root := s.b - (fb * (s.b - s.a)) / (fb - fa)
        match func root with
        | none => none
        | some froot =>
          let newRow : IterationRecord K :=
            { method := "Secant", iteration := iteration + 1, a := some s.a, b := some s.b,
              root := root, fa := fa, fb := some fb, froot := froot }
          if |froot| < tolerance then
            some { flow := Flow.brk { a := s.a, b := s.b, root := JsVal.num root },
                   row := some newRow, error := none, divisors := [fb - fa] }
          else
            some { flow := Flow.next { a := s.b, b := root, root := JsVal.num root },
                   row := some newRow, error := none, divisors := [fb - fa] }

/-- The function `secant` for a function that may throw. -/
def secantM (func : K → Option K) (a b tolerance : K) (maxIterations : Nat) : Call K :=
  whileLoopM maxIterations Vars.root (secantBodyM func tolerance) 0
    { a := a, b := b, root := JsVal.undefined }

/-- The text that `displayResult` writes into the element `result`: `"Failed to converge"`, or
the number formatted by `toFixed(6)`. -/
inductive Display (K : Type) where
  | failedToConverge : Display K
  | fixed (x : K) : Display K

/-- The function `displayResult(result)` (script.js lines 2-5): the text written, or `none`
when the call throws before writing.  `undefined !== null` holds, so for `undefined` the call
evaluates `undefined.toFixed(6)`, which throws a `TypeError`. -/
def displayResult (result : JsVal K) : Option (Display K) :=
  match result with
  | JsVal.null => some Display.failedToConverge
  | JsVal.num x => some (Display.fixed x)
  | JsVal.undefined => none

/-- What the `try` block of `findRoot` has done when control leaves it: whether it was left by
a thrown exception, the name of the method function called (if any), the rows inserted, the
messages sent to `console.error`, the arguments `displayResult` was called with, and the text
in the element `result` if one was written. -/
structure TryBlock (K : Type) where
  threw : Bool
  invoked : Option String
  rows : List (IterationRecord K)
  errors : List String
  displayCalls : List (JsVal K)
  display : Option (Display K)

/-- The statement `displayResult(result);` that ends the `try` block, after the `switch` has
called `invoked`, inserted `rows` and sent `errors`. -/
def tryDisplay (invoked : Option String) (rows : List (IterationRecord K))
    (errors : List String) (result : JsVal K) : TryBlock K :=
  match displayResult result with
  | some d =>
    { threw := false, invoked := invoked, rows := rows, errors := errors,
      displayCalls := [result], display := some d }
  | none =>
    { threw := true, invoked := invoked, rows := rows, errors := errors,
      displayCalls := [result], display := none }

/-- A call of a method inside the `switch`, followed by the rest of the `try` block: a thrown
exception leaves the block, a returned value is assigned to `result` and displayed. -/
def tryMethod (name : String) (c : Call K) : TryBlock K :=
  match c.returned with
  | none =>
    { threw := true, invoked := some name, rows := c.rows, errors := c.errors,
      displayCalls := [], display := none }
  | some result => tryDisplay (some name) c.rows c.errors result

/-- The `try` block of `findRoot(method)` (script.js lines 169-193).  `build` is the outcome of
`new Function('x', ...)` for the equation on the page: `none` when it throws, else the function
built, which may throw when called.  `a`, `b`, `initialGuess`, `tolerance` are the numbers read
from the page; `maxIterations` is `20`.  In the `default` branch `result` is still
`undefined` when `displayResult(result)` is reached. -/
def findRootTry (method : String) (build : Option (K → Option K))
    (a b initialGuess tolerance : K) : TryBlock K :=
  match build with
  | none =>
    { threw := true, invoked := none, rows := [], errors := [], displayCalls := [],
      display := none }
  | some func =>
    let maxIterations := 20
    if method = "falsePosition" then
      tryMethod "falsePosition" (falsePositionM func a b tolerance maxIterations)
    else if method = "bisection" then
      tryMethod "bisection" (bisectionM func a b tolerance maxIterations)
    else if method = "newtonRaphson" then
      tryMethod "newtonRaphson" (newtonRaphsonM func initialGuess tolerance maxIterations)
    else if method = "secant" then
      tryMethod "secant" (secantM func a b tolerance maxIterations)
    else
      tryDisplay none [] ["Invalid method"] JsVal.undefined

/-- A finished call of `findRoot`: the fields of `TryBlock` at the end of the call, and whether
an exception left `findRoot`. -/
structure FindRootOutcome (K : Type) where
  invoked : Option String
  rows : List (IterationRecord K)
  errors : List String
  displayCalls : List (JsVal K)
  display : Option (Display K)
  escaped : Bool

/-- The function `findRoot(method)` (script.js lines 156-198), from the `try` statement on: an
exception thrown in the `try` block is caught, `"Error parsing equation:"` is sent to
`console.error` and `displayResult(null)` is called; an exception thrown by that call would
leave `findRoot`. -/
def findRoot (method : String) (build : Option (K → Option K))
    (a b initialGuess tolerance : K) : FindRootOutcome K :=
  let t := findRootTry method build a b initialGuess tolerance
  if t.threw then
    match displayResult (JsVal.null : JsVal K) with
    | some d =>
      { invoked := t.invoked, rows := t.rows,
        errors := t.errors ++ ["Error parsing equation:"],
        displayCalls := t.displayCalls ++ [JsVal.null], display := some d,
        escaped := false }
    | none =>
      { invoked := t.invoked, rows := t.rows,
        errors := t.errors ++ ["Error parsing equation:"],
        displayCalls := t.displayCalls ++ [JsVal.null], display := t.display,
        escaped := true }
  else
    { invoked := t.invoked, rows := t.rows, errors := t.errors,
      displayCalls := t.displayCalls, display := t.display, escaped := false }

end Definitions

section Doubles

/-! ### The numbers of the script: IEEE-754 doubles

The definitions above read the arithmetic of the script exactly.  The script computes with
JavaScript numbers, which are IEEE-754 binary64 values: every operation rounds its exact result
to the nearest double (ties to even), overflows to an infinity, underflows to a subnormal or to
a signed zero, and yields `NaN` for `0/0`, `Infinity - Infinity` and `0 * Infinity`; every
comparison with `NaN` is false.  `F64` gives these numbers and operations, and `bisectionF`,
`falsePositionF`, `newtonRaphsonF` and `secantF` are the four methods computed with them,
statement by statement as before. -/

/-- A JavaScript number, an IEEE-754 binary64 value: `NaN`, an infinity with its sign, or the
finite number `(-1)^neg * m * 2^e`. -/
inductive F64 where
  | nan : F64
  | inf (neg : Bool) : F64
  | fin (neg : Bool) (m : Nat) (e : Int) : F64
  deriving DecidableEq, Repr

namespace F64

/-- The number of binary digits of `n`, for `n < 2 ^ 2 ^ k`, by halving the range `k` times. -/
def bitLenAux : Nat → Nat → Nat
  | 0, n => if n = 0 then 0 else 1
  | k + 1, n =>
    if n >>> (2 ^ k) = 0 then bitLenAux k n else 2 ^ k + bitLenAux k (n >>> (2 ^ k))

/-- The number of binary digits of `n`, for `n < 2 ^ 8192`. -/
def bitLen (n : Nat) : Nat := bitLenAux 13 n

/-- The double nearest to `(-1)^neg * n / d`, ties to the even significand: the rounding that
every arithmetic operation and every numeric literal applies to its exact value.  With
`2^L ≤ n / d < 2^(L + 1)`, the result is a multiple of `2^e` for `e = max (L - 52) (-1074)` (a
53-bit significand, or fewer bits for a subnormal): `q` is `n / d / 2^e` rounded down and `q1`
is it rounded to nearest.  When `q1` reaches `2^53` the result is `2^52 * 2^(e + 1)`, and a
result of `2^1024` or more is an infinity.  Zero keeps its sign. -/
def roundQ (neg : Bool) (n d : Nat) : F64 :=
  if n = 0 then fin neg 0 (-1074)
  else
    let l : Int := (bitLen n : Int) - (bitLen d : Int)
    let L : Int := if d <<< l.toNat ≤ n <<< (-l).toNat then l else l - 1
    let e : Int := max (L - 52) (-1074)
    let N : Nat := n <<< (-e).toNat
    let D : Nat := d <<< e.toNat
    let q : Nat := N / D
    let r : Nat := N % D
    let q1 : Nat := if D < 2 * r ∨ (2 * r = D ∧ q % 2 = 1) then q + 1 else q
    if q1 = 2 ^ 53 then
      if 971 < e + 1 then inf neg else fin neg (2 ^ 52) (e + 1)
    else
      if 971 < e then inf neg else fin neg q1 e

/-- Unary minus. -/
def neg : F64 → F64
  | nan => nan
  | inf s => inf (!s)
  | fin s m e => fin (!s) m e

/-- `Math.abs`. -/
def abs : F64 → F64
  | nan => nan
  | inf _ => inf false
  | fin _ m e => fin false m e

/-- The operator `*`. -/
def mul : F64 → F64 → F64
  | nan, _ => nan
  | _, nan => nan
  | inf s, inf t => inf (s != t)
  | inf s, fin t m _ => if m = 0 then nan else inf (s != t)
  | fin s m _, inf t => if m = 0 then nan else inf (s != t)
  | fin s m e, fin t k f =>
    roundQ (s != t) ((m * k) <<< (e + f).toNat) (1 <<< (-(e + f)).toNat)

/-- The finite number `(-1)^neg * m * 2^e` as an integer multiple of `2^c`, for `c ≤ e`. -/
def scaled (s : Bool) (m : Nat) (e c : Int) : Int :=
  if s then -((m <<< (e - c).toNat : Nat) : Int) else ((m <<< (e - c).toNat : Nat) : Int)

/-- The operator `+`. -/
def add : F64 → F64 → F64
  | nan, _ => nan
  | _, nan => nan
  | inf s, inf t => if s = t then inf s else nan
  | inf s, fin _ _ _ => inf s
  | fin _ _ _, inf t => inf t
  | fin s m e, fin t k f =>
    if m = 0 ∧ k = 0 then fin (s && t) 0 (-1074)
    else
      let c : Int := min e f
      let v : Int := scaled s m e c + scaled t k f c
      if v = 0 then fin false 0 (-1074)
      else roundQ (decide (v < 0)) (v.natAbs <<< c.toNat) (1 <<< (-c).toNat)

/-- The operator `-`. -/
def sub (x y : F64) : F64 := add x (neg y)

/-- The operator `/`. -/
def div : F64 → F64 → F64
  | nan, _ => nan
  | _, nan => nan
  | inf _, inf _ => nan
  | inf s, fin t _ _ => inf (s != t)
  | fin s _ _, inf t => fin (s != t) 0 (-1074)
  | fin s m e, fin t k f =>
    if k = 0 then (if m = 0 then nan else inf (s != t))
    else roundQ (s != t) (m <<< (e - f).toNat) (k <<< (f - e).toNat)

/-- The operator `<`: false when an operand is `NaN`. -/
def lt : F64 → F64 → Bool
  | nan, _ => false
  | _, nan => false
  | inf s, inf t => s && !t
  | inf s, fin _ _ _ => s
  | fin _ _ _, inf t => !t
  | fin s m e, fin t k f => decide (scaled s m e (min e f) < scaled t k f (min e f))

/-- The operator `===` on numbers: false when an operand is `NaN`, true of `0` and `-0`. -/
def strictEq : F64 → F64 → Bool
  | nan, _ => false
  | _, nan => false
  | inf s, inf t => s == t
  | inf _, fin _ _ _ => false
  | fin _ _ _, inf _ => false
  | fin s m e, fin t k f => decide (scaled s m e (min e f) = scaled t k f (min e f))

/-- The operator `<=`: false when an operand is `NaN`. -/
def le (x y : F64) : Bool := lt x y || strictEq x y

end F64

instance : Neg F64 := ⟨F64.neg⟩
instance : Add F64 := ⟨F64.add⟩
instance : Sub F64 := ⟨F64.sub⟩
instance : Mul F64 := ⟨F64.mul⟩
instance : Div F64 := ⟨F64.div⟩
instance : LT F64 := ⟨fun x y => F64.lt x y = true⟩
instance : LE F64 := ⟨fun x y => F64.le x y = true⟩
instance (x y : F64) : Decidable (x < y) := inferInstanceAs (Decidable (F64.lt x y = true))
instance (x y : F64) : Decidable (x ≤ y) := inferInstanceAs (Decidable (F64.le x y = true))
instance (n : Nat) : OfNat F64 n := ⟨F64.roundQ false n 1⟩
instance : OfScientific F64 :=
  ⟨fun m s e => if s then F64.roundQ false m (10 ^ e) else F64.roundQ false (m * 10 ^ e) 1⟩

/-! ### The four methods in doubles -/

/-- The body of the loop of `bisection` (script.js lines 58-82), computed in doubles. -/
def bisectionBodyF (func : F64 → F64) (tolerance : F64) (iteration : Nat) (s : Vars F64) :
    Pass (Vars F64) F64 :=
  let fa := func s.a
  let fb := func s.b
  if fa * fb > 0 then
    { flow := Flow.ret JsVal.null, row := none,
      error := some "Bisection method failed: endpoints have the same sign or no convergence.",
      divisors := [] }
  else
    let root := s.a + (s.b - s.a) / 2
    let froot := func root
    let newRow : IterationRecord F64 :=
      { method := "Bisection", iteration := iteration + 1, a := some s.a, b := some s.b,
        root := root, fa := fa, fb := some fb, froot := froot }
    if F64.abs froot < tolerance then
      { flow := Flow.brk { a := s.a, b := s.b, root := JsVal.num root }, row := some newRow,
        error := none, divisors := [2] }
    else
      let a := if froot * fa < 0 then s.a else root
      let b := if froot * fa < 0 then root else s.b
      { flow := Flow.next { a := a, b := b, root := JsVal.num root }, row := some newRow,
        error := none, divisors := [2] }

/-- The function `bisection(func, a, b, tolerance, maxIterations)` (script.js lines 51-86),
computed in doubles. -/
def bisectionF (func : F64 → F64) (a b tolerance : F64) (maxIterations : Nat) :
    Run (Vars F64) F64 :=
  whileLoop maxIterations Vars.root (bisectionBodyF func tolerance) 0
    { a := a, b := b, root := JsVal.undefined }

/-- The body of the loop of `falsePosition` (script.js lines 14-44), computed in doubles. -/
def falsePositionBodyF (func : F64 → F64) (tolerance : F64) (iteration : Nat)
    (s : Vars F64) : Pass (Vars F64) F64 :=
  let fa := func s.a
  let fb := func s.b
  if F64.strictEq fa fb = true then
    { flow := Flow.ret JsVal.null, row := none,
      error := some "False Position method failed: division by zero or no convergence.",
      divisors := [] }
  else
    let root := (s.a * fb - s.b * fa) / (fb - fa)
    let froot := func root
    let newRow : IterationRecord F64 :=
      { method := "False Position", iteration := iteration + 1, a := some s.a, b := some s.b,
        root := root, fa := fa, fb := some fb, froot := froot }
    if F64.abs froot < tolerance then
      { flow := Flow.brk { a := s.a, b := s.b, root := JsVal.num root }, row := some newRow,
        error := none, divisors := [fb - fa] }
    else
      let a := if froot * fa < 0 then s.a else root
      let b := if froot * fa < 0 then root else s.b
      if root < a ∨ root > b then
        { flow := Flow.ret JsVal.null, row := some newRow,
          error := some
            "False Position method failed: root estimate outside the interval [a, b].",
          divisors := [fb - fa] }
      else
        { flow := Flow.next { a := a, b := b, root := JsVal.num root }, row := some newRow,
          error := none, divisors := [fb - fa] }

/-- The function `falsePosition(func, a, b, tolerance, maxIterations)` (script.js lines 7-48),
computed in doubles. -/
def falsePositionF (func : F64 → F64) (a b tolerance : F64) (maxIterations : Nat) :
    Run (Vars F64) F64 :=
  whileLoop maxIterations Vars.root (falsePositionBodyF func tolerance) 0
    { a := a, b := b, root := JsVal.undefined }

/-- The function `derivative(func, x, epsilon)` (script.js lines 152-154), computed in
doubles. -/
def derivativeF (func : F64 → F64) (x : F64) (epsilon : F64) : F64 :=
  (func (x + epsilon) - func (x - epsilon)) / (2 * epsilon)

/-- The body of the loop of `newtonRaphson` (script.js lines 95-113), computed in doubles;
`derivative(func, root)` is called with the default `epsilon = 1e-6`. -/
def newtonRaphsonBodyF (func : F64 → F64) (tolerance : F64) (iteration : Nat) (s : F64) :
    Pass F64 F64 :=
  let fa := func s
  let fprimea := derivativeF func s 1e-6
  if F64.strictEq fprimea 0 = true then
    { flow := Flow.ret JsVal.null, row := none,
      error := some "Newton-Raphson method failed: derivative is zero or no convergence.",
      divisors := [2 * 1e-6] }
  else
    let root := s - fa / fprimea
    let froot := func root
    let newRow : IterationRecord F64 :=
      { method := "Newton-Raphson", iteration := iteration + 1, a := none, b := none,
        root := root, fa := fa, fb := none, froot := froot }
    if F64.abs froot < tolerance then
      { flow := Flow.brk root, row := some newRow, error := none,
        divisors := [2 * 1e-6, fprimea] }
    else
      { flow := Flow.next root, row := some newRow, error := none,
        divisors := [2 * 1e-6, fprimea] }

/-- The function `newtonRaphson(func, initialGuess, tolerance, maxIterations)`
(script.js lines 88-117), computed in doubles. -/
def newtonRaphsonF (func : F64 → F64) (initialGuess tolerance : F64) (maxIterations : Nat) :
    Run F64 F64 :=
  whileLoop maxIterations JsVal.num (newtonRaphsonBodyF func tolerance) 0 initialGuess

/-- The body of the loop of `secant` (script.js lines 126-146), computed in doubles. -/
def secantBodyF (func : F64 → F64) (tolerance : F64) (iteration : Nat) (s : Vars F64) :
    Pass (Vars F64) F64 :=
  let fa := func s.a
  let fb := func s.b
  if F64.strictEq fa fb = true then
    { flow := Flow.ret JsVal.null, row := none,
      error := some "Secant method failed: division by zero or no convergence.",
      divisors := [] }
  else
    let root := s.b - (fb * (s.b - s.a)) / (fb - fa)
    let froot := func root
    let newRow : IterationRecord F64 :=
      { method := "Secant", iteration := iteration + 1, a := some s.a, b := some s.b,
        root := root, fa := fa, fb := some fb, froot := froot }
    if F64.abs froot < tolerance then
      { flow := Flow.brk { a := s.a, b := s.b, root := JsVal.num root }, row := some newRow,
        error := none, divisors := [fb - fa] }
    else
      { flow := Flow.next { a := s.b, b := root, root := JsVal.num root }, row := some newRow,
        error := none, divisors := [fb - fa] }

/-- The function `secant(func, a, b, tolerance, maxIterations)` (script.js lines 119-150),
computed in doubles. -/
def secantF (func : F64 → F64) (a b tolerance : F64) (maxIterations : Nat) :
    Run (Vars F64) F64 :=
  whileLoop maxIterations Vars.root (secantBodyF func tolerance) 0
    { a := a, b := b, root := JsVal.undefined }

/-! ### Evaluating a run

A run on given doubles is evaluated by unrolling the loop; the loop variables are compared
with `DecidableEq`. -/

/-- The loop of `whileLoop` unrolled `fuel` times, by recursion on `fuel`: the same run
whenever `fuel` is at least the number of passes left (`whileLoop_eq_unrolled`).  It serves to
evaluate a run on given inputs. -/
def whileLoopUnrolled {K σ : Type} (maxIterations : Nat) (rootOf : σ → JsVal K)
    (body : Nat → σ → Pass σ K) : Nat → Nat → σ → Run σ K
  | 0, iteration, s =>
    { result := if iteration < maxIterations then rootOf s else JsVal.null,
      rows := [], errors := [], divisors := [], passes := 0, states := [] }
  | fuel + 1, iteration, s =>
    if iteration < maxIterations then
      match (body iteration s).flow with
      | Flow.ret v =>
        { result := v, rows := (body iteration s).row.toList,
          errors := (body iteration s).error.toList,
          divisors := (body iteration s).divisors, passes := 1, states := [] }
      | Flow.brk s1 =>
        { result := if iteration < maxIterations then rootOf s1 else JsVal.null,
          rows := (body iteration s).row.toList, errors := (body iteration s).error.toList,
          divisors := (body iteration s).divisors, passes := 1, states := [] }
      | Flow.next s1 =>
        { result :=
            (whileLoopUnrolled maxIterations rootOf body fuel (iteration + 1) s1).result,
          rows := (body iteration s).row.toList ++
            (whileLoopUnrolled maxIterations rootOf body fuel (iteration + 1) s1).rows,
          errors := (body iteration s).error.toList ++
            (whileLoopUnrolled maxIterations rootOf body fuel (iteration + 1) s1).errors,
          divisors := (body iteration s).divisors ++
            (whileLoopUnrolled maxIterations rootOf body fuel (iteration + 1) s1).divisors,
          passes :=
            (whileLoopUnrolled maxIterations rootOf body fuel (iteration + 1) s1).passes + 1,
          states := s1 ::
            (whileLoopUnrolled maxIterations rootOf body fuel (iteration + 1) s1).states }
    else
      { result := if iteration < maxIterations then rootOf s else JsVal.null,
        rows := [], errors := [], divisors := [], passes := 0, states := [] }

deriving instance DecidableEq for Vars

/-! ### Conditions under which the doubles behave like exact numbers

The script decides the side of the root by the sign of a computed product, and takes the
computed midpoint or interpolated estimate for the exact one.  The conditions below say, of one
row, that a product has not underflowed or become `NaN`, that the estimate lies inside its
bracket, and that the midpoint was computed without rounding; `F64.toRat` gives the real number
that a finite double stands for. -/

/-- The sign of a double: `-1`, `0` (of `0` and `-0`) or `1`; `none` for `NaN`. -/
def F64.sign : F64 → Option Int
  | F64.nan => none
  | F64.inf s => some (if s then -1 else 1)
  | F64.fin s m _ => some (if m = 0 then 0 else if s then -1 else 1)

/-- The computed product `x * y` has the sign of the exact product: it is a number (`< 0`,
`=== 0` or `> 0`, so not `NaN`), and it is a zero only if one of the factors is a zero (it has
not underflowed). -/
def F64.signExact (x y : F64) : Prop :=
  (x * y < 0 ∨ F64.strictEq (x * y) 0 = true ∨ 0 < x * y) ∧
    (F64.strictEq (x * y) 0 = true → F64.strictEq x 0 = true ∨ F64.strictEq y 0 = true)

instance (x y : F64) : Decidable (F64.signExact x y) :=
  inferInstanceAs (Decidable (_ ∧ _))

/-- The three products of the function values of a row have the signs of the exact products:
`froot * fa`, which the script computes to choose the endpoint to replace, `fa * fb`, which it
computes in the same-sign test of `bisection`, and `froot * fb`, the product of the next
bracket when `a` is replaced. -/
def signsExact (r : IterationRecord F64) : Prop :=
  F64.signExact r.froot r.fa ∧
    ∀ fb ∈ r.fb, F64.signExact r.fa fb ∧ F64.signExact r.froot fb

instance (r : IterationRecord F64) : Decidable (signsExact r) :=
  inferInstanceAs (Decidable (_ ∧ _))

/-- The root estimate of a row lies strictly between the endpoints shown in the row. -/
def estimateInside (r : IterationRecord F64) : Prop :=
  ∀ a ∈ r.a, ∀ b ∈ r.b, a < r.root ∧ r.root < b

instance (r : IterationRecord F64) : Decidable (estimateInside r) :=
  inferInstanceAs (Decidable (∀ a ∈ r.a, ∀ b ∈ r.b, a < r.root ∧ r.root < b))

/-- Whether a double is a finite number (neither an infinity nor `NaN`). -/
def F64.isFinite : F64 → Bool
  | F64.fin _ _ _ => true
  | _ => false

/-- The real number that a finite double stands for, as a rational: `(-1)^neg * m * 2^e`.  The
value is `0` for the infinities and `NaN`, which stand for no real number. -/
def F64.toRat : F64 → ℚ
  | F64.fin s m e =>
    mkRat ((if s then -1 else 1) * (m <<< e.toNat : Nat)) (1 <<< (-e).toNat)
  | _ => 0

/-- The midpoint of a row is computed without rounding: the endpoints shown in the row and the
estimate are finite, and the estimate is the real number `a + (b - a) / 2`. -/
def midpointExact (r : IterationRecord F64) : Prop :=
  ∀ a ∈ r.a, ∀ b ∈ r.b, a.isFinite = true ∧ b.isFinite = true ∧ r.root.isFinite = true ∧
    r.root.toRat = a.toRat + (b.toRat - a.toRat) / 2

instance (r : IterationRecord F64) : Decidable (midpointExact r) :=
  inferInstanceAs (Decidable (∀ a ∈ r.a, ∀ b ∈ r.b, _))

end Doubles

/-! ## The loop skeleton -/

section Loop
variable {K σ : Type}

/-- The loop when the test `iteration < maxIterations` fails: nothing more is done and `null` is
returned. -/
theorem whileLoop_exit (maxIterations : Nat) (rootOf : σ → JsVal K) (body : Nat → σ → Pass σ K)
    (iteration : Nat) (s : σ) (h : ¬ iteration < maxIterations) :
    whileLoop maxIterations rootOf body iteration s =
      { result := JsVal.null, rows := [], errors := [], divisors := [], passes := 0,
        states := [] } := by
  rw [whileLoop]; simp [h]

/-- The loop when the test holds and the pass ends in `return v`. -/
theorem whileLoop_ret (maxIterations : Nat) (rootOf : σ → JsVal K) (body : Nat → σ → Pass σ K)
    (iteration : Nat) (s : σ) (v : JsVal K) (h : iteration < maxIterations)
    (hf : (body iteration s).flow = Flow.ret v) :
    whileLoop maxIterations rootOf body iteration s =
      { result := v, rows := (body iteration s).row.toList,
        errors := (body iteration s).error.toList,
        divisors := (body iteration s).divisors, passes := 1, states := [] } := by
  rw [whileLoop]; simp [h, hf]

/-- The loop when the test holds and the pass ends in `break`: the `return` statement then
yields `root`. -/
theorem whileLoop_brk (maxIterations : Nat) (rootOf : σ → JsVal K) (body : Nat → σ → Pass σ K)
    (iteration : Nat) (s s1 : σ) (h : iteration < maxIterations)
    (hf : (body iteration s).flow = Flow.brk s1) :
    whileLoop maxIterations rootOf body iteration s =
      { result := rootOf s1, rows := (body iteration s).row.toList,
        errors := (body iteration s).error.toList,
        divisors := (body iteration s).divisors, passes := 1, states := [] } := by
  rw [whileLoop]; simp [h, hf]

/-- The loop when the test holds and the pass reaches `iteration++`: the effects of the pass
come before those of the rest of the loop. -/
theorem whileLoop_next (maxIterations : Nat) (rootOf : σ → JsVal K) (body : Nat → σ → Pass σ K)
    (iteration : Nat) (s s1 : σ) (h : iteration < maxIterations)
    (hf : (body iteration s).flow = Flow.next s1) :
    whileLoop maxIterations rootOf body iteration s =
      { result := (whileLoop maxIterations rootOf body (iteration + 1) s1).result,
        rows := (body iteration s).row.toList ++
          (whileLoop maxIterations rootOf body (iteration + 1) s1).rows,
        errors := (body iteration s).error.toList ++
          (whileLoop maxIterations rootOf body (iteration + 1) s1).errors,
        divisors := (body iteration s).divisors ++
          (whileLoop maxIterations rootOf body (iteration + 1) s1).divisors,
        passes := (whileLoop maxIterations rootOf body (iteration + 1) s1).passes + 1,
        states := s1 :: (whileLoop maxIterations rootOf body (iteration + 1) s1).states } := by
  rw [whileLoop]; simp [h, hf]

/-- Induction over the passes of a loop. -/
theorem whileLoop_cases (maxIterations : Nat) (rootOf : σ → JsVal K)
    (body : Nat → σ → Pass σ K) (P : Nat → σ → Run σ K → Prop)
    (hexit : ∀ i s, ¬ i < maxIterations →
      P i s { result := JsVal.null, rows := [], errors := [], divisors := [], passes := 0,
              states := [] })
    (hret : ∀ i s v, i < maxIterations → (body i s).flow = Flow.ret v →
      P i s { result := v, rows := (body i s).row.toList, errors := (body i s).error.toList,
              divisors := (body i s).divisors, passes := 1, states := [] })
    (hbrk : ∀ i s s1, i < maxIterations → (body i s).flow = Flow.brk s1 →
      P i s { result := rootOf s1, rows := (body i s).row.toList,
              errors := (body i s).error.toList,
              divisors := (body i s).divisors, passes := 1, states := [] })
    (hnext : ∀ i s s1 r, i < maxIterations → (body i s).flow = Flow.next s1 →
      r = whileLoop maxIterations rootOf body (i + 1) s1 → P (i + 1) s1 r →
      P i s { result := r.result, rows := (body i s).row.toList ++ r.rows,
              errors := (body i s).error.toList ++ r.errors,
              divisors := (body i s).divisors ++ r.divisors, passes := r.passes + 1,
              states := s1 :: r.states })
    (iteration : Nat) (s : σ) :
    P iteration s (whileLoop maxIterations rootOf body iteration s) := by
  generalize hn : maxIterations - iteration = n
  induction n generalizing iteration s with
  | zero =>
    rw [whileLoop_exit _ _ _ _ _ (by omega)]
    exact hexit _ _ (by omega)
  | succ n ih =>
    have hlt : iteration < maxIterations := by omega
    cases hf : (body iteration s).flow with
    | ret v => rw [whileLoop_ret _ _ _ _ _ v hlt hf]; exact hret _ _ _ hlt hf
    | brk s1 => rw [whileLoop_brk _ _ _ _ _ s1 hlt hf]; exact hbrk _ _ _ hlt hf
    | next s1 =>
      rw [whileLoop_next _ _ _ _ _ s1 hlt hf]
      exact hnext _ _ _ _ hlt hf rfl (ih (iteration + 1) s1 (by omega))

/-- A loop started with the counter at `iteration` enters its body at most
`maxIterations - iteration` times and inserts at most that many rows. -/
theorem whileLoop_bounds (rootOf : σ → JsVal K) (body : Nat → σ → Pass σ K)
    (maxIterations iteration : Nat) (s : σ) :
    (whileLoop maxIterations rootOf body iteration s).passes ≤ maxIterations - iteration ∧
      (whileLoop maxIterations rootOf body iteration s).rows.length ≤
        (whileLoop maxIterations rootOf body iteration s).passes := by
  refine whileLoop_cases maxIterations rootOf body
    (fun i _ r => r.passes ≤ maxIterations - i ∧ r.rows.length ≤ r.passes) ?_ ?_ ?_ ?_ iteration s
  · intro i s _; simp
  · intro i s v h hf
    refine ⟨by show 1 ≤ _; omega, ?_⟩
    cases (body i s).row <;> simp
  · intro i s s1 h hf
    refine ⟨by show 1 ≤ _; omega, ?_⟩
    cases (body i s).row <;> simp
  · intro i s s1 r h hf _ ih
    refine ⟨by show r.passes + 1 ≤ _; omega, ?_⟩
    have := ih.2
    cases (body i s).row <;> simp <;> omega

/-- A property of the divisors of every single pass holds for all divisors of a loop. -/
theorem whileLoop_divisors (maxIterations : Nat) (rootOf : σ → JsVal K)
    (body : Nat → σ → Pass σ K) (Q : K → Prop)
    (hQ : ∀ i s, ∀ d ∈ (body i s).divisors, Q d) (iteration : Nat) (s : σ) :
    ∀ d ∈ (whileLoop maxIterations rootOf body iteration s).divisors, Q d := by
  refine whileLoop_cases maxIterations rootOf body (fun _ _ r => ∀ d ∈ r.divisors, Q d)
    ?_ ?_ ?_ ?_ iteration s
  · intro i s _ d hd; cases hd
  · intro i s v _ _; exact hQ i s
  · intro i s s1 _ _; exact hQ i s
  · intro i s s1 r _ _ _ ih d hd
    rcases List.mem_append.mp hd with h | h
    · exact hQ i s d h
    · exact ih d h

/-- A relation between the row of a pass that reaches `iteration++` and the loop variables it
leaves holds between the `k`-th row and the `k`-th recorded state of a loop, for every `k`,
provided every such pass inserts a row. -/
theorem whileLoop_states (maxIterations : Nat) (rootOf : σ → JsVal K)
    (body : Nat → σ → Pass σ K) (Q : IterationRecord K → σ → Prop)
    (hQ : ∀ i s s1, (body i s).flow = Flow.next s1 →
      ∃ r, (body i s).row = some r ∧ Q r s1) (iteration : Nat) (s : σ) :
    ∀ p ∈ List.zip (whileLoop maxIterations rootOf body iteration s).rows
      (whileLoop maxIterations rootOf body iteration s).states, Q p.1 p.2 := by
  refine whileLoop_cases maxIterations rootOf body
    (fun _ _ r => ∀ p ∈ List.zip r.rows r.states, Q p.1 p.2) ?_ ?_ ?_ ?_ iteration s
  · intro i s _ p hp; simp at hp
  · intro i s v _ _ p hp; simp at hp
  · intro i s s1 _ _ p hp; simp at hp
  · intro i s s1 r _ hf _ ih p hp
    obtain ⟨r0, hrow, hq⟩ := hQ i s s1 hf
    simp only [hrow, Option.toList, List.singleton_append, List.zip_cons_cons,
      List.mem_cons] at hp
    rcases hp with rfl | hp
    · exact hq
    · exact ih p hp

/-- When every pass that reaches `iteration++` inserts a row, a loop records at most as many
states as rows. -/
theorem whileLoop_states_length (maxIterations : Nat) (rootOf : σ → JsVal K)
    (body : Nat → σ → Pass σ K)
    (hrow : ∀ i s s1, (body i s).flow = Flow.next s1 → ∃ r, (body i s).row = some r)
    (iteration : Nat) (s : σ) :
    (whileLoop maxIterations rootOf body iteration s).states.length ≤
      (whileLoop maxIterations rootOf body iteration s).rows.length := by
  refine whileLoop_cases maxIterations rootOf body
    (fun _ _ r => r.states.length ≤ r.rows.length) ?_ ?_ ?_ ?_ iteration s
  · intro i s _; exact le_refl _
  · intro i s v _ _; exact Nat.zero_le _
  · intro i s s1 _ _; exact Nat.zero_le _
  · intro i s s1 r _ hf _ ih
    obtain ⟨r0, hrow0⟩ := hrow i s s1 hf
    simp only [hrow0, Option.toList, List.singleton_append, List.length_cons]
    omega

/-- Induction over the passes of a loop whose variables satisfy an invariant `Inv`, which may
depend on the counter: `whileLoop_cases` for the states that the invariant admits. -/
theorem whileLoop_invariant (maxIterations : Nat) (rootOf : σ → JsVal K)
    (body : Nat → σ → Pass σ K) (Inv : Nat → σ → Prop)
    (hinv : ∀ i s s1, Inv i s → (body i s).flow = Flow.next s1 → Inv (i + 1) s1)
    (P : Nat → σ → Run σ K → Prop)
    (hexit : ∀ i s, Inv i s → ¬ i < maxIterations →
      P i s { result := JsVal.null, rows := [], errors := [], divisors := [], passes := 0,
              states := [] })
    (hret : ∀ i s v, Inv i s → i < maxIterations → (body i s).flow = Flow.ret v →
      P i s { result := v, rows := (body i s).row.toList, errors := (body i s).error.toList,
              divisors := (body i s).divisors, passes := 1, states := [] })
    (hbrk : ∀ i s s1, Inv i s → i < maxIterations → (body i s).flow = Flow.brk s1 →
      P i s { result := rootOf s1, rows := (body i s).row.toList,
              errors := (body i s).error.toList,
              divisors := (body i s).divisors, passes := 1, states := [] })
    (hnext : ∀ i s s1 r, Inv i s → i < maxIterations → (body i s).flow = Flow.next s1 →
      r = whileLoop maxIterations rootOf body (i + 1) s1 → P (i + 1) s1 r →
      P i s { result := r.result, rows := (body i s).row.toList ++ r.rows,
              errors := (body i s).error.toList ++ r.errors,
              divisors := (body i s).divisors ++ r.divisors, passes := r.passes + 1,
              states := s1 :: r.states })
    (iteration : Nat) (s : σ) (h0 : Inv iteration s) :
    P iteration s (whileLoop maxIterations rootOf body iteration s) := by
  revert h0
  refine whileLoop_cases maxIterations rootOf body (fun i s r => Inv i s → P i s r)
    ?_ ?_ ?_ ?_ iteration s
  · intro i s h hi; exact hexit i s hi h
  · intro i s v h hf hi; exact hret i s v hi h hf
  · intro i s s1 h hf hi; exact hbrk i s s1 hi h hf
  · intro i s s1 r h hf hr ih hi
    exact hnext i s s1 r hi h hf hr (ih (hinv i s s1 hi hf))

/-- Under an invariant of the loop variables, a property that every row of a pass from an
admitted state has holds for all rows of the loop. -/
theorem whileLoop_invariant_rows (maxIterations : Nat) (rootOf : σ → JsVal K)
    (body : Nat → σ → Pass σ K) (Inv : Nat → σ → Prop)
    (hinv : ∀ i s s1, Inv i s → (body i s).flow = Flow.next s1 → Inv (i + 1) s1)
    (Q : IterationRecord K → Prop)
    (hQ : ∀ i s r, Inv i s → (body i s).row = some r → Q r)
    (iteration : Nat) (s : σ) (h0 : Inv iteration s) :
    ∀ r ∈ (whileLoop maxIterations rootOf body iteration s).rows, Q r := by
  have one : ∀ i s, Inv i s → ∀ r ∈ (body i s).row.toList, Q r := by
    intro i s hi r hr
    cases hrow : (body i s).row with
    | none => rw [hrow] at hr; cases hr
    | some r0 =>
      rw [hrow] at hr
      simp only [Option.toList, List.mem_singleton] at hr
      rw [hr]; exact hQ i s r0 hi hrow
  refine whileLoop_invariant maxIterations rootOf body Inv hinv
    (fun _ _ r => ∀ r0 ∈ r.rows, Q r0) ?_ ?_ ?_ ?_ iteration s h0
  · intro i s _ _ r hr; cases hr
  · intro i s v hi _ _; exact one i s hi
  · intro i s s1 hi _ _; exact one i s hi
  · intro i s s1 r hi _ _ _ ih r0 hr0
    rcases List.mem_append.mp hr0 with h | h
    · exact one i s hi r0 h
    · exact ih r0 h

/-- Under an invariant of the loop variables, every recorded state satisfies the invariant for
some value of the counter. -/
theorem whileLoop_invariant_states (maxIterations : Nat) (rootOf : σ → JsVal K)
    (body : Nat → σ → Pass σ K) (Inv : Nat → σ → Prop)
    (hinv : ∀ i s s1, Inv i s → (body i s).flow = Flow.next s1 → Inv (i + 1) s1)
    (iteration : Nat) (s : σ) (h0 : Inv iteration s) :
    ∀ s1 ∈ (whileLoop maxIterations rootOf body iteration s).states, ∃ j, Inv j s1 := by
  refine whileLoop_invariant maxIterations rootOf body Inv hinv
    (fun _ _ r => ∀ s1 ∈ r.states, ∃ j, Inv j s1) ?_ ?_ ?_ ?_ iteration s h0
  · intro i s _ _ s1 hs; cases hs
  · intro i s v _ _ _ s1 hs; cases hs
  · intro i s s1 _ _ _ s2 hs; cases hs
  · intro i s s1 r hi _ hf _ ih s2 hs
    rcases List.mem_cons.mp hs with h | h
    · rw [h]; exact ⟨i + 1, hinv i s s1 hi hf⟩
    · exact ih s2 h

/-- Under an invariant of the loop variables that excludes a message to `console.error` in a
pass from an admitted state, the loop sends no message. -/
theorem whileLoop_invariant_errors (maxIterations : Nat) (rootOf : σ → JsVal K)
    (body : Nat → σ → Pass σ K) (Inv : Nat → σ → Prop)
    (hinv : ∀ i s s1, Inv i s → (body i s).flow = Flow.next s1 → Inv (i + 1) s1)
    (herr : ∀ i s, Inv i s → (body i s).error = none)
    (iteration : Nat) (s : σ) (h0 : Inv iteration s) :
    (whileLoop maxIterations rootOf body iteration s).errors = [] := by
  refine whileLoop_invariant maxIterations rootOf body Inv hinv
    (fun _ _ r => r.errors = []) ?_ ?_ ?_ ?_ iteration s h0
  · intro i s _ _; rfl
  · intro i s v hi _ _; show (body i s).error.toList = []; rw [herr i s hi]; rfl
  · intro i s s1 hi _ _; show (body i s).error.toList = []; rw [herr i s hi]; rfl
  · intro i s s1 r hi _ _ _ ih
    show (body i s).error.toList ++ r.errors = []
    rw [herr i s hi, ih]; rfl

/-- For a body that never throws, the loop for bodies that may throw does what `whileLoop`
does. -/
theorem whileLoopM_of_total (maxIterations : Nat) (rootOf : σ → JsVal K)
    (body : Nat → σ → Pass σ K) (iteration : Nat) (s : σ) :
    whileLoopM maxIterations rootOf (fun i s => some (body i s)) iteration s =
      { returned := some (whileLoop maxIterations rootOf body iteration s).result,
        rows := (whileLoop maxIterations rootOf body iteration s).rows,
        errors := (whileLoop maxIterations rootOf body iteration s).errors } := by
  refine whileLoop_cases maxIterations rootOf body
    (fun i s r => whileLoopM maxIterations rootOf (fun i s => some (body i s)) i s =
      { returned := some r.result, rows := r.rows, errors := r.errors }) ?_ ?_ ?_ ?_ iteration s
  · intro i s h
    rw [whileLoopM]; simp [h]
  · intro i s v h hf
    rw [whileLoopM]; simp [h, hf]
  · intro i s s1 h hf
    rw [whileLoopM]; simp [h, hf]
  · intro i s s1 r h hf hr ih
    rw [whileLoopM]; simp [h, hf, ih]

/-- The unrolled loop is the loop, when the fuel covers the passes left. -/
theorem whileLoop_eq_unrolled (maxIterations : Nat) (rootOf : σ → JsVal K)
    (body : Nat → σ → Pass σ K) (fuel : Nat) :
    ∀ (iteration : Nat) (s : σ), maxIterations - iteration ≤ fuel →
      whileLoop maxIterations rootOf body iteration s =
        whileLoopUnrolled maxIterations rootOf body fuel iteration s := by
  induction fuel with
  | zero =>
    intro i s h
    have hi : ¬ i < maxIterations := by omega
    rw [whileLoop_exit _ _ _ _ _ hi]
    simp [whileLoopUnrolled, hi]
  | succ n ih =>
    intro i s h
    by_cases hi : i < maxIterations
    · cases hf : (body i s).flow with
      | ret v =>
        rw [whileLoop_ret _ _ _ _ _ v hi hf]
        simp [whileLoopUnrolled, hi, hf]
      | brk s1 =>
        rw [whileLoop_brk _ _ _ _ _ s1 hi hf]
        simp [whileLoopUnrolled, hi, hf]
      | next s1 =>
        rw [whileLoop_next _ _ _ _ _ s1 hi hf, ih (i + 1) s1 (by omega)]
        simp [whileLoopUnrolled, hi, hf]
    · rw [whileLoop_exit _ _ _ _ _ hi]
      simp [whileLoopUnrolled, hi]

/-- A loop that returns `null` without a message to `console.error` has inserted exactly
`maxIterations - iteration` rows, each with the property `Q` that the row of every pass reaching
`iteration++` has.  Nothing is assumed of the numbers: a pass that ends in `return` sends a
message, a pass that ends in `break` leaves a number in `root`. -/
theorem whileLoop_exhausted_rows (maxIterations : Nat) (rootOf : σ → JsVal K)
    (body : Nat → σ → Pass σ K) (Q : IterationRecord K → Prop)
    (hret : ∀ i s v, (body i s).flow = Flow.ret v → ∃ msg, (body i s).error = some msg)
    (hbrk : ∀ i s s1, (body i s).flow = Flow.brk s1 → ∃ x, rootOf s1 = JsVal.num x)
    (hnext : ∀ i s s1, (body i s).flow = Flow.next s1 → ∃ r, (body i s).row = some r ∧ Q r)
    (iteration : Nat) (s : σ)
    (hnull : (whileLoop maxIterations rootOf body iteration s).result = JsVal.null)
    (herr : (whileLoop maxIterations rootOf body iteration s).errors = []) :
    (whileLoop maxIterations rootOf body iteration s).rows.length = maxIterations - iteration ∧
      ∀ r ∈ (whileLoop maxIterations rootOf body iteration s).rows, Q r := by
  revert hnull herr
  refine whileLoop_cases maxIterations rootOf body
    (fun i _ r => r.result = JsVal.null → r.errors = [] →
      r.rows.length = maxIterations - i ∧ ∀ r0 ∈ r.rows, Q r0)
    ?_ ?_ ?_ ?_ iteration s
  · intro i s h _ _
    refine ⟨by show 0 = _; omega, ?_⟩
    intro r0 hr0; cases hr0
  · intro i s v _ hf _ herr
    obtain ⟨msg, hmsg⟩ := hret i s v hf
    simp [hmsg] at herr
  · intro i s s1 _ hf hnull _
    obtain ⟨x, hx⟩ := hbrk i s s1 hf
    simp only at hnull
    rw [hx] at hnull; cases hnull
  · intro i s s1 r h hf _ ih hnull herr
    obtain ⟨r0, hrow, hq⟩ := hnext i s s1 hf
    have herr1 : r.errors = [] := by
      simp only [List.append_eq_nil] at herr; exact herr.2
    obtain ⟨hlen, hall⟩ := ih hnull herr1
    refine ⟨?_, ?_⟩
    · simp only [hrow, Option.toList, List.singleton_append, List.length_cons, hlen]; omega
    · intro r1 hr1
      simp only [hrow, Option.toList, List.singleton_append, List.mem_cons] at hr1
      rcases hr1 with rfl | hr1
      · exact hq
      · exact hall r1 hr1

/-- When every pass that reaches `iteration++` inserts a row and every row carries the number
`iteration + 1` of its pass, the rows of a loop started with the counter at `iteration` carry
the numbers `iteration + 1, iteration + 2, ...` in order.  Nothing is assumed of the numbers. -/
theorem whileLoop_row_numbers (maxIterations : Nat) (rootOf : σ → JsVal K)
    (body : Nat → σ → Pass σ K)
    (hnext : ∀ i s s1, (body i s).flow = Flow.next s1 → ∃ r, (body i s).row = some r)
    (hrow : ∀ i s r, (body i s).row = some r → r.iteration = i + 1)
    (iteration : Nat) (s : σ) :
    (whileLoop maxIterations rootOf body iteration s).rows.map IterationRecord.iteration =
      List.range' (iteration + 1)
        (whileLoop maxIterations rootOf body iteration s).rows.length := by
  refine whileLoop_cases maxIterations rootOf body
    (fun i _ r => r.rows.map IterationRecord.iteration = List.range' (i + 1) r.rows.length)
    ?_ ?_ ?_ ?_ iteration s
  · intro i s _; rfl
  · intro i s v _ hf
    cases hr : (body i s).row with
    | none => rfl
    | some r => simp [hrow i s r hr]
  · intro i s s1 _ hf
    cases hr : (body i s).row with
    | none => rfl
    | some r => simp [hrow i s r hr]
  · intro i s s1 r _ hf _ ih
    obtain ⟨r0, hr0⟩ := hnext i s s1 hf
    simp only [hr0, Option.toList, List.singleton_append, List.map_cons, List.length_cons, ih,
      hrow i s r0 hr0]
    rw [List.range'_succ]

end Loop

section Methods
variable {K : Type} [LinearOrderedField K] {σ : Type}

/-- The value returned by a loop is `null` or a number, never `undefined`. -/
theorem whileLoop_result {func : K → K} {tolerance : K} {rootOf : σ → JsVal K}
    {body : Nat → σ → Pass σ K} (hb : BodySpec func tolerance rootOf body)
    (maxIterations iteration : Nat) (s : σ) :
    (whileLoop maxIterations rootOf body iteration s).result = JsVal.null ∨
      ∃ x, (whileLoop maxIterations rootOf body iteration s).result = JsVal.num x := by
  refine whileLoop_cases maxIterations rootOf body
    (fun _ _ r => r.result = JsVal.null ∨ ∃ x, r.result = JsVal.num x) ?_ ?_ ?_ ?_ iteration s
  · intro i s _; exact Or.inl rfl
  · intro i s v _ hf; exact Or.inl (hb.ret_spec i s v hf).1
  · intro i s s1 _ hf
    obtain ⟨r, _, hr, _⟩ := hb.brk_spec i s s1 hf
    exact Or.inr ⟨r.root, hr⟩
  · intro i s s1 r _ _ _ ih; exact ih

/-- The rows of a loop started with the counter at `iteration` carry the numbers
`iteration + 1, iteration + 2, ...` in order. -/
theorem whileLoop_indices {func : K → K} {tolerance : K} {rootOf : σ → JsVal K}
    {body : Nat → σ → Pass σ K} (hb : BodySpec func tolerance rootOf body)
    (maxIterations iteration : Nat) (s : σ) :
    (whileLoop maxIterations rootOf body iteration s).rows.map IterationRecord.iteration =
      List.range' (iteration + 1) (whileLoop maxIterations rootOf body iteration s).rows.length := by
  refine whileLoop_cases maxIterations rootOf body
    (fun i _ r => r.rows.map IterationRecord.iteration = List.range' (i + 1) r.rows.length)
    ?_ ?_ ?_ ?_ iteration s
  · intro i s _; rfl
  · intro i s v _ hf
    cases hrow : (body i s).row with
    | none => rfl
    | some r => simp [(hb.row_spec i s r hrow).1]
  · intro i s s1 _ hf
    cases hrow : (body i s).row with
    | none => rfl
    | some r => simp [(hb.row_spec i s r hrow).1]
  · intro i s s1 r _ hf _ ih
    obtain ⟨r0, hrow, _, _⟩ := hb.next_spec i s s1 hf
    simp only [hrow, Option.toList, List.singleton_append, List.map_cons, List.length_cons, ih,
      (hb.row_spec i s r0 hrow).1]
    rw [List.range'_succ]

/-- A number returned by a loop is the root estimate of the last row, whose residual is below
the tolerance. -/
theorem whileLoop_converged {func : K → K} {tolerance : K} {rootOf : σ → JsVal K}
    {body : Nat → σ → Pass σ K} (hb : BodySpec func tolerance rootOf body)
    (maxIterations iteration : Nat) (s : σ) (x : K)
    (hx : (whileLoop maxIterations rootOf body iteration s).result = JsVal.num x) :
    ∃ last, (whileLoop maxIterations rootOf body iteration s).rows.getLast? = some last ∧
      last.root = x ∧ last.froot = func x ∧ |func x| < tolerance := by
  revert hx
  refine whileLoop_cases maxIterations rootOf body
    (fun _ _ r => r.result = JsVal.num x → ∃ last, r.rows.getLast? = some last ∧
      last.root = x ∧ last.froot = func x ∧ |func x| < tolerance) ?_ ?_ ?_ ?_ iteration s
  · intro i s _ h; cases h
  · intro i s v _ hf h
    have := (hb.ret_spec i s v hf).1
    simp only at h
    rw [this] at h; cases h
  · intro i s s1 _ hf h
    obtain ⟨r, hrow, hr, hlt⟩ := hb.brk_spec i s s1 hf
    simp only at h
    rw [hr] at h
    injection h with h
    have hfr := (hb.row_spec i s r hrow).2
    refine ⟨r, by simp [hrow], h, ?_, ?_⟩
    · rw [hfr, h]
    · rw [← h, ← hfr]; exact hlt
  · intro i s s1 r _ hf hr ih h
    obtain ⟨last, hlast, h1⟩ := ih h
    refine ⟨last, ?_, h1⟩
    simp only
    rw [List.getLast?_append, hlast]; rfl

/-- A loop that returns `null` without a message to `console.error` has inserted exactly
`maxIterations - iteration` rows, none with a residual below the tolerance. -/
theorem whileLoop_exhausted {func : K → K} {tolerance : K} {rootOf : σ → JsVal K}
    {body : Nat → σ → Pass σ K} (hb : BodySpec func tolerance rootOf body)
    (maxIterations iteration : Nat) (s : σ)
    (hnull : (whileLoop maxIterations rootOf body iteration s).result = JsVal.null)
    (herr : (whileLoop maxIterations rootOf body iteration s).errors = []) :
    (whileLoop maxIterations rootOf body iteration s).rows.length = maxIterations - iteration ∧
      ∀ r ∈ (whileLoop maxIterations rootOf body iteration s).rows,
        r.froot = func r.root ∧ tolerance ≤ |func r.root| := by
  revert hnull herr
  refine whileLoop_cases maxIterations rootOf body
    (fun i _ r => r.result = JsVal.null → r.errors = [] →
      r.rows.length = maxIterations - i ∧
        ∀ r0 ∈ r.rows, r0.froot = func r0.root ∧ tolerance ≤ |func r0.root|)
    ?_ ?_ ?_ ?_ iteration s
  · intro i s h _ _
    refine ⟨by show 0 = _; omega, ?_⟩
    intro r0 hr0; cases hr0
  · intro i s v _ hf _ herr
    obtain ⟨_, msg, hmsg⟩ := hb.ret_spec i s v hf
    simp [hmsg] at herr
  · intro i s s1 _ hf hnull _
    obtain ⟨r, _, hr, _⟩ := hb.brk_spec i s s1 hf
    simp only at hnull
    rw [hr] at hnull; cases hnull
  · intro i s s1 r h hf _ ih hnull herr
    obtain ⟨r0, hrow, _, hge⟩ := hb.next_spec i s s1 hf
    have herr1 : r.errors = [] := by
      simp only [List.append_eq_nil] at herr; exact herr.2
    obtain ⟨hlen, hall⟩ := ih hnull herr1
    refine ⟨?_, ?_⟩
    · simp only [hrow, Option.toList, List.singleton_append, List.length_cons, hlen]; omega
    · intro r1 hr1
      simp only [hrow, Option.toList, List.singleton_append, List.mem_cons] at hr1
      rcases hr1 with rfl | hr1
      · have hfr := (hb.row_spec i s r1 hrow).2
        exact ⟨hfr, by rw [← hfr]; exact not_lt.mp hge⟩
      · exact hall r1 hr1

/-! ## The four loop bodies -/

/-- The loop body of `falsePosition` meets `BodySpec`. -/
theorem falsePositionBody_spec (func : K → K) (tolerance : K) :
    BodySpec func tolerance Vars.root (falsePositionBody func tolerance) := by
  constructor
  · intro i s v h
    unfold falsePositionBody at h ⊢
    dsimp only at h ⊢
    split_ifs at h ⊢
    all_goals simp_all
  · intro i s s1 h
    unfold falsePositionBody at h ⊢
    dsimp only at h ⊢
    split_ifs at h ⊢
    all_goals simp_all
    all_goals first | done | (subst h; simp)
  · intro i s s1 h
    unfold falsePositionBody at h ⊢
    dsimp only at h ⊢
    split_ifs at h ⊢
    all_goals simp_all
    all_goals first | done | (subst h; simp)
  · intro i s r h
    unfold falsePositionBody at h
    dsimp only at h
    split_ifs at h
    all_goals simp_all
    all_goals first | done | (subst h; simp)

/-- The loop body of `bisection` meets `BodySpec`. -/
theorem bisectionBody_spec (func : K → K) (tolerance : K) :
    BodySpec func tolerance Vars.root (bisectionBody func tolerance) := by
  constructor
  · intro i s v h
    unfold bisectionBody at h ⊢
    dsimp only at h ⊢
    split_ifs at h ⊢
    all_goals simp_all
  · intro i s s1 h
    unfold bisectionBody at h ⊢
    dsimp only at h ⊢
    split_ifs at h ⊢
    all_goals simp_all
    all_goals first | done | (subst h; simp)
  · intro i s s1 h
    unfold bisectionBody at h ⊢
    dsimp only at h ⊢
    split_ifs at h ⊢
    all_goals simp_all
    all_goals first | done | (subst h; simp)
  · intro i s r h
    unfold bisectionBody at h
    dsimp only at h
    split_ifs at h
    all_goals simp_all
    all_goals first | done | (subst h; simp)

/-- The loop body of `newtonRaphson` meets `BodySpec`. -/
theorem newtonRaphsonBody_spec (func : K → K) (tolerance : K) :
    BodySpec func tolerance JsVal.num (newtonRaphsonBody func tolerance) := by
  constructor
  · intro i s v h
    unfold newtonRaphsonBody at h ⊢
    dsimp only at h ⊢
    split_ifs at h ⊢
    all_goals simp_all
  · intro i s s1 h
    unfold newtonRaphsonBody at h ⊢
    dsimp only at h ⊢
    split_ifs at h ⊢
    all_goals simp_all
  · intro i s s1 h
    unfold newtonRaphsonBody at h ⊢
    dsimp only at h ⊢
    split_ifs at h ⊢
    all_goals simp_all
  · intro i s r h
    unfold newtonRaphsonBody at h
    dsimp only at h
    split_ifs at h
    all_goals simp_all
    all_goals first | done | (subst h; simp)

/-- The loop body of `secant` meets `BodySpec`. -/
theorem secantBody_spec (func : K → K) (tolerance : K) :
    BodySpec func tolerance Vars.root (secantBody func tolerance) := by
  constructor
  · intro i s v h
    unfold secantBody at h ⊢
    dsimp only at h ⊢
    split_ifs at h ⊢
    all_goals simp_all
  · intro i s s1 h
    unfold secantBody at h ⊢
    dsimp only at h ⊢
    split_ifs at h ⊢
    all_goals simp_all
    all_goals first | done | (subst h; simp)
  · intro i s s1 h
    unfold secantBody at h ⊢
    dsimp only at h ⊢
    split_ifs at h ⊢
    all_goals simp_all
    all_goals first | done | (subst h; simp)
  · intro i s r h
    unfold secantBody at h
    dsimp only at h
    split_ifs at h
    all_goals simp_all
    all_goals first | done | (subst h; simp)

/-- When the first `k` passes of a loop all reach `iteration++` and pass `k + 1`, still within
the bound, inserts a row whose residual is below the tolerance and thereupon ends in `break`,
the loop inserts exactly `k + 1` rows, that row last, and returns its root estimate. -/
theorem whileLoop_first_converged {func : K → K} {tolerance : K} {rootOf : σ → JsVal K}
    {body : Nat → σ → Pass σ K} (hb : BodySpec func tolerance rootOf body)
    (hstop : ∀ i s r, (body i s).row = some r → |r.froot| < tolerance →
      ∃ s1, (body i s).flow = Flow.brk s1)
    (maxIterations k : Nat) :
    ∀ (iteration : Nat) (s sk : σ) (r : IterationRecord K),
      iteration + k < maxIterations → stateAfter body iteration s k = some sk →
      (body (iteration + k) sk).row = some r → |r.froot| < tolerance →
      (whileLoop maxIterations rootOf body iteration s).rows.length = k + 1 ∧
      (whileLoop maxIterations rootOf body iteration s).rows.getLast? = some r ∧
      (whileLoop maxIterations rootOf body iteration s).result = JsVal.num r.root := by
  induction k with
  | zero =>
    intro i s sk r hlt hst hrow hconv
    simp only [stateAfter, Option.some.injEq] at hst
    subst hst
    rw [Nat.add_zero] at hrow hlt
    obtain ⟨s1, hf⟩ := hstop i s r hrow hconv
    obtain ⟨r1, hrow1, hroot, _⟩ := hb.brk_spec i s s1 hf
    rw [hrow] at hrow1
    injection hrow1 with hrr
    subst hrr
    rw [whileLoop_brk _ _ _ _ _ s1 hlt hf, hrow]
    exact ⟨rfl, rfl, hroot⟩
  | succ k ih =>
    intro i s sk r hlt hst hrow hconv
    have hi : i < maxIterations := by omega
    cases hf : (body i s).flow with
    | ret v => simp [stateAfter, hf] at hst
    | brk s1 => simp [stateAfter, hf] at hst
    | next s1 =>
      simp only [stateAfter, hf] at hst
      have hidx : i + (k + 1) = i + 1 + k := by omega
      rw [hidx] at hrow
      obtain ⟨h1, h2, h3⟩ := ih (i + 1) s1 sk r (by omega) hst hrow hconv
      obtain ⟨r0, hrow0, _, _⟩ := hb.next_spec i s s1 hf
      rw [whileLoop_next _ _ _ _ _ s1 hi hf, hrow0]
      refine ⟨?_, ?_, h3⟩
      · simp only [Option.toList, List.singleton_append, List.length_cons, h1]
      · simp only [Option.toList]
        rw [List.getLast?_append, h2]; rfl

/-- In each of the four loop bodies the convergence test follows the insertion of the row: a
pass that inserted a row whose residual is below the tolerance ends in `break`. -/
theorem bodies_break_on_converged_row (func : K → K) (tolerance : K) :
    (∀ i s r, (bisectionBody func tolerance i s).row = some r → |r.froot| < tolerance →
      ∃ s1, (bisectionBody func tolerance i s).flow = Flow.brk s1) ∧
    (∀ i s r, (falsePositionBody func tolerance i s).row = some r → |r.froot| < tolerance →
      ∃ s1, (falsePositionBody func tolerance i s).flow = Flow.brk s1) ∧
    (∀ i s r, (newtonRaphsonBody func tolerance i s).row = some r → |r.froot| < tolerance →
      ∃ s1, (newtonRaphsonBody func tolerance i s).flow = Flow.brk s1) ∧
    (∀ i s r, (secantBody func tolerance i s).row = some r → |r.froot| < tolerance →
      ∃ s1, (secantBody func tolerance i s).flow = Flow.brk s1) := by
  refine ⟨?_, ?_, ?_, ?_⟩
  · intro i s r h hc
    unfold bisectionBody at h ⊢
    dsimp only at h ⊢
    split_ifs at h ⊢
    all_goals first
      | exact ⟨_, rfl⟩
      | (injection h with h; subst h; exact absurd hc (by assumption))
  · intro i s r h hc
    unfold falsePositionBody at h ⊢
    dsimp only at h ⊢
    split_ifs at h ⊢
    all_goals first
      | exact ⟨_, rfl⟩
      | (injection h with h; subst h; exact absurd hc (by assumption))
  · intro i s r h hc
    unfold newtonRaphsonBody at h ⊢
    dsimp only at h ⊢
    split_ifs at h ⊢
    all_goals first
      | exact ⟨_, rfl⟩
      | (injection h with h; subst h; exact absurd hc (by assumption))
  · intro i s r h hc
    unfold secantBody at h ⊢
    dsimp only at h ⊢
    split_ifs at h ⊢
    all_goals first
      | exact ⟨_, rfl⟩
      | (injection h with h; subst h; exact absurd hc (by assumption))

/-- The four ways a pass of `bisection` can go, with the pass written out in each: the
same-sign failure, convergence, and the two bracket updates.  Here `root` is the midpoint and
`r` the row of the pass. -/
theorem bisectionBody_cases (func : K → K) (tolerance : K) (i : Nat) (s : Vars K)
    (root : K) (r : IterationRecord K) (hroot : root = s.a + (s.b - s.a) / 2)
    (hr : r = { method := "Bisection", iteration := i + 1, a := some s.a, b := some s.b,
                root := root, fa := func s.a, fb := some (func s.b), froot := func root }) :
    (func s.a * func s.b > 0 →
      bisectionBody func tolerance i s =
        { flow := Flow.ret JsVal.null, row := none,
          error :=
            some "Bisection method failed: endpoints have the same sign or no convergence.",
          divisors := [] }) ∧
    (¬ func s.a * func s.b > 0 → |func root| < tolerance →
      bisectionBody func tolerance i s =
        { flow := Flow.brk { a := s.a, b := s.b, root := JsVal.num root },
          row := some r, error := none, divisors := [2] }) ∧
    (¬ func s.a * func s.b > 0 → ¬ |func root| < tolerance → func root * func s.a < 0 →
      bisectionBody func tolerance i s =
        { flow := Flow.next { a := s.a, b := root, root := JsVal.num root },
          row := some r, error := none, divisors := [2] }) ∧
    (¬ func s.a * func s.b > 0 → ¬ |func root| < tolerance → ¬ func root * func s.a < 0 →
      bisectionBody func tolerance i s =
        { flow := Flow.next { a := root, b := s.b, root := JsVal.num root },
          row := some r, error := none, divisors := [2] }) := by
  subst hroot hr
  refine ⟨?_, ?_, ?_, ?_⟩
  · intro h1
    unfold bisectionBody
    dsimp only
    rw [if_pos h1]
  · intro h1 h2
    unfold bisectionBody
    dsimp only
    rw [if_neg h1, if_pos h2]
  · intro h1 h2 h3
    unfold bisectionBody
    dsimp only
    rw [if_neg h1, if_neg h2, if_pos h3, if_pos h3]
  · intro h1 h2 h3
    unfold bisectionBody
    dsimp only
    rw [if_neg h1, if_neg h2, if_neg h3, if_neg h3]

/-- The ways a pass of `falsePosition` can go, with the pass written out in each: the
equal-function-value failure, convergence, and after the bracket update the outside-interval
failure or the continuation.  Here `root` is the interpolated estimate, `r` the row of the pass
and `a1`, `b1` the endpoints after the update. -/
theorem falsePositionBody_cases (func : K → K) (tolerance : K) (i : Nat) (s : Vars K)
    (root a1 b1 : K) (r : IterationRecord K)
    (hroot : root = (s.a * func s.b - s.b * func s.a) / (func s.b - func s.a))
    (hr : r = { method := "False Position", iteration := i + 1, a := some s.a, b := some s.b,
                root := root, fa := func s.a, fb := some (func s.b), froot := func root })
    (ha1 : a1 = if func root * func s.a < 0 then s.a else root)
    (hb1 : b1 = if func root * func s.a < 0 then root else s.b) :
    (func s.a = func s.b →
      falsePositionBody func tolerance i s =
        { flow := Flow.ret JsVal.null, row := none,
          error := some "False Position method failed: division by zero or no convergence.",
          divisors := [] }) ∧
    (func s.a ≠ func s.b → |func root| < tolerance →
      falsePositionBody func tolerance i s =
        { flow := Flow.brk { a := s.a, b := s.b, root := JsVal.num root },
          row := some r, error := none, divisors := [func s.b - func s.a] }) ∧
    (func s.a ≠ func s.b → ¬ |func root| < tolerance → (root < a1 ∨ root > b1) →
      falsePositionBody func tolerance i s =
        { flow := Flow.ret JsVal.null, row := some r,
          error := some
            "False Position method failed: root estimate outside the interval [a, b].",
          divisors := [func s.b - func s.a] }) ∧
    (func s.a ≠ func s.b → ¬ |func root| < tolerance → ¬ (root < a1 ∨ root > b1) →
      falsePositionBody func tolerance i s =
        { flow := Flow.next { a := a1, b := b1, root := JsVal.num root },
          row := some r, error := none, divisors := [func s.b - func s.a] }) := by
  subst hroot hr ha1 hb1
  refine ⟨?_, ?_, ?_, ?_⟩
  · intro h1
    unfold falsePositionBody
    dsimp only
    rw [if_pos h1]
  · intro h1 h2
    unfold falsePositionBody
    dsimp only
    rw [if_neg h1, if_pos h2]
  · intro h1 h2 h3
    unfold falsePositionBody
    dsimp only
    rw [if_neg h1, if_neg h2, if_pos h3]
  · intro h1 h2 h3
    unfold falsePositionBody
    dsimp only
    rw [if_neg h1, if_neg h2, if_neg h3]

/-- Sign bookkeeping for a bracket update: when `x` and `y` have opposite signs and `z` has the
sign of `x`, then `z` and `y` have opposite signs. -/
theorem mul_neg_of_same_sign {x y z : K} (hxy : x * y < 0) (hzx : 0 < z * x) : z * y < 0 := by
  by_contra hcon
  have hzy : 0 ≤ z * y := not_lt.mp hcon
  have hz : z ≠ 0 := by
    intro h0
    rw [h0, zero_mul] at hzx
    exact lt_irrefl _ hzx
  have hz2 : 0 < z * z := mul_self_pos.mpr hz
  have hneg : (z * z) * (x * y) < 0 := mul_neg_of_pos_of_neg hz2 hxy
  have hnn : 0 ≤ (z * x) * (z * y) := mul_nonneg hzx.le hzy
  have heq : (z * x) * (z * y) = (z * z) * (x * y) := by ring
  rw [heq] at hnn
  exact absurd hneg (not_lt.mpr hnn)

/-- A run of `bisection` under an invariant `Inv` of the bracket that excludes the same-sign
failure and that both bracket updates of a non-converging pass preserve: every row shows a
bracket satisfying `Inv`, every updated bracket satisfies `Inv`, no message is sent to
`console.error`, and the call returns a number or returns `null` after exactly
`maxIterations` rows. -/
theorem bisection_under_invariant (func : K → K) (a b tolerance : K) (maxIterations : Nat)
    (Inv : Vars K → Prop)
    (hguard : ∀ s, Inv s → ¬ func s.a * func s.b > 0)
    (hleft : ∀ s, Inv s → ¬ |func (s.a + (s.b - s.a) / 2)| < tolerance →
      func (s.a + (s.b - s.a) / 2) * func s.a < 0 →
      Inv { a := s.a, b := s.a + (s.b - s.a) / 2, root := JsVal.num (s.a + (s.b - s.a) / 2) })
    (hright : ∀ s, Inv s → ¬ |func (s.a + (s.b - s.a) / 2)| < tolerance →
      ¬ func (s.a + (s.b - s.a) / 2) * func s.a < 0 →
      Inv { a := s.a + (s.b - s.a) / 2, b := s.b, root := JsVal.num (s.a + (s.b - s.a) / 2) })
    (h0 : Inv { a := a, b := b, root := JsVal.undefined }) :
    (∀ r ∈ (bisection func a b tolerance maxIterations).rows,
      ∃ s, Inv s ∧ r.a = some s.a ∧ r.b = some s.b ∧ r.fa = func s.a ∧
        r.fb = some (func s.b)) ∧
    (∀ s ∈ (bisection func a b tolerance maxIterations).states, Inv s) ∧
    (bisection func a b tolerance maxIterations).errors = [] ∧
    ((∃ x, (bisection func a b tolerance maxIterations).result = JsVal.num x) ∨
      ((bisection func a b tolerance maxIterations).result = JsVal.null ∧
        (bisection func a b tolerance maxIterations).rows.length = maxIterations)) := by
  have hinv : ∀ (i : Nat) (s s1 : Vars K), Inv s →
      (bisectionBody func tolerance i s).flow = Flow.next s1 → Inv s1 := by
    intro i s s1 hi hf
    obtain ⟨_, c2, c3, c4⟩ := bisectionBody_cases func tolerance i s _ _ rfl rfl
    have h1 := hguard s hi
    by_cases h2 : |func (s.a + (s.b - s.a) / 2)| < tolerance
    · rw [c2 h1 h2] at hf; cases hf
    · by_cases h3 : func (s.a + (s.b - s.a) / 2) * func s.a < 0
      · rw [c3 h1 h2 h3] at hf
        injection hf with hf
        rw [← hf]; exact hleft s hi h2 h3
      · rw [c4 h1 h2 h3] at hf
        injection hf with hf
        rw [← hf]; exact hright s hi h2 h3
  have hrow : ∀ (i : Nat) (s : Vars K) (r : IterationRecord K), Inv s →
      (bisectionBody func tolerance i s).row = some r →
      ∃ s0, Inv s0 ∧ r.a = some s0.a ∧ r.b = some s0.b ∧ r.fa = func s0.a ∧
        r.fb = some (func s0.b) := by
    intro i s r hi hr
    obtain ⟨_, c2, c3, c4⟩ := bisectionBody_cases func tolerance i s _ _ rfl rfl
    have h1 := hguard s hi
    by_cases h2 : |func (s.a + (s.b - s.a) / 2)| < tolerance
    · rw [c2 h1 h2] at hr
      injection hr with hr
      rw [← hr]; exact ⟨s, hi, rfl, rfl, rfl, rfl⟩
    · by_cases h3 : func (s.a + (s.b - s.a) / 2) * func s.a < 0
      · rw [c3 h1 h2 h3] at hr
        injection hr with hr
        rw [← hr]; exact ⟨s, hi, rfl, rfl, rfl, rfl⟩
      · rw [c4 h1 h2 h3] at hr
        injection hr with hr
        rw [← hr]; exact ⟨s, hi, rfl, rfl, rfl, rfl⟩
  have herr : ∀ (i : Nat) (s : Vars K), Inv s →
      (bisectionBody func tolerance i s).error = none := by
    intro i s hi
    obtain ⟨_, c2, c3, c4⟩ := bisectionBody_cases func tolerance i s _ _ rfl rfl
    have h1 := hguard s hi
    by_cases h2 : |func (s.a + (s.b - s.a) / 2)| < tolerance
    · rw [c2 h1 h2]
    · by_cases h3 : func (s.a + (s.b - s.a) / 2) * func s.a < 0
      · rw [c3 h1 h2 h3]
      · rw [c4 h1 h2 h3]
  have hstates := whileLoop_invariant_states maxIterations Vars.root
    (bisectionBody func tolerance) (fun _ s => Inv s) hinv 0 _ h0
  have herrors := whileLoop_invariant_errors maxIterations Vars.root
    (bisectionBody func tolerance) (fun _ s => Inv s) hinv herr 0 _ h0
  have hrows := whileLoop_invariant_rows maxIterations Vars.root
    (bisectionBody func tolerance) (fun _ s => Inv s) hinv _ hrow 0 _ h0
  refine ⟨hrows, ?_, herrors, ?_⟩
  · intro s hs
    obtain ⟨_, h⟩ := hstates s hs
    exact h
  · rcases whileLoop_result (bisectionBody_spec func tolerance) maxIterations 0
        { a := a, b := b, root := JsVal.undefined } with h | h
    · exact Or.inr ⟨h, (whileLoop_exhausted (bisectionBody_spec func tolerance)
        maxIterations 0 _ h herrors).1⟩
    · exact Or.inl h

/-- The interpolated estimate of `falsePosition` lies strictly between the endpoints when they
are in order and the function values there have opposite signs. -/
theorem interpolation_strictly_between {a b fa fb : K} (hab : a < b) (hf : fa * fb < 0) :
    a < (a * fb - b * fa) / (fb - fa) ∧ (a * fb - b * fa) / (fb - fa) < b := by
  have hba : 0 < b - a := sub_pos.mpr hab
  rcases mul_neg_iff.mp hf with ⟨hfa, hfb⟩ | ⟨hfa, hfb⟩
  · have hd : fb - fa < 0 := by linarith
    have h1 : 0 < (b - a) * fa := mul_pos hba hfa
    have h2 : (b - a) * fb < 0 := mul_neg_of_pos_of_neg hba hfb
    constructor
    · rw [lt_div_iff_of_neg hd]; linarith
    · rw [div_lt_iff_of_neg hd]; linarith
  · have hd : 0 < fb - fa := by linarith
    have h1 : (b - a) * fa < 0 := mul_neg_of_pos_of_neg hba hfa
    have h2 : 0 < (b - a) * fb := mul_pos hba hfb
    constructor
    · rw [lt_div_iff₀ hd]; linarith
    · rw [div_lt_iff₀ hd]; linarith

/-- A pass of `falsePosition` from an ordered bracket with a sign change, for a positive
tolerance: neither failure happens, the row of the pass shows the bracket and an estimate
strictly inside it, and a pass that reaches `iteration++` leaves an ordered bracket with a sign
change. -/
theorem falsePositionBody_ordered (func : K → K) (tolerance : K) (i : Nat) (s : Vars K)
    (htol : 0 < tolerance) (hab : s.a < s.b) (hf : func s.a * func s.b < 0) :
    (falsePositionBody func tolerance i s).error = none ∧
    (∃ r, (falsePositionBody func tolerance i s).row = some r ∧ r.a = some s.a ∧
      r.b = some s.b ∧ r.fa = func s.a ∧ r.fb = some (func s.b) ∧ s.a < r.root ∧
      r.root < s.b) ∧
    (∀ s1, (falsePositionBody func tolerance i s).flow = Flow.next s1 →
      s1.a < s1.b ∧ func s1.a * func s1.b < 0) := by
  have hne : func s.a ≠ func s.b := by
    intro h
    rw [h] at hf
    exact absurd hf (not_lt.mpr (mul_self_nonneg _))
  obtain ⟨hlo, hhi⟩ := interpolation_strictly_between hab hf
  by_cases h2 : |func ((s.a * func s.b - s.b * func s.a) / (func s.b - func s.a))| < tolerance
  · have hc := (falsePositionBody_cases func tolerance i s _ _ _ _ rfl rfl rfl rfl).2.1 hne h2
    rw [hc]
    refine ⟨rfl, ⟨_, rfl, rfl, rfl, rfl, rfl, hlo, hhi⟩, ?_⟩
    intro s1 h; cases h
  · have hrne : func ((s.a * func s.b - s.b * func s.a) / (func s.b - func s.a)) ≠ 0 := by
      intro h0
      rw [h0, abs_zero] at h2
      exact h2 htol
    by_cases h3 : func ((s.a * func s.b - s.b * func s.a) / (func s.b - func s.a)) *
        func s.a < 0
    · have hg : ¬ ((s.a * func s.b - s.b * func s.a) / (func s.b - func s.a) < s.a ∨
          (s.a * func s.b - s.b * func s.a) / (func s.b - func s.a) >
            (s.a * func s.b - s.b * func s.a) / (func s.b - func s.a)) := by
        rintro (h | h)
        · exact absurd hlo (not_lt.mpr (le_of_lt h))
        · exact lt_irrefl _ h
      have hc := (falsePositionBody_cases func tolerance i s _ s.a
        ((s.a * func s.b - s.b * func s.a) / (func s.b - func s.a)) _ rfl rfl
        (by rw [if_pos h3]) (by rw [if_pos h3])).2.2.2 hne h2 hg
      rw [hc]
      refine ⟨rfl, ⟨_, rfl, rfl, rfl, rfl, rfl, hlo, hhi⟩, ?_⟩
      intro s1 h
      injection h with h
      rw [← h]
      refine ⟨hlo, ?_⟩
      show func s.a * func ((s.a * func s.b - s.b * func s.a) / (func s.b - func s.a)) < 0
      rw [mul_comm]; exact h3
    · have hg : ¬ ((s.a * func s.b - s.b * func s.a) / (func s.b - func s.a) <
            (s.a * func s.b - s.b * func s.a) / (func s.b - func s.a) ∨
          (s.a * func s.b - s.b * func s.a) / (func s.b - func s.a) > s.b) := by
        rintro (h | h)
        · exact lt_irrefl _ h
        · exact absurd hhi (not_lt.mpr (le_of_lt h))
      have hc := (falsePositionBody_cases func tolerance i s _
        ((s.a * func s.b - s.b * func s.a) / (func s.b - func s.a)) s.b _ rfl rfl
        (by rw [if_neg h3]) (by rw [if_neg h3])).2.2.2 hne h2 hg
      rw [hc]
      refine ⟨rfl, ⟨_, rfl, rfl, rfl, rfl, rfl, hlo, hhi⟩, ?_⟩
      intro s1 h
      injection h with h
      rw [← h]
      refine ⟨hhi, ?_⟩
      have hane : func s.a ≠ 0 := by
        intro h0
        rw [h0, zero_mul] at hf
        exact lt_irrefl _ hf
      have hpos : 0 < func ((s.a * func s.b - s.b * func s.a) / (func s.b - func s.a)) *
          func s.a := lt_of_le_of_ne (not_lt.mp h3) (Ne.symm (mul_ne_zero hrne hane))
      exact mul_neg_of_same_sign hf hpos

/-- The row of a pass of `bisection`, when it inserts one: the bracket, the midpoint and the
three function values. -/
theorem bisectionBody_row (func : K → K) (tolerance : K) (i : Nat) (s : Vars K)
    (r : IterationRecord K) (hr : (bisectionBody func tolerance i s).row = some r) :
    r = { method := "Bisection", iteration := i + 1, a := some s.a, b := some s.b,
          root := s.a + (s.b - s.a) / 2, fa := func s.a, fb := some (func s.b),
          froot := func (s.a + (s.b - s.a) / 2) } := by
  obtain ⟨c1, c2, c3, c4⟩ := bisectionBody_cases func tolerance i s _ _ rfl rfl
  by_cases h1 : func s.a * func s.b > 0
  · rw [c1 h1] at hr; cases hr
  · by_cases h2 : |func (s.a + (s.b - s.a) / 2)| < tolerance
    · rw [c2 h1 h2] at hr
      injection hr with hr
      exact hr.symm
    · by_cases h3 : func (s.a + (s.b - s.a) / 2) * func s.a < 0
      · rw [c3 h1 h2 h3] at hr
        injection hr with hr
        exact hr.symm
      · rw [c4 h1 h2 h3] at hr
        injection hr with hr
        exact hr.symm

/-- A pass of `bisection` that reaches `iteration++` leaves a bracket of half the width. -/
theorem bisectionBody_next_width (func : K → K) (tolerance : K) (i : Nat) (s s1 : Vars K)
    (hf : (bisectionBody func tolerance i s).flow = Flow.next s1) :
    s1.b - s1.a = (s.b - s.a) / 2 := by
  obtain ⟨c1, c2, c3, c4⟩ := bisectionBody_cases func tolerance i s _ _ rfl rfl
  by_cases h1 : func s.a * func s.b > 0
  · rw [c1 h1] at hf; cases hf
  · by_cases h2 : |func (s.a + (s.b - s.a) / 2)| < tolerance
    · rw [c2 h1 h2] at hf; cases hf
    · by_cases h3 : func (s.a + (s.b - s.a) / 2) * func s.a < 0
      · rw [c3 h1 h2 h3] at hf
        injection hf with hf
        rw [← hf]
        show s.a + (s.b - s.a) / 2 - s.a = (s.b - s.a) / 2
        ring
      · rw [c4 h1 h2 h3] at hf
        injection hf with hf
        rw [← hf]
        show s.b - (s.a + (s.b - s.a) / 2) = (s.b - s.a) / 2
        ring

/-- For a function that never throws, the four methods for functions that may throw return
what `falsePosition`, `bisection`, `newtonRaphson` and `secant` return, with the same rows and
messages. -/
theorem methodsM_of_total (func : K → K) (a b initialGuess tolerance : K)
    (maxIterations : Nat) :
    falsePositionM (fun x => some (func x)) a b tolerance maxIterations =
      { returned := some (falsePosition func a b tolerance maxIterations).result,
        rows := (falsePosition func a b tolerance maxIterations).rows,
        errors := (falsePosition func a b tolerance maxIterations).errors } ∧
    bisectionM (fun x => some (func x)) a b tolerance maxIterations =
      { returned := some (bisection func a b tolerance maxIterations).result,
        rows := (bisection func a b tolerance maxIterations).rows,
        errors := (bisection func a b tolerance maxIterations).errors } ∧
    newtonRaphsonM (fun x => some (func x)) initialGuess tolerance maxIterations =
      { returned := some (newtonRaphson func initialGuess tolerance maxIterations).result,
        rows := (newtonRaphson func initialGuess tolerance maxIterations).rows,
        errors := (newtonRaphson func initialGuess tolerance maxIterations).errors } ∧
    secantM (fun x => some (func x)) a b tolerance maxIterations =
      { returned := some (secant func a b tolerance maxIterations).result,
        rows := (secant func a b tolerance maxIterations).rows,
        errors := (secant func a b tolerance maxIterations).errors } := by
  have hf : falsePositionBodyM (fun x => some (func x)) tolerance =
      fun i s => some (falsePositionBody func tolerance i s) := by
    funext i s
    unfold falsePositionBodyM falsePositionBody
    dsimp only
    split_ifs <;> rfl
  have hb : bisectionBodyM (fun x => some (func x)) tolerance =
      fun i s => some (bisectionBody func tolerance i s) := by
    funext i s
    unfold bisectionBodyM bisectionBody
    dsimp only
    split_ifs <;> rfl
  have hn : newtonRaphsonBodyM (fun x => some (func x)) tolerance =
      fun i s => some (newtonRaphsonBody func tolerance i s) := by
    funext i s
    unfold newtonRaphsonBodyM newtonRaphsonBody derivativeM derivative
    dsimp only
    split_ifs <;> rfl
  have hs : secantBodyM (fun x => some (func x)) tolerance =
      fun i s => some (secantBody func tolerance i s) := by
    funext i s
    unfold secantBodyM secantBody
    dsimp only
    split_ifs <;> rfl
  refine ⟨?_, ?_, ?_, ?_⟩
  · unfold falsePositionM falsePosition
    rw [hf]; exact whileLoopM_of_total _ _ _ _ _
  · unfold bisectionM bisection
    rw [hb]; exact whileLoopM_of_total _ _ _ _ _
  · unfold newtonRaphsonM newtonRaphson
    rw [hn]; exact whileLoopM_of_total _ _ _ _ _
  · unfold secantM secant
    rw [hs]; exact whileLoopM_of_total _ _ _ _ _

/-- The `catch` handler of `findRoot`: when the `try` block is left by a thrown exception,
`"Error parsing equation:"` is sent, `displayResult(null)` is called and writes
`"Failed to converge"`, and no exception leaves `findRoot`. -/
theorem findRoot_of_threw (method : String) (build : Option (K → Option K))
    (a b initialGuess tolerance : K)
    (h : (findRootTry method build a b initialGuess tolerance).threw = true) :
    findRoot method build a b initialGuess tolerance =
      { invoked := (findRootTry method build a b initialGuess tolerance).invoked,
        rows := (findRootTry method build a b initialGuess tolerance).rows,
        errors := (findRootTry method build a b initialGuess tolerance).errors ++
          ["Error parsing equation:"],
        displayCalls := (findRootTry method build a b initialGuess tolerance).displayCalls ++
          [JsVal.null],
        display := some Display.failedToConverge, escaped := false } := by
  unfold findRoot
  simp only [h, if_true, displayResult]

/-- No exception leaves `findRoot`. -/
theorem findRoot_never_escapes (method : String) (build : Option (K → Option K))
    (a b initialGuess tolerance : K) :
    (findRoot method build a b initialGuess tolerance).escaped = false := by
  cases h : (findRootTry method build a b initialGuess tolerance).threw with
  | true => rw [findRoot_of_threw method build a b initialGuess tolerance h]
  | false =>
    unfold findRoot
    simp only [h]
    rfl

/-! ## The order of the doubles -/

/-- No double is `<` itself. -/
theorem F64.lt_irrefl (x : F64) : ¬ x < x := by
  show ¬ F64.lt x x = true
  cases x with
  | nan => simp [F64.lt]
  | inf s => cases s <;> simp [F64.lt]
  | fin s m e => simp [F64.lt]

/-- Every double other than `NaN` is `<=` itself. -/
theorem F64.le_refl_of_ne_nan (x : F64) (hx : x ≠ F64.nan) : x ≤ x := by
  show F64.le x x = true
  cases x with
  | nan => exact absurd rfl hx
  | inf s => cases s <;> simp [F64.le, F64.lt, F64.strictEq]
  | fin s m e => simp [F64.le, F64.strictEq]

/-- Two doubles other than `NaN` are comparable by `<=`. -/
theorem F64.le_total_of_ne_nan (x y : F64) (hx : x ≠ F64.nan) (hy : y ≠ F64.nan) :
    x ≤ y ∨ y ≤ x := by
  show F64.le x y = true ∨ F64.le y x = true
  cases x with
  | nan => exact absurd rfl hx
  | inf s =>
    cases y with
    | nan => exact absurd rfl hy
    | inf t => cases s <;> cases t <;> simp [F64.le, F64.lt, F64.strictEq]
    | fin t k f => cases s <;> simp [F64.le, F64.lt, F64.strictEq]
  | fin s m e =>
    cases y with
    | nan => exact absurd rfl hy
    | inf t => cases t <;> simp [F64.le, F64.lt, F64.strictEq]
    | fin t k f =>
      simp only [F64.le, F64.lt, F64.strictEq, Bool.or_eq_true, decide_eq_true_eq]
      rw [min_comm f e]
      rcases lt_trichotomy (F64.scaled s m e (min e f)) (F64.scaled t k f (min e f))
        with h | h | h
      · exact Or.inl (Or.inl h)
      · exact Or.inl (Or.inr h)
      · exact Or.inr (Or.inl h)

/-- For doubles other than `NaN`, `x < y` fails exactly when `y <= x` holds; one direction. -/
theorem F64.le_of_not_lt (x y : F64) (hx : x ≠ F64.nan) (hy : y ≠ F64.nan) (h : ¬ x < y) :
    y ≤ x := by
  have h : ¬ F64.lt x y = true := h
  show F64.le y x = true
  cases x with
  | nan => exact absurd rfl hx
  | inf s =>
    cases y with
    | nan => exact absurd rfl hy
    | inf t => revert h; cases s <;> cases t <;> simp [F64.le, F64.lt, F64.strictEq]
    | fin t k f => revert h; cases s <;> simp [F64.le, F64.lt, F64.strictEq]
  | fin s m e =>
    cases y with
    | nan => exact absurd rfl hy
    | inf t => revert h; cases t <;> simp [F64.le, F64.lt, F64.strictEq]
    | fin t k f =>
      simp only [F64.lt, decide_eq_true_eq, not_lt] at h
      simp only [F64.le, F64.lt, F64.strictEq, Bool.or_eq_true, decide_eq_true_eq]
      rw [min_comm f e]
      rcases lt_or_eq_of_le h with h1 | h1
      · exact Or.inl h1
      · exact Or.inr h1

/-- `Math.abs` of a double other than `NaN` is not `NaN`. -/
theorem F64.abs_ne_nan (x : F64) (hx : x ≠ F64.nan) : F64.abs x ≠ F64.nan := by
  cases x with
  | nan => exact absurd rfl hx
  | inf s => simp [F64.abs]
  | fin s m e => simp [F64.abs]

/-! ## The four loop bodies in doubles -/

/-- What the passes of `bisection` in doubles have in common with those of the other methods: a
`return` inside the loop follows a message, a `break` leaves a number in `root`, and a pass that
reaches `iteration++` has inserted a row with the residual `func root` that failed the test
`Math.abs(froot) < tolerance`. -/
theorem bisectionBodyF_spec (func : F64 → F64) (tolerance : F64) :
    (∀ i s v, (bisectionBodyF func tolerance i s).flow = Flow.ret v →
      ∃ msg, (bisectionBodyF func tolerance i s).error = some msg) ∧
    (∀ i s s1, (bisectionBodyF func tolerance i s).flow = Flow.brk s1 →
      ∃ x, s1.root = JsVal.num x) ∧
    (∀ i s s1, (bisectionBodyF func tolerance i s).flow = Flow.next s1 →
      ∃ r, (bisectionBodyF func tolerance i s).row = some r ∧
        (r.froot = func r.root ∧ ¬ F64.abs r.froot < tolerance)) := by
  refine ⟨?_, ?_, ?_⟩
  · intro i s v h
    unfold bisectionBodyF at h ⊢
    dsimp only at h ⊢
    split_ifs at h ⊢
    all_goals exact ⟨_, rfl⟩
  · intro i s s1 h
    unfold bisectionBodyF at h
    dsimp only at h
    split_ifs at h
    all_goals (injection h with h; subst h; exact ⟨_, rfl⟩)
  · intro i s s1 h
    unfold bisectionBodyF at h ⊢
    dsimp only at h ⊢
    split_ifs at h ⊢
    all_goals exact ⟨_, rfl, rfl, by assumption⟩

/-- The same facts for the passes of `falsePosition` in doubles. -/
theorem falsePositionBodyF_spec (func : F64 → F64) (tolerance : F64) :
    (∀ i s v, (falsePositionBodyF func tolerance i s).flow = Flow.ret v →
      ∃ msg, (falsePositionBodyF func tolerance i s).error = some msg) ∧
    (∀ i s s1, (falsePositionBodyF func tolerance i s).flow = Flow.brk s1 →
      ∃ x, s1.root = JsVal.num x) ∧
    (∀ i s s1, (falsePositionBodyF func tolerance i s).flow = Flow.next s1 →
      ∃ r, (falsePositionBodyF func tolerance i s).row = some r ∧
        (r.froot = func r.root ∧ ¬ F64.abs r.froot < tolerance)) := by
  refine ⟨?_, ?_, ?_⟩
  · intro i s v h
    unfold falsePositionBodyF at h ⊢
    dsimp only at h ⊢
    split_ifs at h ⊢
    all_goals exact ⟨_, rfl⟩
  · intro i s s1 h
    unfold falsePositionBodyF at h
    dsimp only at h
    split_ifs at h
    all_goals (injection h with h; subst h; exact ⟨_, rfl⟩)
  · intro i s s1 h
    unfold falsePositionBodyF at h ⊢
    dsimp only at h ⊢
    split_ifs at h ⊢
    all_goals exact ⟨_, rfl, rfl, by assumption⟩

/-- The same facts for the passes of `newtonRaphson` in doubles. -/
theorem newtonRaphsonBodyF_spec (func : F64 → F64) (tolerance : F64) :
    (∀ i s v, (newtonRaphsonBodyF func tolerance i s).flow = Flow.ret v →
      ∃ msg, (newtonRaphsonBodyF func tolerance i s).error = some msg) ∧
    (∀ i s s1, (newtonRaphsonBodyF func tolerance i s).flow = Flow.brk s1 →
      ∃ x, JsVal.num s1 = JsVal.num x) ∧
    (∀ i s s1, (newtonRaphsonBodyF func tolerance i s).flow = Flow.next s1 →
      ∃ r, (newtonRaphsonBodyF func tolerance i s).row = some r ∧
        (r.froot = func r.root ∧ ¬ F64.abs r.froot < tolerance)) := by
  refine ⟨?_, ?_, ?_⟩
  · intro i s v h
    unfold newtonRaphsonBodyF at h ⊢
    dsimp only at h ⊢
    split_ifs at h ⊢
    all_goals exact ⟨_, rfl⟩
  · intro i s s1 _
    exact ⟨s1, rfl⟩
  · intro i s s1 h
    unfold newtonRaphsonBodyF at h ⊢
    dsimp only at h ⊢
    split_ifs at h ⊢
    all_goals exact ⟨_, rfl, rfl, by assumption⟩

/-- The same facts for the passes of `secant` in doubles. -/
theorem secantBodyF_spec (func : F64 → F64) (tolerance : F64) :
    (∀ i s v, (secantBodyF func tolerance i s).flow = Flow.ret v →
      ∃ msg, (secantBodyF func tolerance i s).error = some msg) ∧
    (∀ i s s1, (secantBodyF func tolerance i s).flow = Flow.brk s1 →
      ∃ x, s1.root = JsVal.num x) ∧
    (∀ i s s1, (secantBodyF func tolerance i s).flow = Flow.next s1 →
      ∃ r, (secantBodyF func tolerance i s).row = some r ∧
        (r.froot = func r.root ∧ ¬ F64.abs r.froot < tolerance)) := by
  refine ⟨?_, ?_, ?_⟩
  · intro i s v h
    unfold secantBodyF at h ⊢
    dsimp only at h ⊢
    split_ifs at h ⊢
    all_goals exact ⟨_, rfl⟩
  · intro i s s1 h
    unfold secantBodyF at h
    dsimp only at h
    split_ifs at h
    all_goals (injection h with h; subst h; exact ⟨_, rfl⟩)
  · intro i s s1 h
    unfold secantBodyF at h ⊢
    dsimp only at h ⊢
    split_ifs at h ⊢
    all_goals exact ⟨_, rfl, rfl, by assumption⟩

/-- A loop in doubles that returns `null` without a message has inserted exactly
`maxIterations` rows, each with the residual `func root`, none of which passed the test
`Math.abs(froot) < tolerance`; where the residual and the tolerance are numbers (not `NaN`),
that is `tolerance <= Math.abs(froot)`. -/
theorem whileLoop_exhausted_doubles {σ : Type} (func : F64 → F64) (tolerance : F64)
    (maxIterations : Nat) (rootOf : σ → JsVal F64) (body : Nat → σ → Pass σ F64)
    (hb : (∀ i s v, (body i s).flow = Flow.ret v → ∃ msg, (body i s).error = some msg) ∧
      (∀ i s s1, (body i s).flow = Flow.brk s1 → ∃ x, rootOf s1 = JsVal.num x) ∧
      (∀ i s s1, (body i s).flow = Flow.next s1 →
        ∃ r, (body i s).row = some r ∧
          (r.froot = func r.root ∧ ¬ F64.abs r.froot < tolerance)))
    (s : σ) (hnull : (whileLoop maxIterations rootOf body 0 s).result = JsVal.null)
    (herr : (whileLoop maxIterations rootOf body 0 s).errors = []) :
    (whileLoop maxIterations rootOf body 0 s).rows.length = maxIterations ∧
      ∀ r ∈ (whileLoop maxIterations rootOf body 0 s).rows,
        r.froot = func r.root ∧ ¬ F64.abs r.froot < tolerance ∧
        (r.froot ≠ F64.nan → tolerance ≠ F64.nan → tolerance ≤ F64.abs r.froot) := by
  obtain ⟨hlen, hall⟩ := whileLoop_exhausted_rows maxIterations rootOf body
    (fun r => r.froot = func r.root ∧ ¬ F64.abs r.froot < tolerance)
    hb.1 hb.2.1 hb.2.2 0 s hnull herr
  refine ⟨hlen, ?_⟩
  intro r hr
  obtain ⟨h1, h2⟩ := hall r hr
  exact ⟨h1, h2, fun hn ht =>
    F64.le_of_not_lt _ _ (F64.abs_ne_nan _ hn) ht h2⟩

/-! ## The rounding of the doubles -/

/-- The double arithmetic of `F64` on some familiar values: `0.1 + 0.2` is
`0.30000000000000004`, not `0.3`; `1 / 3` rounds to `6004799503160661 * 2^-54`; `1e200 * 1e200`
overflows to `Infinity` and `Infinity - Infinity` is `NaN`; `1e-200 * 1e-200` underflows to `0`
and `-1e-200 * 1e-200` to `-0`, which is `=== 0` and not `< 0`; `1 + 2^-53` rounds to `1`;
`0 / 0` is `NaN`, `1 / 0` is `Infinity`, and `NaN` is neither `<`, `>` nor `===` itself. -/
theorem F64_sample_values :
    (0.1 + 0.2 : F64) = F64.fin false 5404319552844596 (-54) ∧
    (0.3 : F64) = F64.fin false 5404319552844595 (-54) ∧
    (1 / 3 : F64) = F64.fin false 6004799503160661 (-54) ∧
    (1e200 * 1e200 : F64) = F64.inf false ∧
    (1e200 * 1e200 - 1e200 * 1e200 : F64) = F64.nan ∧
    (1e-200 * 1e-200 : F64) = F64.fin false 0 (-1074) ∧
    (-1e-200 * 1e-200 : F64) = F64.fin true 0 (-1074) ∧
    F64.strictEq (-1e-200 * 1e-200) 0 = true ∧
    ¬ ((-1e-200 * 1e-200 : F64) < 0) ∧
    (1 + F64.fin false 4503599627370496 (-105) : F64) = 1 ∧
    (0 / 0 : F64) = F64.nan ∧
    (1 / 0 : F64) = F64.inf false ∧
    ¬ (F64.nan < F64.nan) ∧ ¬ (F64.nan > F64.nan) ∧ F64.strictEq F64.nan F64.nan = false := by
  decide!

/-- The halving in `bitLenAux` counts the binary digits: for `n < 2 ^ 2 ^ k` the result `l`
satisfies `n < 2 ^ l`, and `2 ^ (l - 1) ≤ n` when `n` is not zero. -/
theorem F64.bitLenAux_spec (k : Nat) : ∀ n : Nat, n < 2 ^ 2 ^ k →
    n < 2 ^ F64.bitLenAux k n ∧ (n ≠ 0 → 2 ^ (F64.bitLenAux k n - 1) ≤ n) := by
  induction k with
  | zero =>
    intro n h
    have h2 : n < 2 := by simpa using h
    interval_cases n <;> simp [F64.bitLenAux]
  | succ k ih =>
    intro n h
    have hpos : 0 < 2 ^ 2 ^ k := Nat.two_pow_pos _
    have hsq : (2 : Nat) ^ 2 ^ (k + 1) = 2 ^ 2 ^ k * 2 ^ 2 ^ k := by
      rw [pow_succ, pow_mul, sq]
    unfold F64.bitLenAux
    rw [Nat.shiftRight_eq_div_pow]
    split_ifs with hz
    · exact ih n ((Nat.div_eq_zero_iff hpos).mp hz)
    · have hlt : n / 2 ^ 2 ^ k < 2 ^ 2 ^ k := by
        apply Nat.div_lt_of_lt_mul
        rw [← hsq]; exact h
      obtain ⟨h1, h2⟩ := ih _ hlt
      have h2 := h2 hz
      have hL : F64.bitLenAux k (n / 2 ^ 2 ^ k) ≠ 0 := by
        intro h0
        rw [h0] at h1
        have : n / 2 ^ 2 ^ k = 0 := by simpa using h1
        exact hz this
      refine ⟨?_, fun _ => ?_⟩
      · calc n < 2 ^ 2 ^ k * (n / 2 ^ 2 ^ k + 1) := Nat.lt_mul_div_succ n hpos
          _ ≤ 2 ^ 2 ^ k * 2 ^ F64.bitLenAux k (n / 2 ^ 2 ^ k) :=
            Nat.mul_le_mul_left _ h1
          _ = 2 ^ (2 ^ k + F64.bitLenAux k (n / 2 ^ 2 ^ k)) := by rw [pow_add]
      · have hsplit : 2 ^ k + F64.bitLenAux k (n / 2 ^ 2 ^ k) - 1 =
            2 ^ k + (F64.bitLenAux k (n / 2 ^ 2 ^ k) - 1) :=
          Nat.add_sub_assoc (Nat.one_le_iff_ne_zero.mpr hL) _
        calc 2 ^ (2 ^ k + F64.bitLenAux k (n / 2 ^ 2 ^ k) - 1)
            = 2 ^ 2 ^ k * 2 ^ (F64.bitLenAux k (n / 2 ^ 2 ^ k) - 1) := by
              rw [hsplit, pow_add]
          _ ≤ 2 ^ 2 ^ k * (n / 2 ^ 2 ^ k) := Nat.mul_le_mul_left _ h2
          _ ≤ n := Nat.mul_div_le n _

/-! ## The signs of the doubles -/

/-- The sign of a finite double is the sign of its integer multiple of any `2^c`. -/
theorem F64.sign_scaled (s : Bool) (m : Nat) (e c : Int) :
    Int.sign (F64.scaled s m e c) = if m = 0 then 0 else if s then -1 else 1 := by
  unfold F64.scaled
  by_cases hm : m = 0
  · subst hm
    cases s <;> simp
  · have hpos : 0 < m <<< (e - c).toNat := by
      rw [Nat.shiftLeft_eq]
      exact Nat.mul_pos (Nat.pos_of_ne_zero hm) (Nat.two_pow_pos _)
    have hcast : (0 : Int) < ((m <<< (e - c).toNat : Nat) : Int) := by exact_mod_cast hpos
    cases s
    · simp only [Bool.false_eq_true, if_false, hm]
      exact Int.sign_eq_one_of_pos hcast
    · simp only [if_true, hm, if_false]
      exact Int.sign_eq_neg_one_of_neg (by omega)

/-- The sign of a double is `-1`, `0` or `1`. -/
theorem F64.sign_range (x : F64) (a : Int) (h : x.sign = some a) :
    a = -1 ∨ a = 0 ∨ a = 1 := by
  cases x with
  | nan => cases h
  | inf s =>
    cases s <;> simp [F64.sign] at h <;> omega
  | fin s m e =>
    simp only [F64.sign, Option.some.injEq] at h
    split_ifs at h <;> omega

/-- The zero of the script, `0`, is the double `+0`. -/
theorem F64.zero_eq : (0 : F64) = F64.fin false 0 (-1074) := rfl

/-- The test `x < 0` holds exactly of the doubles of sign `-1`. -/
theorem F64.lt_zero_iff (x : F64) : x < 0 ↔ x.sign = some (-1) := by
  show F64.lt x 0 = true ↔ _
  rw [F64.zero_eq]
  cases x with
  | nan => simp [F64.lt, F64.sign]
  | inf s => cases s <;> simp [F64.lt, F64.sign]
  | fin s m e =>
    have hz : F64.scaled false 0 (-1074) (min e (-1074)) = 0 := by simp [F64.scaled]
    have hs := F64.sign_scaled s m e (min e (-1074))
    simp only [F64.lt, decide_eq_true_eq, hz, F64.sign, Option.some.injEq]
    rw [← hs]
    exact Int.sign_eq_neg_one_iff_neg.symm

/-- The test `0 < x` holds exactly of the doubles of sign `1`. -/
theorem F64.zero_lt_iff (x : F64) : 0 < x ↔ x.sign = some 1 := by
  show F64.lt 0 x = true ↔ _
  rw [F64.zero_eq]
  cases x with
  | nan => simp [F64.lt, F64.sign]
  | inf s => cases s <;> simp [F64.lt, F64.sign]
  | fin s m e =>
    have hz : F64.scaled false 0 (-1074) (min (-1074) e) = 0 := by simp [F64.scaled]
    have hs := F64.sign_scaled s m e (min (-1074) e)
    simp only [F64.lt, decide_eq_true_eq, hz, F64.sign, Option.some.injEq]
    rw [← hs]
    exact Int.sign_eq_one_iff_pos.symm

/-- The test `x === 0` holds exactly of the doubles of sign `0`. -/
theorem F64.strictEq_zero_iff (x : F64) : F64.strictEq x 0 = true ↔ x.sign = some 0 := by
  rw [F64.zero_eq]
  cases x with
  | nan => simp [F64.strictEq, F64.sign]
  | inf s => cases s <;> simp [F64.strictEq, F64.sign]
  | fin s m e =>
    have hz : F64.scaled false 0 (-1074) (min e (-1074)) = 0 := by simp [F64.scaled]
    have hs := F64.sign_scaled s m e (min e (-1074))
    simp only [F64.strictEq, decide_eq_true_eq, hz, F64.sign, Option.some.injEq]
    rw [← hs]
    exact Int.sign_eq_zero_iff_zero.symm

/-- The test `x <= 0` holds exactly of the doubles of sign `-1` or `0`. -/
theorem F64.le_zero_iff (x : F64) : x ≤ 0 ↔ (x.sign = some (-1) ∨ x.sign = some 0) := by
  show F64.le x 0 = true ↔ _
  unfold F64.le
  rw [Bool.or_eq_true, ← F64.strictEq_zero_iff, ← F64.lt_zero_iff]
  exact Iff.rfl

/-- A rounded value is an infinity or a finite double, of the sign it was given. -/
theorem F64.roundQ_cases (neg : Bool) (n d : Nat) :
    F64.roundQ neg n d = F64.inf neg ∨ ∃ q e, F64.roundQ neg n d = F64.fin neg q e := by
  unfold F64.roundQ
  dsimp only
  split_ifs
  all_goals first
    | exact Or.inl rfl
    | exact Or.inr ⟨_, _, rfl⟩

/-- Rounding keeps the sign: a rounded value that is not a zero has the sign it was given, and
the exact value was not zero. -/
theorem F64.sign_roundQ (neg : Bool) (n d : Nat) (c : Int)
    (h : (F64.roundQ neg n d).sign = some c) (hc : c ≠ 0) :
    n ≠ 0 ∧ c = if neg then -1 else 1 := by
  have hn : n ≠ 0 := by
    intro hn
    unfold F64.roundQ at h
    rw [if_pos hn] at h
    simp only [F64.sign, if_true, Option.some.injEq] at h
    exact hc h.symm
  refine ⟨hn, ?_⟩
  rcases F64.roundQ_cases neg n d with h1 | ⟨q, e, h1⟩
  · rw [h1] at h
    simp only [F64.sign, Option.some.injEq] at h
    exact h.symm
  · rw [h1] at h
    simp only [F64.sign, Option.some.injEq] at h
    by_cases hq : q = 0
    · rw [if_pos hq] at h
      exact absurd h.symm hc
    · rw [if_neg hq] at h
      exact h.symm

/-- A computed product that is a number is the product of numbers. -/
theorem F64.sign_mul_isSome (x y : F64) (c : Int) (h : (x * y).sign = some c) :
    ∃ a b, x.sign = some a ∧ y.sign = some b := by
  have h : (F64.mul x y).sign = some c := h
  cases x with
  | nan => simp [F64.mul, F64.sign] at h
  | inf s =>
    cases y with
    | nan => simp [F64.mul, F64.sign] at h
    | inf t => exact ⟨_, _, rfl, rfl⟩
    | fin t k f => exact ⟨_, _, rfl, rfl⟩
  | fin s m e =>
    cases y with
    | nan => simp [F64.mul, F64.sign] at h
    | inf t => exact ⟨_, _, rfl, rfl⟩
    | fin t k f => exact ⟨_, _, rfl, rfl⟩

/-- The sign of a computed product that is not a zero is the product of the signs of the
factors. -/
theorem F64.sign_mul (x y : F64) (c : Int) (h : (x * y).sign = some c) (hc : c ≠ 0) :
    ∃ a b, x.sign = some a ∧ y.sign = some b ∧ c = a * b := by
  have h : (F64.mul x y).sign = some c := h
  cases x with
  | nan => simp [F64.mul, F64.sign] at h
  | inf s =>
    cases y with
    | nan => simp [F64.mul, F64.sign] at h
    | inf t =>
      refine ⟨_, _, rfl, rfl, ?_⟩
      simp only [F64.mul, F64.sign, Option.some.injEq] at h
      rw [← h]
      cases s <;> cases t <;> simp
    | fin t k f =>
      simp only [F64.mul] at h
      by_cases hk : k = 0
      · rw [if_pos hk] at h; simp [F64.sign] at h
      · rw [if_neg hk] at h
        refine ⟨_, _, rfl, rfl, ?_⟩
        simp only [F64.sign, Option.some.injEq, hk, if_false] at h ⊢
        rw [← h]
        cases s <;> cases t <;> simp
  | fin s m e =>
    cases y with
    | nan => simp [F64.mul, F64.sign] at h
    | inf t =>
      simp only [F64.mul] at h
      by_cases hm : m = 0
      · rw [if_pos hm] at h; simp [F64.sign] at h
      · rw [if_neg hm] at h
        refine ⟨_, _, rfl, rfl, ?_⟩
        simp only [F64.sign, Option.some.injEq, hm, if_false] at h ⊢
        rw [← h]
        cases s <;> cases t <;> simp
    | fin t k f =>
      simp only [F64.mul] at h
      obtain ⟨hn, hcs⟩ := F64.sign_roundQ _ _ _ c h hc
      have hmk : m * k ≠ 0 := by
        intro h0
        rw [h0, Nat.zero_shiftLeft] at hn
        exact hn rfl
      have hm : m ≠ 0 := fun h0 => hmk (by rw [h0, Nat.zero_mul])
      have hk : k ≠ 0 := fun h0 => hmk (by rw [h0, Nat.mul_zero])
      refine ⟨_, _, rfl, rfl, ?_⟩
      simp only [hm, hk, if_false]
      rw [hcs]
      cases s <;> cases t <;> simp

/-- For a product whose sign is exact, the sign is the product of the signs of the factors. -/
theorem F64.signExact_sign (x y : F64) (h : F64.signExact x y) :
    ∃ a b, x.sign = some a ∧ y.sign = some b ∧ (x * y).sign = some (a * b) := by
  obtain ⟨hnum, hzero⟩ := h
  rcases hnum with h1 | h1 | h1
  · have h1 := (F64.lt_zero_iff _).mp h1
    obtain ⟨a, b, ha, hb, hab⟩ := F64.sign_mul x y (-1) h1 (by decide)
    exact ⟨a, b, ha, hb, by rw [h1, hab]⟩
  · have h2 := (F64.strictEq_zero_iff _).mp h1
    obtain ⟨a, b, ha, hb⟩ := F64.sign_mul_isSome x y 0 h2
    rcases hzero h1 with h0 | h0
    · have h0 := (F64.strictEq_zero_iff _).mp h0
      rw [ha] at h0
      injection h0 with h0
      exact ⟨a, b, ha, hb, by rw [h2, h0, zero_mul]⟩
    · have h0 := (F64.strictEq_zero_iff _).mp h0
      rw [hb] at h0
      injection h0 with h0
      exact ⟨a, b, ha, hb, by rw [h2, h0, mul_zero]⟩
  · have h1 := (F64.zero_lt_iff _).mp h1
    obtain ⟨a, b, ha, hb, hab⟩ := F64.sign_mul x y 1 h1 (by decide)
    exact ⟨a, b, ha, hb, by rw [h1, hab]⟩

/-- The computed product does not depend on the order of the factors. -/
theorem F64.mul_comm (x y : F64) : x * y = y * x := by
  show F64.mul x y = F64.mul y x
  have hb : ∀ s t : Bool, (s != t) = (t != s) := by decide
  cases x with
  | nan => cases y <;> rfl
  | inf s =>
    cases y with
    | nan => rfl
    | inf t => simp only [F64.mul]; rw [hb s t]
    | fin t k f => simp only [F64.mul]; rw [hb s t]
  | fin s m e =>
    cases y with
    | nan => rfl
    | inf t => simp only [F64.mul]; rw [hb s t]
    | fin t k f =>
      simp only [F64.mul]
      rw [hb s t, Nat.mul_comm m k, add_comm e f]

/-- The order `<` of the doubles is asymmetric. -/
theorem F64.lt_asymm (x y : F64) (h : x < y) : ¬ y < x := by
  have h : F64.lt x y = true := h
  show ¬ F64.lt y x = true
  cases x with
  | nan => simp [F64.lt] at h
  | inf s =>
    cases y with
    | nan => simp [F64.lt] at h
    | inf t => revert h; cases s <;> cases t <;> simp [F64.lt]
    | fin t k f => revert h; cases s <;> simp [F64.lt]
  | fin s m e =>
    cases y with
    | nan => simp [F64.lt] at h
    | inf t => revert h; cases t <;> simp [F64.lt]
    | fin t k f =>
      simp only [F64.lt, decide_eq_true_eq] at h ⊢
      rw [min_comm f e]
      exact not_lt.mpr (le_of_lt h)

/-- Doubles that are `===` have the same sign. -/
theorem F64.sign_eq_of_strictEq (x y : F64) (h : F64.strictEq x y = true) :
    x.sign = y.sign := by
  cases x with
  | nan => simp [F64.strictEq] at h
  | inf s =>
    cases y with
    | nan => simp [F64.strictEq] at h
    | inf t => revert h; cases s <;> cases t <;> simp [F64.strictEq, F64.sign]
    | fin t k f => simp [F64.strictEq] at h
  | fin s m e =>
    cases y with
    | nan => simp [F64.strictEq] at h
    | inf t => simp [F64.strictEq] at h
    | fin t k f =>
      simp only [F64.strictEq, decide_eq_true_eq] at h
      have h1 := F64.sign_scaled s m e (min e f)
      have h2 := F64.sign_scaled t k f (min e f)
      rw [h] at h1
      simp only [F64.sign]
      rw [← h1, ← h2]

/-- A residual that is a zero passes the tolerance test of every positive tolerance. -/
theorem F64.abs_lt_of_sign_zero (x tolerance : F64) (hx : x.sign = some 0)
    (htol : 0 < tolerance) : F64.abs x < tolerance := by
  have htol : F64.lt 0 tolerance = true := htol
  show F64.lt (F64.abs x) tolerance = true
  rw [F64.zero_eq] at htol
  cases x with
  | nan => simp [F64.sign] at hx
  | inf s => cases s <;> simp [F64.sign] at hx
  | fin s m e =>
    simp only [F64.sign, Option.some.injEq] at hx
    have hm : m = 0 := by
      by_contra hm
      rw [if_neg hm] at hx
      cases s <;> simp at hx
    subst hm
    cases tolerance with
    | nan => simp [F64.lt] at htol
    | inf t => simpa [F64.lt, F64.abs] using htol
    | fin t k f =>
      simp only [F64.lt, F64.abs, decide_eq_true_eq] at htol ⊢
      have z1 : F64.scaled false 0 (-1074) (min (-1074) f) = 0 := by simp [F64.scaled]
      have z2 : F64.scaled false 0 e (min e f) = 0 := by simp [F64.scaled]
      rw [z1] at htol
      rw [z2]
      have h1 := F64.sign_scaled t k f (min (-1074) f)
      have h2 := F64.sign_scaled t k f (min e f)
      have hp := Int.sign_eq_one_iff_pos.mpr htol
      rw [h1] at hp
      rw [← h2] at hp
      exact Int.sign_eq_one_iff_pos.mp hp

/-! ## Runs in doubles under an invariant -/

/-- The four ways a pass of `bisection` in doubles can go, with the pass written out in each:
the same-sign failure, convergence, and the two bracket updates.  Here `root` is the computed
midpoint and `r` the row of the pass. -/
theorem bisectionBodyF_cases (func : F64 → F64) (tolerance : F64) (i : Nat) (s : Vars F64)
    (root : F64) (r : IterationRecord F64) (hroot : root = s.a + (s.b - s.a) / 2)
    (hr : r = { method := "Bisection", iteration := i + 1, a := some s.a, b := some s.b,
                root := root, fa := func s.a, fb := some (func s.b), froot := func root }) :
    (func s.a * func s.b > 0 →
      bisectionBodyF func tolerance i s =
        { flow := Flow.ret JsVal.null, row := none,
          error :=
            some "Bisection method failed: endpoints have the same sign or no convergence.",
          divisors := [] }) ∧
    (¬ func s.a * func s.b > 0 → F64.abs (func root) < tolerance →
      bisectionBodyF func tolerance i s =
        { flow := Flow.brk { a := s.a, b := s.b, root := JsVal.num root },
          row := some r, error := none, divisors := [2] }) ∧
    (¬ func s.a * func s.b > 0 → ¬ F64.abs (func root) < tolerance →
        func root * func s.a < 0 →
      bisectionBodyF func tolerance i s =
        { flow := Flow.next { a := s.a, b := root, root := JsVal.num root },
          row := some r, error := none, divisors := [2] }) ∧
    (¬ func s.a * func s.b > 0 → ¬ F64.abs (func root) < tolerance →
        ¬ func root * func s.a < 0 →
      bisectionBodyF func tolerance i s =
        { flow := Flow.next { a := root, b := s.b, root := JsVal.num root },
          row := some r, error := none, divisors := [2] }) := by
  subst hroot hr
  refine ⟨?_, ?_, ?_, ?_⟩
  · intro h1
    unfold bisectionBodyF
    dsimp only
    rw [if_pos h1]
  · intro h1 h2
    unfold bisectionBodyF
    dsimp only
    rw [if_neg h1, if_pos h2]
  · intro h1 h2 h3
    unfold bisectionBodyF
    dsimp only
    rw [if_neg h1, if_neg h2, if_pos h3, if_pos h3]
  · intro h1 h2 h3
    unfold bisectionBodyF
    dsimp only
    rw [if_neg h1, if_neg h2, if_neg h3, if_neg h3]

/-- The ways a pass of `falsePosition` in doubles can go, with the pass written out in each: the
equal-function-value failure, convergence, and after the bracket update the outside-interval
failure or the continuation.  Here `root` is the computed estimate, `r` the row of the pass and
`a1`, `b1` the endpoints after the update. -/
theorem falsePositionBodyF_cases (func : F64 → F64) (tolerance : F64) (i : Nat)
    (s : Vars F64) (root a1 b1 : F64) (r : IterationRecord F64)
    (hroot : root = (s.a * func s.b - s.b * func s.a) / (func s.b - func s.a))
    (hr : r = { method := "False Position", iteration := i + 1, a := some s.a, b := some s.b,
                root := root, fa := func s.a, fb := some (func s.b), froot := func root })
    (ha1 : a1 = if func root * func s.a < 0 then s.a else root)
    (hb1 : b1 = if func root * func s.a < 0 then root else s.b) :
    (F64.strictEq (func s.a) (func s.b) = true →
      falsePositionBodyF func tolerance i s =
        { flow := Flow.ret JsVal.null, row := none,
          error := some "False Position method failed: division by zero or no convergence.",
          divisors := [] }) ∧
    (¬ F64.strictEq (func s.a) (func s.b) = true → F64.abs (func root) < tolerance →
      falsePositionBodyF func tolerance i s =
        { flow := Flow.brk { a := s.a, b := s.b, root := JsVal.num root },
          row := some r, error := none, divisors := [func s.b - func s.a] }) ∧
    (¬ F64.strictEq (func s.a) (func s.b) = true → ¬ F64.abs (func root) < tolerance →
        (root < a1 ∨ root > b1) →
      falsePositionBodyF func tolerance i s =
        { flow := Flow.ret JsVal.null, row := some r,
          error := some
            "False Position method failed: root estimate outside the interval [a, b].",
          divisors := [func s.b - func s.a] }) ∧
    (¬ F64.strictEq (func s.a) (func s.b) = true → ¬ F64.abs (func root) < tolerance →
        ¬ (root < a1 ∨ root > b1) →
      falsePositionBodyF func tolerance i s =
        { flow := Flow.next { a := a1, b := b1, root := JsVal.num root },
          row := some r, error := none, divisors := [func s.b - func s.a] }) := by
  subst hroot hr ha1 hb1
  refine ⟨?_, ?_, ?_, ?_⟩
  · intro h1
    unfold falsePositionBodyF
    dsimp only
    rw [if_pos h1]
  · intro h1 h2
    unfold falsePositionBodyF
    dsimp only
    rw [if_neg h1, if_pos h2]
  · intro h1 h2 h3
    unfold falsePositionBodyF
    dsimp only
    rw [if_neg h1, if_neg h2, if_pos h3]
  · intro h1 h2 h3
    unfold falsePositionBodyF
    dsimp only
    rw [if_neg h1, if_neg h2, if_neg h3]

/-- A run of `bisection` in doubles under an invariant `Inv` of the bracket that excludes the
same-sign failure and that both bracket updates of a non-converging pass preserve whenever the
row of the pass has the property `G`.  When every non-converging row of the run has `G`: every
row shows a bracket satisfying `Inv`, every updated bracket satisfies `Inv`, no message is sent
to `console.error`, and the call returns a number or returns `null` after exactly
`maxIterations` rows. -/
theorem bisectionF_under_invariant (func : F64 → F64) (a b tolerance : F64)
    (maxIterations : Nat) (Inv : Vars F64 → Prop) (G : IterationRecord F64 → Prop)
    (hguard : ∀ s, Inv s → ¬ func s.a * func s.b > 0)
    (hstep : ∀ (s : Vars F64) (r : IterationRecord F64), Inv s →
      r.fa = func s.a → r.fb = some (func s.b) → r.froot = func (s.a + (s.b - s.a) / 2) →
      G r → ¬ F64.abs (func (s.a + (s.b - s.a) / 2)) < tolerance →
      (func (s.a + (s.b - s.a) / 2) * func s.a < 0 →
        Inv { a := s.a, b := s.a + (s.b - s.a) / 2,
              root := JsVal.num (s.a + (s.b - s.a) / 2) }) ∧
      (¬ func (s.a + (s.b - s.a) / 2) * func s.a < 0 →
        Inv { a := s.a + (s.b - s.a) / 2, b := s.b,
              root := JsVal.num (s.a + (s.b - s.a) / 2) }))
    (h0 : Inv { a := a, b := b, root := JsVal.undefined })
    (hex : ∀ r ∈ (bisectionF func a b tolerance maxIterations).rows,
      ¬ F64.abs r.froot < tolerance → G r) :
    (∀ r ∈ (bisectionF func a b tolerance maxIterations).rows,
      ∃ s, Inv s ∧ r.a = some s.a ∧ r.b = some s.b ∧ r.fa = func s.a ∧
        r.fb = some (func s.b)) ∧
    (∀ s ∈ (bisectionF func a b tolerance maxIterations).states, Inv s) ∧
    (bisectionF func a b tolerance maxIterations).errors = [] ∧
    ((∃ x, (bisectionF func a b tolerance maxIterations).result = JsVal.num x) ∨
      ((bisectionF func a b tolerance maxIterations).result = JsVal.null ∧
        (bisectionF func a b tolerance maxIterations).rows.length = maxIterations)) := by
  have key := whileLoop_cases maxIterations Vars.root (bisectionBodyF func tolerance)
    (fun i s run => (∀ r ∈ run.rows, ¬ F64.abs r.froot < tolerance → G r) → Inv s →
      (∀ r ∈ run.rows, ∃ s1, Inv s1 ∧ r.a = some s1.a ∧ r.b = some s1.b ∧
        r.fa = func s1.a ∧ r.fb = some (func s1.b)) ∧
      (∀ s1 ∈ run.states, Inv s1) ∧ run.errors = [] ∧
      ((∃ x, run.result = JsVal.num x) ∨
        (run.result = JsVal.null ∧ run.rows.length = maxIterations - i)))
    ?_ ?_ ?_ ?_ 0 { a := a, b := b, root := JsVal.undefined }
  · exact key hex h0
  · intro i s hi _ _
    refine ⟨?_, ?_, rfl, Or.inr ⟨rfl, ?_⟩⟩
    · intro r hr; cases hr
    · intro s1 hs; cases hs
    · show 0 = maxIterations - i
      omega
  · intro i s v _ hf _ hinv
    exfalso
    obtain ⟨_, c2, c3, c4⟩ := bisectionBodyF_cases func tolerance i s _ _ rfl rfl
    have h1 := hguard s hinv
    by_cases h2 : F64.abs (func (s.a + (s.b - s.a) / 2)) < tolerance
    · rw [c2 h1 h2] at hf; cases hf
    · by_cases h3 : func (s.a + (s.b - s.a) / 2) * func s.a < 0
      · rw [c3 h1 h2 h3] at hf; cases hf
      · rw [c4 h1 h2 h3] at hf; cases hf
  · intro i s s1 _ hf _ hinv
    obtain ⟨_, c2, c3, c4⟩ := bisectionBodyF_cases func tolerance i s _ _ rfl rfl
    have h1 := hguard s hinv
    by_cases h2 : F64.abs (func (s.a + (s.b - s.a) / 2)) < tolerance
    · rw [c2 h1 h2] at hf ⊢
      injection hf with hf
      subst hf
      refine ⟨?_, ?_, rfl, Or.inl ⟨_, rfl⟩⟩
      · intro r hr
        simp only [Option.toList, List.mem_singleton] at hr
        subst hr
        exact ⟨s, hinv, rfl, rfl, rfl, rfl⟩
      · intro s2 hs; cases hs
    · by_cases h3 : func (s.a + (s.b - s.a) / 2) * func s.a < 0
      · rw [c3 h1 h2 h3] at hf; cases hf
      · rw [c4 h1 h2 h3] at hf; cases hf
  · intro i s s1 run hi hf _ ih hG hinv
    obtain ⟨_, c2, c3, c4⟩ := bisectionBodyF_cases func tolerance i s _ _ rfl rfl
    have h1 := hguard s hinv
    by_cases h2 : F64.abs (func (s.a + (s.b - s.a) / 2)) < tolerance
    · rw [c2 h1 h2] at hf; cases hf
    · have hrow : ∃ r0, (bisectionBodyF func tolerance i s).row = some r0 ∧
          (bisectionBodyF func tolerance i s).error = none ∧
          r0.a = some s.a ∧ r0.b = some s.b ∧ r0.fa = func s.a ∧
          r0.fb = some (func s.b) ∧ r0.froot = func (s.a + (s.b - s.a) / 2) := by
        by_cases h3 : func (s.a + (s.b - s.a) / 2) * func s.a < 0
        · rw [c3 h1 h2 h3]; exact ⟨_, rfl, rfl, rfl, rfl, rfl, rfl, rfl⟩
        · rw [c4 h1 h2 h3]; exact ⟨_, rfl, rfl, rfl, rfl, rfl, rfl, rfl⟩
      obtain ⟨r0, hr0, herr0, ra, rb, rfa, rfb, rfroot⟩ := hrow
      rw [hr0, herr0] at hG ⊢
      have hG0 : G r0 := by
        apply hG r0 (by simp)
        rw [rfroot]; exact h2
      have hstep0 := hstep s r0 hinv rfa rfb rfroot hG0 h2
      have hinv1 : Inv s1 := by
        by_cases h3 : func (s.a + (s.b - s.a) / 2) * func s.a < 0
        · rw [c3 h1 h2 h3] at hf
          injection hf with hf
          rw [← hf]; exact hstep0.1 h3
        · rw [c4 h1 h2 h3] at hf
          injection hf with hf
          rw [← hf]; exact hstep0.2 h3
      obtain ⟨i1, i2, i3, i4⟩ := ih (fun r hr hc => hG r (by simp [hr]) hc) hinv1
      refine ⟨?_, ?_, ?_, ?_⟩
      · intro r hr
        simp only [Option.toList, List.singleton_append, List.mem_cons] at hr
        rcases hr with rfl | hr
        · exact ⟨s, hinv, ra, rb, rfa, rfb⟩
        · exact i1 r hr
      · intro s2 hs
        rcases List.mem_cons.mp hs with rfl | hs
        · exact hinv1
        · exact i2 s2 hs
      · simp only [Option.toList, List.nil_append]
        exact i3
      · rcases i4 with h | ⟨h, hl⟩
        · exact Or.inl h
        · refine Or.inr ⟨h, ?_⟩
          simp only [Option.toList, List.singleton_append, List.length_cons, hl]
          omega

/-- Sign bookkeeping for a bracket update, on signs in `{-1, 0, 1}`: when `a * b ≤ 0` is the
sign of `f(a) * f(b)`, `a` and the sign `c` of the residual are not zero and `c * a` is not
`-1`, then `c = a`, so that `c * b = a * b`. -/
theorem sign_update (a b c : Int) (ha : a = -1 ∨ a = 0 ∨ a = 1) (hc : c = -1 ∨ c = 0 ∨ c = 1)
    (ha0 : a ≠ 0) (hc0 : c ≠ 0) (hca : c * a ≠ -1) : c * b = a * b := by
  rcases ha with rfl | rfl | rfl <;> rcases hc with rfl | rfl | rfl <;> simp at * 

/-- The signs behind a bracket `(a, b)` of `bisection` or `falsePosition` in doubles whose row
has exact signs: the signs `sa`, `sb`, `sr` of `func a`, `func b` and of the residual are
defined, and the three computed products have the signs `sa * sb`, `sr * sa`, `sr * sb`. -/
theorem signsExact_signs (r : IterationRecord F64) (fb : F64) (hfb : r.fb = some fb)
    (h : signsExact r) :
    ∃ sa sb sr : Int, r.fa.sign = some sa ∧ fb.sign = some sb ∧ r.froot.sign = some sr ∧
      (r.fa * fb).sign = some (sa * sb) ∧ (r.froot * r.fa).sign = some (sr * sa) ∧
      (r.froot * fb).sign = some (sr * sb) := by
  obtain ⟨h1, h2⟩ := h
  obtain ⟨h2, h3⟩ := h2 fb hfb
  obtain ⟨sr, sa, e1, e2, e3⟩ := F64.signExact_sign _ _ h1
  obtain ⟨sa1, sb, e4, e5, e6⟩ := F64.signExact_sign _ _ h2
  obtain ⟨sr1, sb1, e7, e8, e9⟩ := F64.signExact_sign _ _ h3
  have ha : sa1 = sa := by rw [e2] at e4; injection e4 with e4; exact e4.symm
  have hr : sr1 = sr := by rw [e1] at e7; injection e7 with e7; exact e7.symm
  have hb : sb1 = sb := by rw [e5] at e8; injection e8 with e8; exact e8.symm
  subst ha hr hb
  exact ⟨_, _, _, e2, e5, e1, e6, e3, e9⟩

/-- In doubles, the bracket update of `bisection` and `falsePosition` keeps a strict sign
change when the row of the pass has exact signs: if `func a * func b < 0`, the residual does not
pass the tolerance test of a positive tolerance, then `func a * froot < 0` when
`froot * func a < 0`, and `froot * func b < 0` otherwise. -/
theorem sign_change_update (r : IterationRecord F64) (fb tolerance : F64)
    (hfb : r.fb = some fb) (hex : signsExact r) (htol : 0 < tolerance)
    (hab : r.fa * fb < 0) (hconv : ¬ F64.abs r.froot < tolerance) :
    (r.froot * r.fa < 0 → r.fa * r.froot < 0) ∧
    (¬ r.froot * r.fa < 0 → r.froot * fb < 0) := by
  refine ⟨fun h => by rw [F64.mul_comm]; exact h, ?_⟩
  intro h3
  obtain ⟨sa, sb, sr, e1, e2, e3, e4, e5, e6⟩ := signsExact_signs r fb hfb hex
  have hsab : sa * sb = -1 := by
    have := (F64.lt_zero_iff _).mp hab
    rw [e4] at this
    injection this
  have hsr0 : sr ≠ 0 := by
    intro h0
    rw [h0] at e3
    exact hconv (F64.abs_lt_of_sign_zero _ _ e3 htol)
  have hsa0 : sa ≠ 0 := by
    intro h0
    rw [h0, zero_mul] at hsab
    exact absurd hsab (by decide)
  have hca : sr * sa ≠ -1 := by
    intro h
    apply h3
    rw [F64.lt_zero_iff, e5, h]
  have := sign_update sa sb sr (F64.sign_range _ _ e1) (F64.sign_range _ _ e3) hsa0 hsr0 hca
  rw [F64.lt_zero_iff, e6, this, hsab]

/-- A run of `falsePosition` in doubles under an invariant `Inv` of the bracket that excludes
the equal-function-value failure and such that, whenever the row of a non-converging pass has
the property `G`, the outside-interval guard does not fire and the bracket update preserves
`Inv`.  When every non-converging row of the run has `G`: every row shows a bracket satisfying
`Inv`, every updated bracket satisfies `Inv`, no message is sent to `console.error`, and the
call returns a number or returns `null` after exactly `maxIterations` rows. -/
theorem falsePositionF_under_invariant (func : F64 → F64) (a b tolerance : F64)
    (maxIterations : Nat) (Inv : Vars F64 → Prop) (G : IterationRecord F64 → Prop)
    (hguard : ∀ s, Inv s → ¬ F64.strictEq (func s.a) (func s.b) = true)
    (hstep : ∀ (s : Vars F64) (r : IterationRecord F64) (root : F64), Inv s →
      root = (s.a * func s.b - s.b * func s.a) / (func s.b - func s.a) →
      r.a = some s.a → r.b = some s.b → r.root = root → r.fa = func s.a →
      r.fb = some (func s.b) → r.froot = func root →
      G r → ¬ F64.abs (func root) < tolerance →
      (func root * func s.a < 0 →
        ¬ (root < s.a ∨ root > root) ∧
        Inv { a := s.a, b := root, root := JsVal.num root }) ∧
      (¬ func root * func s.a < 0 →
        ¬ (root < root ∨ root > s.b) ∧
        Inv { a := root, b := s.b, root := JsVal.num root }))
    (h0 : Inv { a := a, b := b, root := JsVal.undefined })
    (hex : ∀ r ∈ (falsePositionF func a b tolerance maxIterations).rows,
      ¬ F64.abs r.froot < tolerance → G r) :
    (∀ r ∈ (falsePositionF func a b tolerance maxIterations).rows,
      ∃ s, Inv s ∧ r.a = some s.a ∧ r.b = some s.b ∧ r.fa = func s.a ∧
        r.fb = some (func s.b)) ∧
    (∀ s ∈ (falsePositionF func a b tolerance maxIterations).states, Inv s) ∧
    (falsePositionF func a b tolerance maxIterations).errors = [] ∧
    ((∃ x, (falsePositionF func a b tolerance maxIterations).result = JsVal.num x) ∨
      ((falsePositionF func a b tolerance maxIterations).result = JsVal.null ∧
        (falsePositionF func a b tolerance maxIterations).rows.length = maxIterations)) := by
  -- a non-converging pass from an admitted state whose row has `G` goes on, to an admitted state
  have hpass : ∀ (i : Nat) (s : Vars F64), Inv s →
      ¬ F64.abs (func ((s.a * func s.b - s.b * func s.a) / (func s.b - func s.a))) <
        tolerance →
      ∃ r0, (falsePositionBodyF func tolerance i s).row = some r0 ∧
        r0.a = some s.a ∧ r0.b = some s.b ∧ r0.fa = func s.a ∧ r0.fb = some (func s.b) ∧
        r0.froot = func ((s.a * func s.b - s.b * func s.a) / (func s.b - func s.a)) ∧
        (G r0 → ∃ s1, (falsePositionBodyF func tolerance i s).flow = Flow.next s1 ∧
          (falsePositionBodyF func tolerance i s).error = none ∧ Inv s1) := by
    intro i s hinv h2
    obtain ⟨_, _, c3, c4⟩ := falsePositionBodyF_cases func tolerance i s _ _ _ _ rfl rfl rfl rfl
    have h1 := hguard s hinv
    refine ⟨{ method := "False Position", iteration := i + 1, a := some s.a, b := some s.b,
              root := (s.a * func s.b - s.b * func s.a) / (func s.b - func s.a),
              fa := func s.a, fb := some (func s.b),
              froot := func ((s.a * func s.b - s.b * func s.a) / (func s.b - func s.a)) },
      ?_, rfl, rfl, rfl, rfl, rfl, ?_⟩
    · by_cases hgu :
          ((s.a * func s.b - s.b * func s.a) / (func s.b - func s.a) <
            (if func ((s.a * func s.b - s.b * func s.a) / (func s.b - func s.a)) * func s.a < 0
              then s.a else (s.a * func s.b - s.b * func s.a) / (func s.b - func s.a)) ∨
          (s.a * func s.b - s.b * func s.a) / (func s.b - func s.a) >
            (if func ((s.a * func s.b - s.b * func s.a) / (func s.b - func s.a)) * func s.a < 0
              then (s.a * func s.b - s.b * func s.a) / (func s.b - func s.a) else s.b))
      · rw [c3 h1 h2 hgu]
      · rw [c4 h1 h2 hgu]
    · intro hG0
      have hs := hstep s _ _ hinv rfl rfl rfl rfl rfl rfl rfl hG0 h2
      by_cases h3 :
          func ((s.a * func s.b - s.b * func s.a) / (func s.b - func s.a)) * func s.a < 0
      · have hgu := (hs.1 h3).1
        have hc := c4 h1 h2 (by rw [if_pos h3, if_pos h3]; exact hgu)
        rw [if_pos h3, if_pos h3] at hc
        rw [hc]
        exact ⟨_, rfl, rfl, (hs.1 h3).2⟩
      · have hgu := (hs.2 h3).1
        have hc := c4 h1 h2 (by rw [if_neg h3, if_neg h3]; exact hgu)
        rw [if_neg h3, if_neg h3] at hc
        rw [hc]
        exact ⟨_, rfl, rfl, (hs.2 h3).2⟩
  have hconv : ∀ (i : Nat) (s : Vars F64), Inv s →
      F64.abs (func ((s.a * func s.b - s.b * func s.a) / (func s.b - func s.a))) <
        tolerance →
      falsePositionBodyF func tolerance i s =
        { flow := Flow.brk
            { a := s.a, b := s.b,
              root := JsVal.num ((s.a * func s.b - s.b * func s.a) / (func s.b - func s.a)) },
          row := some
            { method := "False Position", iteration := i + 1, a := some s.a, b := some s.b,
              root := (s.a * func s.b - s.b * func s.a) / (func s.b - func s.a),
              fa := func s.a, fb := some (func s.b),
              froot := func ((s.a * func s.b - s.b * func s.a) / (func s.b - func s.a)) },
          error := none, divisors := [func s.b - func s.a] } := by
    intro i s hinv h2
    exact (falsePositionBodyF_cases func tolerance i s _ _ _ _ rfl rfl rfl rfl).2.1
      (hguard s hinv) h2
  have key := whileLoop_cases maxIterations Vars.root (falsePositionBodyF func tolerance)
    (fun i s run => (∀ r ∈ run.rows, ¬ F64.abs r.froot < tolerance → G r) → Inv s →
      (∀ r ∈ run.rows, ∃ s1, Inv s1 ∧ r.a = some s1.a ∧ r.b = some s1.b ∧
        r.fa = func s1.a ∧ r.fb = some (func s1.b)) ∧
      (∀ s1 ∈ run.states, Inv s1) ∧ run.errors = [] ∧
      ((∃ x, run.result = JsVal.num x) ∨
        (run.result = JsVal.null ∧ run.rows.length = maxIterations - i)))
    ?_ ?_ ?_ ?_ 0 { a := a, b := b, root := JsVal.undefined }
  · exact key hex h0
  · intro i s hi _ _
    refine ⟨?_, ?_, rfl, Or.inr ⟨rfl, ?_⟩⟩
    · intro r hr; cases hr
    · intro s1 hs; cases hs
    · show 0 = maxIterations - i
      omega
  · intro i s v _ hf hG hinv
    exfalso
    by_cases h2 :
        F64.abs (func ((s.a * func s.b - s.b * func s.a) / (func s.b - func s.a))) < tolerance
    · rw [hconv i s hinv h2] at hf; cases hf
    · obtain ⟨r0, hr0, _, _, _, _, rfroot, hgo⟩ := hpass i s hinv h2
      rw [hr0] at hG
      obtain ⟨s1, hf1, _, _⟩ := hgo (hG r0 (by simp) (by rw [rfroot]; exact h2))
      rw [hf1] at hf; cases hf
  · intro i s s1 _ hf hG hinv
    by_cases h2 :
        F64.abs (func ((s.a * func s.b - s.b * func s.a) / (func s.b - func s.a))) < tolerance
    · rw [hconv i s hinv h2] at hf ⊢
      injection hf with hf
      subst hf
      refine ⟨?_, ?_, rfl, Or.inl ⟨_, rfl⟩⟩
      · intro r hr
        simp only [Option.toList, List.mem_singleton] at hr
        subst hr
        exact ⟨s, hinv, rfl, rfl, rfl, rfl⟩
      · intro s2 hs; cases hs
    · exfalso
      obtain ⟨r0, hr0, _, _, _, _, rfroot, hgo⟩ := hpass i s hinv h2
      rw [hr0] at hG
      obtain ⟨s2, hf1, _, _⟩ := hgo (hG r0 (by simp) (by rw [rfroot]; exact h2))
      rw [hf1] at hf; cases hf
  · intro i s s1 run hi hf _ ih hG hinv
    by_cases h2 :
        F64.abs (func ((s.a * func s.b - s.b * func s.a) / (func s.b - func s.a))) < tolerance
    · rw [hconv i s hinv h2] at hf; cases hf
    · obtain ⟨r0, hr0, ra, rb, rfa, rfb, rfroot, hgo⟩ := hpass i s hinv h2
      rw [hr0] at hG ⊢
      obtain ⟨s2, hf1, herr0, hinv2⟩ := hgo (hG r0 (by simp) (by rw [rfroot]; exact h2))
      rw [herr0]
      have hs12 : s2 = s1 := by
        rw [hf1] at hf
        injection hf
      subst hs12
      obtain ⟨i1, i2, i3, i4⟩ := ih (fun r hr hc => hG r (by simp [hr]) hc) hinv2
      refine ⟨?_, ?_, ?_, ?_⟩
      · intro r hr
        simp only [Option.toList, List.singleton_append, List.mem_cons] at hr
        rcases hr with rfl | hr
        · exact ⟨s, hinv, ra, rb, rfa, rfb⟩
        · exact i1 r hr
      · intro s3 hs
        rcases List.mem_cons.mp hs with rfl | hs
        · exact hinv2
        · exact i2 s3 hs
      · simp only [Option.toList, List.nil_append]
        exact i3
      · rcases i4 with h | ⟨h, hl⟩
        · exact Or.inl h
        · refine Or.inr ⟨h, ?_⟩
          simp only [Option.toList, List.singleton_append, List.length_cons, hl]
          omega

/-- In doubles, the bracket update of `bisection` keeps the precondition `func a * func b <= 0`
with `func a` not a zero when the row of the pass has exact signs and the residual does not
pass the tolerance test of a positive tolerance. -/
theorem precondition_update (r : IterationRecord F64) (fb tolerance : F64)
    (hfb : r.fb = some fb) (hex : signsExact r) (htol : 0 < tolerance)
    (hab : r.fa * fb ≤ 0) (ha : ¬ F64.strictEq r.fa 0 = true)
    (hconv : ¬ F64.abs r.froot < tolerance) :
    (r.froot * r.fa < 0 → r.fa * r.froot ≤ 0) ∧
    (¬ r.froot * r.fa < 0 → r.froot * fb ≤ 0 ∧ ¬ F64.strictEq r.froot 0 = true) := by
  obtain ⟨sa, sb, sr, e1, e2, e3, e4, e5, e6⟩ := signsExact_signs r fb hfb hex
  have hsr0 : sr ≠ 0 := by
    intro h0
    rw [h0] at e3
    exact hconv (F64.abs_lt_of_sign_zero _ _ e3 htol)
  have hsa0 : sa ≠ 0 := by
    intro h0
    rw [h0] at e1
    exact ha ((F64.strictEq_zero_iff _).mpr e1)
  refine ⟨?_, ?_⟩
  · intro h
    rw [F64.mul_comm]
    exact (F64.le_zero_iff _).mpr (Or.inl ((F64.lt_zero_iff _).mp h))
  · intro h3
    have hca : sr * sa ≠ -1 := by
      intro h
      apply h3
      rw [F64.lt_zero_iff, e5, h]
    have hu := sign_update sa sb sr (F64.sign_range _ _ e1) (F64.sign_range _ _ e3) hsa0 hsr0
      hca
    refine ⟨?_, ?_⟩
    · rw [F64.le_zero_iff, e6, hu, ← e4]
      exact (F64.le_zero_iff _).mp hab
    · intro hz
      have := (F64.strictEq_zero_iff _).mp hz
      rw [e3] at this
      injection this with this
      exact hsr0 this

/-- The row that a pass of `bisection` in doubles inserts, if it inserts one: it shows the
bracket of the pass and the computed midpoint. -/
theorem bisectionBodyF_row (func : F64 → F64) (tolerance : F64) (i : Nat) (s : Vars F64)
    (r : IterationRecord F64) (h : (bisectionBodyF func tolerance i s).row = some r) :
    r = { method := "Bisection", iteration := i + 1, a := some s.a, b := some s.b,
          root := s.a + (s.b - s.a) / 2, fa := func s.a, fb := some (func s.b),
          froot := func (s.a + (s.b - s.a) / 2) } := by
  unfold bisectionBodyF at h
  dsimp only at h
  split_ifs at h
  all_goals (injection h with h; exact h.symm)

/-- A pass of `bisection` in doubles that reaches `iteration++` has inserted a row whose
residual failed the tolerance test, and has replaced one endpoint by the computed midpoint. -/
theorem bisectionBodyF_next (func : F64 → F64) (tolerance : F64) (i : Nat) (s s1 : Vars F64)
    (h : (bisectionBodyF func tolerance i s).flow = Flow.next s1) :
    ¬ F64.abs (func (s.a + (s.b - s.a) / 2)) < tolerance ∧
    (bisectionBodyF func tolerance i s).row = some
      { method := "Bisection", iteration := i + 1, a := some s.a, b := some s.b,
        root := s.a + (s.b - s.a) / 2, fa := func s.a, fb := some (func s.b),
        froot := func (s.a + (s.b - s.a) / 2) } ∧
    ((s1.a = s.a ∧ s1.b = s.a + (s.b - s.a) / 2) ∨
      (s1.a = s.a + (s.b - s.a) / 2 ∧ s1.b = s.b)) := by
  unfold bisectionBodyF at h ⊢
  dsimp only at h ⊢
  split_ifs at h ⊢ with h1 h2 h3
  · injection h with h; subst h
    exact ⟨h2, rfl, Or.inl ⟨rfl, rfl⟩⟩
  · injection h with h; subst h
    exact ⟨h2, rfl, Or.inr ⟨rfl, rfl⟩⟩

end Methods

/-! ## The claims

The claims C1 to C20, in order.  Where a claim holds of the script as stated, its theorem
follows.  Where a claim fails on some input, the run of the script on that input comes first
and the amended claim last.  For the claims that fail in the numbers of the script (C2, C4,
C10, C14, C16 to C19) the failing run is evaluated in doubles; the claim read in exact
arithmetic, where it holds (for C14 once `func a ≠ 0` is assumed), stands in between; and the
amended claim is proved of the run in doubles, under the condition that the failing input
violates. -/

section Claims
variable {K : Type} [LinearOrderedField K]

/-- C1, convergence postcondition.  For each of `bisection`, `falsePosition`, `newtonRaphson`
and `secant`, on every function, starting values, tolerance and `maxIterations`: if the call
returns the number `x`, then at least one row was inserted, `x` is the root estimate of the last
row, the residual of that row is `func x`, and `|func x| < tolerance`. -/
theorem converged_last_record_below_tolerance (func : K → K) (a b initialGuess tolerance : K)
    (maxIterations : Nat) (x : K) :
    ((bisection func a b tolerance maxIterations).result = JsVal.num x →
      (bisection func a b tolerance maxIterations).rows ≠ [] ∧
      ∃ last, (bisection func a b tolerance maxIterations).rows.getLast? = some last ∧
        last.root = x ∧ last.froot = func x ∧ |func x| < tolerance) ∧
    ((falsePosition func a b tolerance maxIterations).result = JsVal.num x →
      (falsePosition func a b tolerance maxIterations).rows ≠ [] ∧
      ∃ last, (falsePosition func a b tolerance maxIterations).rows.getLast? = some last ∧
        last.root = x ∧ last.froot = func x ∧ |func x| < tolerance) ∧
    ((newtonRaphson func initialGuess tolerance maxIterations).result = JsVal.num x →
      (newtonRaphson func initialGuess tolerance maxIterations).rows ≠ [] ∧
      ∃ last, (newtonRaphson func initialGuess tolerance maxIterations).rows.getLast? =
          some last ∧
        last.root = x ∧ last.froot = func x ∧ |func x| < tolerance) ∧
    ((secant func a b tolerance maxIterations).result = JsVal.num x →
      (secant func a b tolerance maxIterations).rows ≠ [] ∧
      ∃ last, (secant func a b tolerance maxIterations).rows.getLast? = some last ∧
        last.root = x ∧ last.froot = func x ∧ |func x| < tolerance) := by
  have key : ∀ {σ : Type} (rootOf : σ → JsVal K) (body : Nat → σ → Pass σ K) (s : σ),
      BodySpec func tolerance rootOf body →
      (whileLoop maxIterations rootOf body 0 s).result = JsVal.num x →
      (whileLoop maxIterations rootOf body 0 s).rows ≠ [] ∧
      ∃ last, (whileLoop maxIterations rootOf body 0 s).rows.getLast? = some last ∧
        last.root = x ∧ last.froot = func x ∧ |func x| < tolerance := by
    intro σ rootOf body s hb hx
    obtain ⟨last, hlast, h⟩ := whileLoop_converged hb maxIterations 0 s x hx
    refine ⟨?_, last, hlast, h⟩
    intro hnil
    rw [hnil] at hlast
    cases hlast
  exact ⟨key _ _ _ (bisectionBody_spec func tolerance),
    key _ _ _ (falsePositionBody_spec func tolerance),
    key _ _ _ (newtonRaphsonBody_spec func tolerance),
    key _ _ _ (secantBody_spec func tolerance)⟩

/-- Witness of C1: on `func x = x` with `a = -1`, `b = 1`, `initialGuess = 1`, tolerance `1/2`
and 20 iterations, each of the four methods returns the number `0`, so each hypothesis of the
postcondition holds there. -/
theorem converged_last_record_below_tolerance_witness :
    ((bisection (fun x : ℚ => x) (-1) 1 (1/2) 20).result = JsVal.num 0 ∧
      (bisection (fun x : ℚ => x) (-1) 1 (1/2) 20).rows ≠ [] ∧
      ∃ last, (bisection (fun x : ℚ => x) (-1) 1 (1/2) 20).rows.getLast? = some last ∧
        last.root = 0 ∧ last.froot = (fun x : ℚ => x) 0 ∧ |(fun x : ℚ => x) 0| < 1/2) ∧
    ((falsePosition (fun x : ℚ => x) (-1) 1 (1/2) 20).result = JsVal.num 0 ∧
      (falsePosition (fun x : ℚ => x) (-1) 1 (1/2) 20).rows ≠ [] ∧
      ∃ last, (falsePosition (fun x : ℚ => x) (-1) 1 (1/2) 20).rows.getLast? = some last ∧
        last.root = 0 ∧ last.froot = (fun x : ℚ => x) 0 ∧ |(fun x : ℚ => x) 0| < 1/2) ∧
    ((newtonRaphson (fun x : ℚ => x) 1 (1/2) 20).result = JsVal.num 0 ∧
      (newtonRaphson (fun x : ℚ => x) 1 (1/2) 20).rows ≠ [] ∧
      ∃ last, (newtonRaphson (fun x : ℚ => x) 1 (1/2) 20).rows.getLast? = some last ∧
        last.root = 0 ∧ last.froot = (fun x : ℚ => x) 0 ∧ |(fun x : ℚ => x) 0| < 1/2) ∧
    ((secant (fun x : ℚ => x) (-1) 1 (1/2) 20).result = JsVal.num 0 ∧
      (secant (fun x : ℚ => x) (-1) 1 (1/2) 20).rows ≠ [] ∧
      ∃ last, (secant (fun x : ℚ => x) (-1) 1 (1/2) 20).rows.getLast? = some last ∧
        last.root = 0 ∧ last.froot = (fun x : ℚ => x) 0 ∧ |(fun x : ℚ => x) 0| < 1/2) := by
  have hb : (bisection (fun x : ℚ => x) (-1) 1 (1/2) 20).result = JsVal.num 0 := by
    unfold bisection
    rw [whileLoop]; norm_num [bisectionBody]
  have hf : (falsePosition (fun x : ℚ => x) (-1) 1 (1/2) 20).result = JsVal.num 0 := by
    unfold falsePosition
    rw [whileLoop]; norm_num [falsePositionBody]
  have hn : (newtonRaphson (fun x : ℚ => x) 1 (1/2) 20).result = JsVal.num 0 := by
    unfold newtonRaphson
    rw [whileLoop]; norm_num [newtonRaphsonBody, derivative, defaultEpsilon]
  have hs : (secant (fun x : ℚ => x) (-1) 1 (1/2) 20).result = JsVal.num 0 := by
    unfold secant
    rw [whileLoop]; norm_num [secantBody]
  have h := converged_last_record_below_tolerance (fun x : ℚ => x) (-1) 1 1 (1/2) 20 0
  exact ⟨⟨hb, h.1 hb⟩, ⟨hf, h.2.1 hf⟩, ⟨hn, h.2.2.1 hn⟩, ⟨hs, h.2.2.2 hs⟩⟩

/-- C2, as the claim states it, fails in the numbers of the script: `falsePosition` on
`func x = x`, `a = -1e200`, `b = 1e200`, tolerance `0.5` and 20 iterations computes
`a * fb - b * fa = -Infinity - -Infinity = NaN`.  The run returns `null` without a message after
exactly 20 rows, and the residual of every row is `NaN`, of which `|f(root)| >= tolerance` is
false (as is `|f(root)| < tolerance`). -/
theorem falsePosition_exhausted_with_nan_residuals :
    (falsePositionF (fun x => x) (-1e200) 1e200 0.5 20).result = JsVal.null ∧
    (falsePositionF (fun x => x) (-1e200) 1e200 0.5 20).errors = [] ∧
    (falsePositionF (fun x => x) (-1e200) 1e200 0.5 20).rows.length = 20 ∧
    ∀ r ∈ (falsePositionF (fun x => x) (-1e200) 1e200 0.5 20).rows,
      r.froot = F64.nan ∧ ¬ ((0.5 : F64) ≤ F64.abs r.froot) ∧
        ¬ (F64.abs r.froot < (0.5 : F64)) := by
  unfold falsePositionF
  rw [whileLoop_eq_unrolled 20 _ _ 20 0 _ (le_refl _)]
  decide!

/-- The exhaustion postcondition read in exact arithmetic, where a residual that fails the
tolerance test is at least the tolerance.  For each of the four methods over an ordered field:
if the call returns `null` and sent no message to `console.error`, then exactly `maxIterations`
rows were inserted and every one of them has the residual `func root` with
`tolerance ≤ |func root|`.  In doubles a residual can be `NaN`; the
statement for the doubles follows. -/
theorem exhausted_exactly_maxIterations_records (func : K → K)
    (a b initialGuess tolerance : K) (maxIterations : Nat) :
    ((bisection func a b tolerance maxIterations).result = JsVal.null →
      (bisection func a b tolerance maxIterations).errors = [] →
      (bisection func a b tolerance maxIterations).rows.length = maxIterations ∧
      ∀ r ∈ (bisection func a b tolerance maxIterations).rows,
        r.froot = func r.root ∧ tolerance ≤ |func r.root|) ∧
    ((falsePosition func a b tolerance maxIterations).result = JsVal.null →
      (falsePosition func a b tolerance maxIterations).errors = [] →
      (falsePosition func a b tolerance maxIterations).rows.length = maxIterations ∧
      ∀ r ∈ (falsePosition func a b tolerance maxIterations).rows,
        r.froot = func r.root ∧ tolerance ≤ |func r.root|) ∧
    ((newtonRaphson func initialGuess tolerance maxIterations).result = JsVal.null →
      (newtonRaphson func initialGuess tolerance maxIterations).errors = [] →
      (newtonRaphson func initialGuess tolerance maxIterations).rows.length = maxIterations ∧
      ∀ r ∈ (newtonRaphson func initialGuess tolerance maxIterations).rows,
        r.froot = func r.root ∧ tolerance ≤ |func r.root|) ∧
    ((secant func a b tolerance maxIterations).result = JsVal.null →
      (secant func a b tolerance maxIterations).errors = [] →
      (secant func a b tolerance maxIterations).rows.length = maxIterations ∧
      ∀ r ∈ (secant func a b tolerance maxIterations).rows,
        r.froot = func r.root ∧ tolerance ≤ |func r.root|) :=
  ⟨whileLoop_exhausted (bisectionBody_spec func tolerance) maxIterations 0 _,
    whileLoop_exhausted (falsePositionBody_spec func tolerance) maxIterations 0 _,
    whileLoop_exhausted (newtonRaphsonBody_spec func tolerance) maxIterations 0 _,
    whileLoop_exhausted (secantBody_spec func tolerance) maxIterations 0 _⟩

/-- An instance of the exhaustion postcondition in exact arithmetic: on `func x = x ^ 2 - 2`
with `a = 1`, `b = 2`, `initialGuess = 1`, tolerance `1/1000` and 2 iterations, each of the four
methods returns `null` without a message, so each hypothesis of the postcondition holds
there. -/
theorem exhausted_exactly_maxIterations_records_witness :
    (((bisection (fun x : ℚ => x ^ 2 - 2) 1 2 (1/1000) 2).result = JsVal.null ∧
      (bisection (fun x : ℚ => x ^ 2 - 2) 1 2 (1/1000) 2).errors = []) ∧
      (bisection (fun x : ℚ => x ^ 2 - 2) 1 2 (1/1000) 2).rows.length = 2 ∧
      ∀ r ∈ (bisection (fun x : ℚ => x ^ 2 - 2) 1 2 (1/1000) 2).rows,
        r.froot = (fun x : ℚ => x ^ 2 - 2) r.root ∧
          1/1000 ≤ |(fun x : ℚ => x ^ 2 - 2) r.root|) ∧
    (((falsePosition (fun x : ℚ => x ^ 2 - 2) 1 2 (1/1000) 2).result = JsVal.null ∧
      (falsePosition (fun x : ℚ => x ^ 2 - 2) 1 2 (1/1000) 2).errors = []) ∧
      (falsePosition (fun x : ℚ => x ^ 2 - 2) 1 2 (1/1000) 2).rows.length = 2 ∧
      ∀ r ∈ (falsePosition (fun x : ℚ => x ^ 2 - 2) 1 2 (1/1000) 2).rows,
        r.froot = (fun x : ℚ => x ^ 2 - 2) r.root ∧
          1/1000 ≤ |(fun x : ℚ => x ^ 2 - 2) r.root|) ∧
    (((newtonRaphson (fun x : ℚ => x ^ 2 - 2) 1 (1/1000) 2).result = JsVal.null ∧
      (newtonRaphson (fun x : ℚ => x ^ 2 - 2) 1 (1/1000) 2).errors = []) ∧
      (newtonRaphson (fun x : ℚ => x ^ 2 - 2) 1 (1/1000) 2).rows.length = 2 ∧
      ∀ r ∈ (newtonRaphson (fun x : ℚ => x ^ 2 - 2) 1 (1/1000) 2).rows,
        r.froot = (fun x : ℚ => x ^ 2 - 2) r.root ∧
          1/1000 ≤ |(fun x : ℚ => x ^ 2 - 2) r.root|) ∧
    (((secant (fun x : ℚ => x ^ 2 - 2) 1 2 (1/1000) 2).result = JsVal.null ∧
      (secant (fun x : ℚ => x ^ 2 - 2) 1 2 (1/1000) 2).errors = []) ∧
      (secant (fun x : ℚ => x ^ 2 - 2) 1 2 (1/1000) 2).rows.length = 2 ∧
      ∀ r ∈ (secant (fun x : ℚ => x ^ 2 - 2) 1 2 (1/1000) 2).rows,
        r.froot = (fun x : ℚ => x ^ 2 - 2) r.root ∧
          1/1000 ≤ |(fun x : ℚ => x ^ 2 - 2) r.root|) := by
  have hb : (bisection (fun x : ℚ => x ^ 2 - 2) 1 2 (1/1000) 2).result = JsVal.null ∧
      (bisection (fun x : ℚ => x ^ 2 - 2) 1 2 (1/1000) 2).errors = [] := by
    unfold bisection
    iterate 3 (rw [whileLoop]; norm_num [bisectionBody, abs_lt])
  have hf : (falsePosition (fun x : ℚ => x ^ 2 - 2) 1 2 (1/1000) 2).result = JsVal.null ∧
      (falsePosition (fun x : ℚ => x ^ 2 - 2) 1 2 (1/1000) 2).errors = [] := by
    unfold falsePosition
    iterate 3 (rw [whileLoop]; norm_num [falsePositionBody, abs_lt])
  have hn : (newtonRaphson (fun x : ℚ => x ^ 2 - 2) 1 (1/1000) 2).result = JsVal.null ∧
      (newtonRaphson (fun x : ℚ => x ^ 2 - 2) 1 (1/1000) 2).errors = [] := by
    unfold newtonRaphson
    iterate 3
      (rw [whileLoop]; norm_num [newtonRaphsonBody, derivative, defaultEpsilon, abs_lt])
  have hs : (secant (fun x : ℚ => x ^ 2 - 2) 1 2 (1/1000) 2).result = JsVal.null ∧
      (secant (fun x : ℚ => x ^ 2 - 2) 1 2 (1/1000) 2).errors = [] := by
    unfold secant
    iterate 3 (rw [whileLoop]; norm_num [secantBody, abs_lt])
  have h := exhausted_exactly_maxIterations_records (fun x : ℚ => x ^ 2 - 2) 1 2 1 (1/1000) 2
  exact ⟨⟨hb, h.1 hb.1 hb.2⟩, ⟨hf, h.2.1 hf.1 hf.2⟩, ⟨hn, h.2.2.1 hn.1 hn.2⟩,
    ⟨hs, h.2.2.2 hs.1 hs.2⟩⟩

/-- C2, amended: exhaustion postcondition in the numbers of the script.  For each of the four
methods computed in doubles: if the call returns `null` and sent no message to `console.error`
(no same-sign, equal-function-value, zero-derivative or outside-interval failure), then exactly
`maxIterations` rows were inserted, every one of them has the residual `func root`, and none
passed the tolerance test: `Math.abs(froot) < tolerance` is false of every row, which is
`tolerance <= Math.abs(froot)` whenever the residual and the tolerance are numbers (not
`NaN`). -/
theorem exhausted_records_fail_tolerance_test (func : F64 → F64)
    (a b initialGuess tolerance : F64) (maxIterations : Nat) :
    ((bisectionF func a b tolerance maxIterations).result = JsVal.null →
      (bisectionF func a b tolerance maxIterations).errors = [] →
      (bisectionF func a b tolerance maxIterations).rows.length = maxIterations ∧
      ∀ r ∈ (bisectionF func a b tolerance maxIterations).rows,
        r.froot = func r.root ∧ ¬ F64.abs r.froot < tolerance ∧
        (r.froot ≠ F64.nan → tolerance ≠ F64.nan → tolerance ≤ F64.abs r.froot)) ∧
    ((falsePositionF func a b tolerance maxIterations).result = JsVal.null →
      (falsePositionF func a b tolerance maxIterations).errors = [] →
      (falsePositionF func a b tolerance maxIterations).rows.length = maxIterations ∧
      ∀ r ∈ (falsePositionF func a b tolerance maxIterations).rows,
        r.froot = func r.root ∧ ¬ F64.abs r.froot < tolerance ∧
        (r.froot ≠ F64.nan → tolerance ≠ F64.nan → tolerance ≤ F64.abs r.froot)) ∧
    ((newtonRaphsonF func initialGuess tolerance maxIterations).result = JsVal.null →
      (newtonRaphsonF func initialGuess tolerance maxIterations).errors = [] →
      (newtonRaphsonF func initialGuess tolerance maxIterations).rows.length = maxIterations ∧
      ∀ r ∈ (newtonRaphsonF func initialGuess tolerance maxIterations).rows,
        r.froot = func r.root ∧ ¬ F64.abs r.froot < tolerance ∧
        (r.froot ≠ F64.nan → tolerance ≠ F64.nan → tolerance ≤ F64.abs r.froot)) ∧
    ((secantF func a b tolerance maxIterations).result = JsVal.null →
      (secantF func a b tolerance maxIterations).errors = [] →
      (secantF func a b tolerance maxIterations).rows.length = maxIterations ∧
      ∀ r ∈ (secantF func a b tolerance maxIterations).rows,
        r.froot = func r.root ∧ ¬ F64.abs r.froot < tolerance ∧
        (r.froot ≠ F64.nan → tolerance ≠ F64.nan → tolerance ≤ F64.abs r.froot)) :=
  ⟨whileLoop_exhausted_doubles func tolerance maxIterations _ _
      (bisectionBodyF_spec func tolerance) _,
    whileLoop_exhausted_doubles func tolerance maxIterations _ _
      (falsePositionBodyF_spec func tolerance) _,
    whileLoop_exhausted_doubles func tolerance maxIterations _ _
      (newtonRaphsonBodyF_spec func tolerance) _,
    whileLoop_exhausted_doubles func tolerance maxIterations _ _
      (secantBodyF_spec func tolerance) _⟩

/-- Witness of C2 (amended): on `func x = x * x - 2` with `a = 1`, `b = 2`, `initialGuess = 1`,
tolerance `0.001` and 2 iterations, each of the four methods in doubles returns `null` without a
message, so each hypothesis of the postcondition holds there. -/
theorem exhausted_records_fail_tolerance_test_witness :
    (((bisectionF (fun x => x * x - 2) 1 2 0.001 2).result = JsVal.null ∧
      (bisectionF (fun x => x * x - 2) 1 2 0.001 2).errors = []) ∧
      (bisectionF (fun x => x * x - 2) 1 2 0.001 2).rows.length = 2 ∧
      ∀ r ∈ (bisectionF (fun x => x * x - 2) 1 2 0.001 2).rows,
        r.froot = (fun x : F64 => x * x - 2) r.root ∧ ¬ F64.abs r.froot < 0.001 ∧
        (r.froot ≠ F64.nan → (0.001 : F64) ≠ F64.nan → (0.001 : F64) ≤ F64.abs r.froot)) ∧
    (((falsePositionF (fun x => x * x - 2) 1 2 0.001 2).result = JsVal.null ∧
      (falsePositionF (fun x => x * x - 2) 1 2 0.001 2).errors = []) ∧
      (falsePositionF (fun x => x * x - 2) 1 2 0.001 2).rows.length = 2 ∧
      ∀ r ∈ (falsePositionF (fun x => x * x - 2) 1 2 0.001 2).rows,
        r.froot = (fun x : F64 => x * x - 2) r.root ∧ ¬ F64.abs r.froot < 0.001 ∧
        (r.froot ≠ F64.nan → (0.001 : F64) ≠ F64.nan → (0.001 : F64) ≤ F64.abs r.froot)) ∧
    (((newtonRaphsonF (fun x => x * x - 2) 1 0.001 2).result = JsVal.null ∧
      (newtonRaphsonF (fun x => x * x - 2) 1 0.001 2).errors = []) ∧
      (newtonRaphsonF (fun x => x * x - 2) 1 0.001 2).rows.length = 2 ∧
      ∀ r ∈ (newtonRaphsonF (fun x => x * x - 2) 1 0.001 2).rows,
        r.froot = (fun x : F64 => x * x - 2) r.root ∧ ¬ F64.abs r.froot < 0.001 ∧
        (r.froot ≠ F64.nan → (0.001 : F64) ≠ F64.nan → (0.001 : F64) ≤ F64.abs r.froot)) ∧
    (((secantF (fun x => x * x - 2) 1 2 0.001 2).result = JsVal.null ∧
      (secantF (fun x => x * x - 2) 1 2 0.001 2).errors = []) ∧
      (secantF (fun x => x * x - 2) 1 2 0.001 2).rows.length = 2 ∧
      ∀ r ∈ (secantF (fun x => x * x - 2) 1 2 0.001 2).rows,
        r.froot = (fun x : F64 => x * x - 2) r.root ∧ ¬ F64.abs r.froot < 0.001 ∧
        (r.froot ≠ F64.nan → (0.001 : F64) ≠ F64.nan → (0.001 : F64) ≤ F64.abs r.froot)) := by
  have hb : (bisectionF (fun x => x * x - 2) 1 2 0.001 2).result = JsVal.null ∧
      (bisectionF (fun x => x * x - 2) 1 2 0.001 2).errors = [] := by
    unfold bisectionF
    rw [whileLoop_eq_unrolled 2 _ _ 2 0 _ (le_refl _)]
    decide!
  have hf : (falsePositionF (fun x => x * x - 2) 1 2 0.001 2).result = JsVal.null ∧
      (falsePositionF (fun x => x * x - 2) 1 2 0.001 2).errors = [] := by
    unfold falsePositionF
    rw [whileLoop_eq_unrolled 2 _ _ 2 0 _ (le_refl _)]
    decide!
  have hn : (newtonRaphsonF (fun x => x * x - 2) 1 0.001 2).result = JsVal.null ∧
      (newtonRaphsonF (fun x => x * x - 2) 1 0.001 2).errors = [] := by
    unfold newtonRaphsonF
    rw [whileLoop_eq_unrolled 2 _ _ 2 0 _ (le_refl _)]
    decide!
  have hs : (secantF (fun x => x * x - 2) 1 2 0.001 2).result = JsVal.null ∧
      (secantF (fun x => x * x - 2) 1 2 0.001 2).errors = [] := by
    unfold secantF
    rw [whileLoop_eq_unrolled 2 _ _ 2 0 _ (le_refl _)]
    decide!
  have h := exhausted_records_fail_tolerance_test (fun x => x * x - 2) 1 2 1 0.001 2
  exact ⟨⟨hb, h.1 hb.1 hb.2⟩, ⟨hf, h.2.1 hf.1 hf.2⟩, ⟨hn, h.2.2.1 hn.1 hn.2⟩,
    ⟨hs, h.2.2.2 hs.1 hs.2⟩⟩

/-- C3, iteration indices.  For each of the four methods and every input, the iteration numbers
written into the rows of one call are exactly `1, 2, ..., k` in that order, where `k` is the
number of rows inserted, however the call ends. -/
theorem record_indices_contiguous_from_one (func : K → K) (a b initialGuess tolerance : K)
    (maxIterations : Nat) :
    (bisection func a b tolerance maxIterations).rows.map IterationRecord.iteration =
      List.range' 1 (bisection func a b tolerance maxIterations).rows.length ∧
    (falsePosition func a b tolerance maxIterations).rows.map IterationRecord.iteration =
      List.range' 1 (falsePosition func a b tolerance maxIterations).rows.length ∧
    (newtonRaphson func initialGuess tolerance maxIterations).rows.map
        IterationRecord.iteration =
      List.range' 1 (newtonRaphson func initialGuess tolerance maxIterations).rows.length ∧
    (secant func a b tolerance maxIterations).rows.map IterationRecord.iteration =
      List.range' 1 (secant func a b tolerance maxIterations).rows.length :=
  ⟨whileLoop_indices (bisectionBody_spec func tolerance) maxIterations 0 _,
    whileLoop_indices (falsePositionBody_spec func tolerance) maxIterations 0 _,
    whileLoop_indices (newtonRaphsonBody_spec func tolerance) maxIterations 0 _,
    whileLoop_indices (secantBody_spec func tolerance) maxIterations 0 _⟩

/-- C4, as the claim states it, fails in the numbers of the script: for `func x = x * 1e-200`,
`a = 1`, `b = 3`, tolerance `1e-300` and `maxIterations = 20 ≥ 1`, both `func a` and `func b`
are positive, so `func a * func b > 0`, but the product the script computes underflows to `0`
and the same-sign check does not fire: `bisection` inserts 20 rows and returns `null` without a
message. -/
theorem bisection_same_sign_missed_on_underflow :
    1 ≤ 20 ∧
    (0 : F64) < (fun x : F64 => x * 1e-200) 1 ∧ (0 : F64) < (fun x : F64 => x * 1e-200) 3 ∧
    (fun x : F64 => x * 1e-200) 1 * (fun x : F64 => x * 1e-200) 3 = F64.fin false 0 (-1074) ∧
    (bisectionF (fun x => x * 1e-200) 1 3 1e-300 20).rows.length = 20 ∧
    (bisectionF (fun x => x * 1e-200) 1 3 1e-300 20).errors = [] ∧
    (bisectionF (fun x => x * 1e-200) 1 3 1e-300 20).result = JsVal.null := by
  unfold bisectionF
  rw [whileLoop_eq_unrolled 20 _ _ 20 0 _ (le_refl _)]
  decide!

/-- The same-sign failure of `bisection` read in exact arithmetic.  For every function,
endpoints, tolerance and `maxIterations ≥ 1` over an ordered field: if `func a * func b > 0`,
then `bisection` returns `null` in its first pass, after the same-sign message and without
inserting a row or evaluating a division; this is so in particular for `func x = x ^ 2 + 1`,
`a = 0`, `b = 1`.  In doubles the product can underflow to `0`; the statement for
the doubles follows. -/
theorem bisection_same_sign_fails_immediately (func : K → K) (a b tolerance : K)
    (maxIterations : Nat) (hmax : 1 ≤ maxIterations) :
    (func a * func b > 0 →
      bisection func a b tolerance maxIterations =
        { result := JsVal.null, rows := [],
          errors :=
            ["Bisection method failed: endpoints have the same sign or no convergence."],
          divisors := [], passes := 1, states := [] }) ∧
    bisection (fun x : K => x ^ 2 + 1) 0 1 tolerance maxIterations =
      { result := JsVal.null, rows := [],
        errors := ["Bisection method failed: endpoints have the same sign or no convergence."],
        divisors := [], passes := 1, states := [] } := by
  have gen : ∀ (f : K → K) (a b : K), f a * f b > 0 →
      bisection f a b tolerance maxIterations =
        { result := JsVal.null, rows := [],
          errors :=
            ["Bisection method failed: endpoints have the same sign or no convergence."],
          divisors := [], passes := 1, states := [] } := by
    intro f a b h
    have hlt : 0 < maxIterations := hmax
    unfold bisection
    rw [whileLoop]
    simp [bisectionBody, hlt, h]
  exact ⟨gen func a b, gen _ 0 1 (by norm_num)⟩

/-- An instance of the same-sign failure in exact arithmetic: the concrete scenario
`func x = x ^ 2 + 1`, `a = 0`, `b = 1`, with tolerance `1/10000` and 20 iterations. -/
theorem bisection_same_sign_fails_immediately_witness :
    (1 ≤ 20 ∧ (fun x : ℚ => x ^ 2 + 1) 0 * (fun x : ℚ => x ^ 2 + 1) 1 > 0) ∧
    bisection (fun x : ℚ => x ^ 2 + 1) 0 1 (1/10000) 20 =
      { result := JsVal.null, rows := [],
        errors := ["Bisection method failed: endpoints have the same sign or no convergence."],
        divisors := [], passes := 1, states := [] } :=
  ⟨⟨by decide, by norm_num⟩,
    (bisection_same_sign_fails_immediately (fun x : ℚ => x ^ 2 + 1) 0 1 (1/10000) 20
      (by decide)).1 (by norm_num)⟩

/-- C4, amended: bisection same-sign failure in the numbers of the script.  For every function,
endpoints, tolerance and `maxIterations ≥ 1`: if the product `func a * func b` that the script
computes, a double, is `> 0`, then `bisection` returns `null` in its first pass, after the
same-sign message and without inserting a row or evaluating a division; this is so in particular
for `func x = x * x + 1` (the square written as a product), `a = 0`, `b = 1`. -/
theorem bisection_computed_same_sign_fails_immediately (func : F64 → F64)
    (a b tolerance : F64) (maxIterations : Nat) (hmax : 1 ≤ maxIterations) :
    (func a * func b > 0 →
      bisectionF func a b tolerance maxIterations =
        { result := JsVal.null, rows := [],
          errors :=
            ["Bisection method failed: endpoints have the same sign or no convergence."],
          divisors := [], passes := 1, states := [] }) ∧
    bisectionF (fun x : F64 => x * x + 1) 0 1 tolerance maxIterations =
      { result := JsVal.null, rows := [],
        errors := ["Bisection method failed: endpoints have the same sign or no convergence."],
        divisors := [], passes := 1, states := [] } := by
  have gen : ∀ (f : F64 → F64) (a b : F64), f a * f b > 0 →
      bisectionF f a b tolerance maxIterations =
        { result := JsVal.null, rows := [],
          errors :=
            ["Bisection method failed: endpoints have the same sign or no convergence."],
          divisors := [], passes := 1, states := [] } := by
    intro f a b h
    have hlt : 0 < maxIterations := hmax
    unfold bisectionF
    rw [whileLoop]
    simp [bisectionBodyF, hlt, h]
  exact ⟨gen func a b, gen _ 0 1 (by decide!)⟩

/-- Witness of C4 (amended): the concrete scenario `func x = x * x + 1`, `a = 0`, `b = 1`, with
tolerance `0.0001` and 20 iterations; the computed product is `1 * 2 = 2 > 0`. -/
theorem bisection_computed_same_sign_fails_immediately_witness :
    (1 ≤ 20 ∧ (fun x : F64 => x * x + 1) 0 * (fun x : F64 => x * x + 1) 1 > 0) ∧
    bisectionF (fun x : F64 => x * x + 1) 0 1 0.0001 20 =
      { result := JsVal.null, rows := [],
        errors := ["Bisection method failed: endpoints have the same sign or no convergence."],
        divisors := [], passes := 1, states := [] } :=
  ⟨⟨by decide, by decide!⟩,
    (bisection_computed_same_sign_fails_immediately (fun x : F64 => x * x + 1) 0 1 0.0001 20
      (by decide)).1 (by decide!)⟩

/-- C5, Newton-Raphson zero-derivative failure.  For every function and `initialGuess`, the
central-difference derivative at `initialGuess` is exactly zero if and only if
`func (initialGuess + 1e-6) = func (initialGuess - 1e-6)`; when it is, for every
`maxIterations ≥ 1`, `newtonRaphson` returns `null` in its first pass, after the zero-derivative
message, with no row inserted (so at most one) and only the division inside `derivative`
evaluated; this is so in particular for `func x = x ^ 2 + 1` and `initialGuess = 0`. -/
theorem newtonRaphson_zero_derivative_fails (func : K → K) (initialGuess tolerance : K)
    (maxIterations : Nat) (hmax : 1 ≤ maxIterations) :
    (derivative func initialGuess defaultEpsilon = 0 ↔
      func (initialGuess + 1e-6) = func (initialGuess - 1e-6)) ∧
    (derivative func initialGuess defaultEpsilon = 0 →
      newtonRaphson func initialGuess tolerance maxIterations =
        { result := JsVal.null, rows := [],
          errors := ["Newton-Raphson method failed: derivative is zero or no convergence."],
          divisors := [derivativeDivisor defaultEpsilon], passes := 1, states := [] }) ∧
    newtonRaphson (fun x : K => x ^ 2 + 1) 0 tolerance maxIterations =
      { result := JsVal.null, rows := [],
        errors := ["Newton-Raphson method failed: derivative is zero or no convergence."],
        divisors := [derivativeDivisor defaultEpsilon], passes := 1, states := [] } := by
  have hiff : ∀ (f : K → K) (g : K),
      derivative f g defaultEpsilon = 0 ↔ f (g + 1e-6) = f (g - 1e-6) := by
    intro f g
    have h2 : (2 * 1e-6 : K) ≠ 0 := by norm_num
    unfold derivative defaultEpsilon
    rw [div_eq_zero_iff, sub_eq_zero]
    exact ⟨fun h => h.resolve_right h2, Or.inl⟩
  have gen : ∀ (f : K → K) (g : K), derivative f g defaultEpsilon = 0 →
      newtonRaphson f g tolerance maxIterations =
        { result := JsVal.null, rows := [],
          errors := ["Newton-Raphson method failed: derivative is zero or no convergence."],
          divisors := [derivativeDivisor defaultEpsilon], passes := 1, states := [] } := by
    intro f g hd
    have hlt : 0 < maxIterations := hmax
    unfold newtonRaphson
    rw [whileLoop]
    simp [newtonRaphsonBody, hlt, hd]
  exact ⟨hiff func initialGuess, gen func initialGuess,
    gen _ 0 ((hiff _ 0).mpr (by norm_num))⟩

/-- Witness of C5: the concrete scenario `func x = x ^ 2 + 1`, `initialGuess = 0`, with
tolerance `1/10000` and 20 iterations. -/
theorem newtonRaphson_zero_derivative_fails_witness :
    (1 ≤ 20 ∧ derivative (fun x : ℚ => x ^ 2 + 1) 0 defaultEpsilon = 0) ∧
    newtonRaphson (fun x : ℚ => x ^ 2 + 1) 0 (1/10000) 20 =
      { result := JsVal.null, rows := [],
        errors := ["Newton-Raphson method failed: derivative is zero or no convergence."],
        divisors := [derivativeDivisor defaultEpsilon], passes := 1, states := [] } :=
  ⟨⟨by decide, by norm_num [derivative, defaultEpsilon]⟩,
    (newtonRaphson_zero_derivative_fails (fun x : ℚ => x ^ 2 + 1) 0 (1/10000) 20
      (by decide)).2.1 (by norm_num [derivative, defaultEpsilon])⟩

/-- C6, no division by zero.  In every call of `falsePosition`, `secant` and `newtonRaphson`,
every division that is evaluated has a non-zero divisor, and so has the division `2 * epsilon`
of `derivative` at its default `epsilon`.  Pass by pass: when `func a = func b`,
`falsePosition` and `secant` return `null` with no division evaluated, and otherwise their one
division is by `func b - func a`; when the derivative estimate is zero, `newtonRaphson` returns
`null` having evaluated only the division inside `derivative`, and otherwise it divides by the
derivative estimate as well. -/
theorem no_division_by_zero (func : K → K) (a b initialGuess tolerance : K)
    (maxIterations : Nat) :
    (∀ d ∈ (falsePosition func a b tolerance maxIterations).divisors, d ≠ 0) ∧
    (∀ d ∈ (secant func a b tolerance maxIterations).divisors, d ≠ 0) ∧
    (∀ d ∈ (newtonRaphson func initialGuess tolerance maxIterations).divisors, d ≠ 0) ∧
    derivativeDivisor (defaultEpsilon : K) ≠ 0 ∧
    (∀ (i : Nat) (s : Vars K),
      (func s.a = func s.b →
        (falsePositionBody func tolerance i s).flow = Flow.ret JsVal.null ∧
        (falsePositionBody func tolerance i s).divisors = []) ∧
      (func s.a ≠ func s.b →
        (falsePositionBody func tolerance i s).divisors = [func s.b - func s.a])) ∧
    (∀ (i : Nat) (s : Vars K),
      (func s.a = func s.b →
        (secantBody func tolerance i s).flow = Flow.ret JsVal.null ∧
        (secantBody func tolerance i s).divisors = []) ∧
      (func s.a ≠ func s.b →
        (secantBody func tolerance i s).divisors = [func s.b - func s.a])) ∧
    (∀ (i : Nat) (s : K),
      (derivative func s defaultEpsilon = 0 →
        (newtonRaphsonBody func tolerance i s).flow = Flow.ret JsVal.null ∧
        (newtonRaphsonBody func tolerance i s).divisors =
          [derivativeDivisor defaultEpsilon]) ∧
      (derivative func s defaultEpsilon ≠ 0 →
        (newtonRaphsonBody func tolerance i s).divisors =
          [derivativeDivisor defaultEpsilon, derivative func s defaultEpsilon])) := by
  have heps : derivativeDivisor (defaultEpsilon : K) ≠ 0 := by
    unfold derivativeDivisor defaultEpsilon
    norm_num
  have hfp : ∀ (i : Nat) (s : Vars K),
      (func s.a = func s.b →
        (falsePositionBody func tolerance i s).flow = Flow.ret JsVal.null ∧
        (falsePositionBody func tolerance i s).divisors = []) ∧
      (func s.a ≠ func s.b →
        (falsePositionBody func tolerance i s).divisors = [func s.b - func s.a]) := by
    intro i s
    constructor
    · intro h
      simp [falsePositionBody, h]
    · intro h
      unfold falsePositionBody
      dsimp only
      rw [if_neg h]
      split_ifs <;> rfl
  have hsc : ∀ (i : Nat) (s : Vars K),
      (func s.a = func s.b →
        (secantBody func tolerance i s).flow = Flow.ret JsVal.null ∧
        (secantBody func tolerance i s).divisors = []) ∧
      (func s.a ≠ func s.b →
        (secantBody func tolerance i s).divisors = [func s.b - func s.a]) := by
    intro i s
    constructor
    · intro h
      simp [secantBody, h]
    · intro h
      unfold secantBody
      dsimp only
      rw [if_neg h]
      split_ifs <;> rfl
  have hnr : ∀ (i : Nat) (s : K),
      (derivative func s defaultEpsilon = 0 →
        (newtonRaphsonBody func tolerance i s).flow = Flow.ret JsVal.null ∧
        (newtonRaphsonBody func tolerance i s).divisors =
          [derivativeDivisor defaultEpsilon]) ∧
      (derivative func s defaultEpsilon ≠ 0 →
        (newtonRaphsonBody func tolerance i s).divisors =
          [derivativeDivisor defaultEpsilon, derivative func s defaultEpsilon]) := by
    intro i s
    constructor
    · intro h
      simp [newtonRaphsonBody, h]
    · intro h
      unfold newtonRaphsonBody
      dsimp only
      rw [if_neg h]
      split_ifs <;> rfl
  refine ⟨?_, ?_, ?_, heps, hfp, hsc, hnr⟩
  · refine whileLoop_divisors maxIterations _ _ (fun d => d ≠ 0) ?_ 0 _
    intro i s d hd
    by_cases h : func s.a = func s.b
    · rw [((hfp i s).1 h).2] at hd; cases hd
    · rw [(hfp i s).2 h, List.mem_singleton] at hd
      rw [hd]; exact sub_ne_zero.mpr (Ne.symm h)
  · refine whileLoop_divisors maxIterations _ _ (fun d => d ≠ 0) ?_ 0 _
    intro i s d hd
    by_cases h : func s.a = func s.b
    · rw [((hsc i s).1 h).2] at hd; cases hd
    · rw [(hsc i s).2 h, List.mem_singleton] at hd
      rw [hd]; exact sub_ne_zero.mpr (Ne.symm h)
  · refine whileLoop_divisors maxIterations _ _ (fun d => d ≠ 0) ?_ 0 _
    intro i s d hd
    by_cases h : derivative func s defaultEpsilon = 0
    · rw [((hnr i s).1 h).2, List.mem_singleton] at hd
      rw [hd]; exact heps
    · rw [(hnr i s).2 h] at hd
      simp only [List.mem_cons, List.mem_singleton, List.not_mem_nil, or_false] at hd
      rcases hd with hd | hd
      · rw [hd]; exact heps
      · rw [hd]; exact h

/-- Witness of C6: on `func x = x` with `a = -1`, `b = 1`, `initialGuess = 1`, tolerance `1/2`
and 20 iterations, `falsePosition` and `secant` each divide by `2` and `newtonRaphson` divides
by `1`; these divisors are not zero. -/
theorem no_division_by_zero_witness :
    ((2 : ℚ) ∈ (falsePosition (fun x : ℚ => x) (-1) 1 (1/2) 20).divisors ∧ (2 : ℚ) ≠ 0) ∧
    ((2 : ℚ) ∈ (secant (fun x : ℚ => x) (-1) 1 (1/2) 20).divisors ∧ (2 : ℚ) ≠ 0) ∧
    ((1 : ℚ) ∈ (newtonRaphson (fun x : ℚ => x) 1 (1/2) 20).divisors ∧ (1 : ℚ) ≠ 0) := by
  have hf : (2 : ℚ) ∈ (falsePosition (fun x : ℚ => x) (-1) 1 (1/2) 20).divisors := by
    unfold falsePosition
    rw [whileLoop]; norm_num [falsePositionBody]
  have hs : (2 : ℚ) ∈ (secant (fun x : ℚ => x) (-1) 1 (1/2) 20).divisors := by
    unfold secant
    rw [whileLoop]; norm_num [secantBody]
  have hn : (1 : ℚ) ∈ (newtonRaphson (fun x : ℚ => x) 1 (1/2) 20).divisors := by
    unfold newtonRaphson
    rw [whileLoop]; norm_num [newtonRaphsonBody, derivative, defaultEpsilon]
  have h := no_division_by_zero (fun x : ℚ => x) (-1) 1 1 (1/2) 20
  exact ⟨⟨hf, h.1 2 hf⟩, ⟨hs, h.2.1 2 hs⟩, ⟨hn, h.2.2.1 1 hn⟩⟩

/-- C7, bounded termination.  For every function, all numeric inputs and every natural number
`maxIterations`, each of the four methods (a total function of its arguments) enters its loop
body at most `maxIterations` times, inserts at most `maxIterations` rows, and returns exactly one
of `null` (Failed) and a number (Converged), never `undefined`. -/
theorem bounded_termination (func : K → K) (a b initialGuess tolerance : K)
    (maxIterations : Nat) :
    ((bisection func a b tolerance maxIterations).passes ≤ maxIterations ∧
      (bisection func a b tolerance maxIterations).rows.length ≤ maxIterations ∧
      Xor' ((bisection func a b tolerance maxIterations).result = JsVal.null)
        (∃ x, (bisection func a b tolerance maxIterations).result = JsVal.num x)) ∧
    ((falsePosition func a b tolerance maxIterations).passes ≤ maxIterations ∧
      (falsePosition func a b tolerance maxIterations).rows.length ≤ maxIterations ∧
      Xor' ((falsePosition func a b tolerance maxIterations).result = JsVal.null)
        (∃ x, (falsePosition func a b tolerance maxIterations).result = JsVal.num x)) ∧
    ((newtonRaphson func initialGuess tolerance maxIterations).passes ≤ maxIterations ∧
      (newtonRaphson func initialGuess tolerance maxIterations).rows.length ≤ maxIterations ∧
      Xor' ((newtonRaphson func initialGuess tolerance maxIterations).result = JsVal.null)
        (∃ x, (newtonRaphson func initialGuess tolerance maxIterations).result =
          JsVal.num x)) ∧
    ((secant func a b tolerance maxIterations).passes ≤ maxIterations ∧
      (secant func a b tolerance maxIterations).rows.length ≤ maxIterations ∧
      Xor' ((secant func a b tolerance maxIterations).result = JsVal.null)
        (∃ x, (secant func a b tolerance maxIterations).result = JsVal.num x)) := by
  have key : ∀ {σ : Type} (rootOf : σ → JsVal K) (body : Nat → σ → Pass σ K) (s : σ),
      BodySpec func tolerance rootOf body →
      (whileLoop maxIterations rootOf body 0 s).passes ≤ maxIterations ∧
      (whileLoop maxIterations rootOf body 0 s).rows.length ≤ maxIterations ∧
      Xor' ((whileLoop maxIterations rootOf body 0 s).result = JsVal.null)
        (∃ x, (whileLoop maxIterations rootOf body 0 s).result = JsVal.num x) := by
    intro σ rootOf body s hb
    have h1 := whileLoop_bounds rootOf body maxIterations 0 s
    refine ⟨h1.1, le_trans h1.2 h1.1, ?_⟩
    rcases whileLoop_result hb maxIterations 0 s with h | ⟨x, h⟩
    · refine Or.inl ⟨h, ?_⟩
      rintro ⟨x, hx⟩
      rw [h] at hx; cases hx
    · refine Or.inr ⟨⟨x, h⟩, ?_⟩
      intro hn
      rw [h] at hn; cases hn
  exact ⟨key _ _ _ (bisectionBody_spec func tolerance),
    key _ _ _ (falsePositionBody_spec func tolerance),
    key _ _ _ (newtonRaphsonBody_spec func tolerance),
    key _ _ _ (secantBody_spec func tolerance)⟩

/-- C8, concrete scenario 1.  In exact arithmetic, `bisection` on `func x = x ^ 2 - 4` with
`a = 0`, `b = 3`, tolerance `1e-4` and 20 iterations returns the number `131073/65536` (not
`null`) after 16 rows, at most 20, with no message to `console.error`, and
`|131073/65536 - 2| < 1e-4`. -/
theorem bisection_scenario_one_converges :
    (bisection (fun x : ℚ => x ^ 2 - 4) 0 3 1e-4 20).result = JsVal.num (131073 / 65536) ∧
    (bisection (fun x : ℚ => x ^ 2 - 4) 0 3 1e-4 20).rows.length = 16 ∧
    (bisection (fun x : ℚ => x ^ 2 - 4) 0 3 1e-4 20).rows.length ≤ 20 ∧
    (bisection (fun x : ℚ => x ^ 2 - 4) 0 3 1e-4 20).errors = [] ∧
    |(131073 / 65536 : ℚ) - 2| < 1e-4 := by
  unfold bisection
  iterate 16 (rw [whileLoop]; norm_num [bisectionBody, abs_lt])

/-- C9, concrete scenario 2.  In exact arithmetic, `falsePosition` on `func x = x ^ 3 - x - 2`
with `a = 1`, `b = 2`, tolerance `1e-4` and 20 iterations returns a number `root` after 9 rows,
at most 20, with no message to `console.error` (neither the outside-interval guard nor the
equal-function-value check fires), and `|root - 1.521380| < 1e-4`. -/
theorem falsePosition_scenario_two_converges :
    ∃ root : ℚ,
      (falsePosition (fun x : ℚ => x ^ 3 - x - 2) 1 2 1e-4 20).result = JsVal.num root ∧
      (falsePosition (fun x : ℚ => x ^ 3 - x - 2) 1 2 1e-4 20).rows.length = 9 ∧
      (falsePosition (fun x : ℚ => x ^ 3 - x - 2) 1 2 1e-4 20).rows.length ≤ 20 ∧
      (falsePosition (fun x : ℚ => x ^ 3 - x - 2) 1 2 1e-4 20).errors = [] ∧
      |root - 1.521380| < 1e-4 := by
  unfold falsePosition
  iterate 9 (rw [whileLoop]; norm_num [falsePositionBody, abs_lt])

/-- C10, as the claim states it, fails in the numbers of the script: `falsePosition` on
`func x = x`, `a = -1e200`, `b = 1e200`, tolerance `0.5` and 20 iterations detects no failure,
and each of its 20 iterations updates the bracket and reaches `iteration++` with the estimate
and the endpoint `a` both `NaN`, so that neither `a <= root <= b` nor `b <= root <= a` holds
after the update. -/
theorem falsePosition_update_leaves_nan_bracket :
    (falsePositionF (fun x => x) (-1e200) 1e200 0.5 20).errors = [] ∧
    (falsePositionF (fun x => x) (-1e200) 1e200 0.5 20).rows.length = 20 ∧
    (falsePositionF (fun x => x) (-1e200) 1e200 0.5 20).states.length = 20 ∧
    ∀ p ∈ List.zip (falsePositionF (fun x => x) (-1e200) 1e200 0.5 20).rows
        (falsePositionF (fun x => x) (-1e200) 1e200 0.5 20).states,
      p.2.root = JsVal.num p.1.root ∧ p.1.root = F64.nan ∧ p.2.a = F64.nan ∧
      ¬ ((p.2.a ≤ p.1.root ∧ p.1.root ≤ p.2.b) ∨ (p.2.b ≤ p.1.root ∧ p.1.root ≤ p.2.a)) := by
  unfold falsePositionF
  rw [whileLoop_eq_unrolled 20 _ _ 20 0 _ (le_refl _)]
  decide!

/-- Bracket containment read in exact arithmetic, where every two numbers are comparable.  In
`bisection` and in `falsePosition` over an ordered field, the `k`-th recorded state is the
bracket left by the `k`-th iteration (recorded for every iteration that updated the bracket and
went on to `iteration++`), and there is a `k`-th row for it.  Its `root` is the root estimate of
the `k`-th row, and that estimate lies in the closed interval spanned by the updated endpoints:
`a ≤ root ≤ b` or `b ≤ root ≤ a`.  In doubles an endpoint can be `NaN`; the
statement for the doubles follows. -/
theorem bracket_contains_root_after_update (func : K → K) (a b tolerance : K)
    (maxIterations : Nat) :
    ((bisection func a b tolerance maxIterations).states.length ≤
        (bisection func a b tolerance maxIterations).rows.length ∧
      ∀ p ∈ List.zip (bisection func a b tolerance maxIterations).rows
          (bisection func a b tolerance maxIterations).states,
        p.2.root = JsVal.num p.1.root ∧
        ((p.2.a ≤ p.1.root ∧ p.1.root ≤ p.2.b) ∨ (p.2.b ≤ p.1.root ∧ p.1.root ≤ p.2.a))) ∧
    ((falsePosition func a b tolerance maxIterations).states.length ≤
        (falsePosition func a b tolerance maxIterations).rows.length ∧
      ∀ p ∈ List.zip (falsePosition func a b tolerance maxIterations).rows
          (falsePosition func a b tolerance maxIterations).states,
        p.2.root = JsVal.num p.1.root ∧
        ((p.2.a ≤ p.1.root ∧ p.1.root ≤ p.2.b) ∨ (p.2.b ≤ p.1.root ∧ p.1.root ≤ p.2.a))) := by
  have hbis : ∀ (i : Nat) (s s1 : Vars K),
      (bisectionBody func tolerance i s).flow = Flow.next s1 →
      ∃ r, (bisectionBody func tolerance i s).row = some r ∧
        (s1.root = JsVal.num r.root ∧
          ((s1.a ≤ r.root ∧ r.root ≤ s1.b) ∨ (s1.b ≤ r.root ∧ r.root ≤ s1.a))) := by
    intro i s s1 h
    unfold bisectionBody at h ⊢
    dsimp only at h ⊢
    split_ifs at h ⊢ with h1 h2 h3
    all_goals (injection h with h; subst h; refine ⟨_, rfl, rfl, ?_⟩; dsimp only)
    · rcases le_total s.a (s.a + (s.b - s.a) / 2) with hle | hle
      · exact Or.inl ⟨hle, le_refl _⟩
      · exact Or.inr ⟨le_refl _, hle⟩
    · rcases le_total (s.a + (s.b - s.a) / 2) s.b with hle | hle
      · exact Or.inl ⟨le_refl _, hle⟩
      · exact Or.inr ⟨hle, le_refl _⟩
  have hfp : ∀ (i : Nat) (s s1 : Vars K),
      (falsePositionBody func tolerance i s).flow = Flow.next s1 →
      ∃ r, (falsePositionBody func tolerance i s).row = some r ∧
        (s1.root = JsVal.num r.root ∧
          ((s1.a ≤ r.root ∧ r.root ≤ s1.b) ∨ (s1.b ≤ r.root ∧ r.root ≤ s1.a))) := by
    intro i s s1 h
    unfold falsePositionBody at h ⊢
    dsimp only at h ⊢
    split_ifs at h ⊢
    all_goals
      (injection h with h; subst h; refine ⟨_, rfl, rfl, ?_⟩; dsimp only;
       simp only [not_or, not_lt, gt_iff_lt] at *; exact Or.inl (by assumption))
  refine ⟨⟨?_, ?_⟩, ⟨?_, ?_⟩⟩
  · exact whileLoop_states_length maxIterations _ _
      (fun i s s1 h => (hbis i s s1 h).imp fun _ hr => hr.1) 0 _
  · exact whileLoop_states maxIterations _ _ _ hbis 0 _
  · exact whileLoop_states_length maxIterations _ _
      (fun i s s1 h => (hfp i s s1 h).imp fun _ hr => hr.1) 0 _
  · exact whileLoop_states maxIterations _ _ _ hfp 0 _

/-- An instance of bracket containment in exact arithmetic: on `func x = x ^ 2 - 2` with
`a = 1`, `b = 2`, tolerance `1/1000` and one iteration, `bisection` inserts the row with root
estimate `3/2` and leaves the bracket `(1, 3/2)`, and `falsePosition` inserts the row with root
estimate `4/3` and leaves the bracket `(4/3, 2)`. -/
theorem bracket_contains_root_after_update_witness :
    ((({ method := "Bisection", iteration := 1, a := some 1, b := some 2, root := 3/2,
          fa := -1, fb := some 2, froot := 1/4 } : IterationRecord ℚ),
        ({ a := 1, b := 3/2, root := JsVal.num (3/2) } : Vars ℚ)) ∈
        List.zip (bisection (fun x : ℚ => x ^ 2 - 2) 1 2 (1/1000) 1).rows
          (bisection (fun x : ℚ => x ^ 2 - 2) 1 2 (1/1000) 1).states ∧
      (JsVal.num (3/2 : ℚ) = JsVal.num (3/2) ∧
        (((1 : ℚ) ≤ 3/2 ∧ (3/2 : ℚ) ≤ 3/2) ∨ ((3/2 : ℚ) ≤ 3/2 ∧ (3/2 : ℚ) ≤ 1)))) ∧
    ((({ method := "False Position", iteration := 1, a := some 1, b := some 2, root := 4/3,
          fa := -1, fb := some 2, froot := -2/9 } : IterationRecord ℚ),
        ({ a := 4/3, b := 2, root := JsVal.num (4/3) } : Vars ℚ)) ∈
        List.zip (falsePosition (fun x : ℚ => x ^ 2 - 2) 1 2 (1/1000) 1).rows
          (falsePosition (fun x : ℚ => x ^ 2 - 2) 1 2 (1/1000) 1).states ∧
      (JsVal.num (4/3 : ℚ) = JsVal.num (4/3) ∧
        (((4/3 : ℚ) ≤ 4/3 ∧ (4/3 : ℚ) ≤ 2) ∨ ((2 : ℚ) ≤ 4/3 ∧ (4/3 : ℚ) ≤ 4/3)))) := by
  have hb :
      (({ method := "Bisection", iteration := 1, a := some 1, b := some 2, root := 3/2,
          fa := -1, fb := some 2, froot := 1/4 } : IterationRecord ℚ),
        ({ a := 1, b := 3/2, root := JsVal.num (3/2) } : Vars ℚ)) ∈
        List.zip (bisection (fun x : ℚ => x ^ 2 - 2) 1 2 (1/1000) 1).rows
          (bisection (fun x : ℚ => x ^ 2 - 2) 1 2 (1/1000) 1).states := by
    unfold bisection
    rw [whileLoop]; norm_num [bisectionBody, abs_lt]
  have hf :
      (({ method := "False Position", iteration := 1, a := some 1, b := some 2,
          root := 4/3, fa := -1, fb := some 2, froot := -2/9 } : IterationRecord ℚ),
        ({ a := 4/3, b := 2, root := JsVal.num (4/3) } : Vars ℚ)) ∈
        List.zip (falsePosition (fun x : ℚ => x ^ 2 - 2) 1 2 (1/1000) 1).rows
          (falsePosition (fun x : ℚ => x ^ 2 - 2) 1 2 (1/1000) 1).states := by
    unfold falsePosition
    rw [whileLoop]; norm_num [falsePositionBody, abs_lt]
  have h := bracket_contains_root_after_update (fun x : ℚ => x ^ 2 - 2) 1 2 (1/1000) 1
  exact ⟨⟨hb, h.1.2 _ hb⟩, ⟨hf, h.2.2 _ hf⟩⟩

/-- C10, amended: bracket containment in the numbers of the script.  In `bisection` and in
`falsePosition` computed in doubles, the `k`-th recorded state is the bracket left by the `k`-th
iteration (recorded for every iteration that updated the bracket and went on to `iteration++`,
so not for one ending in a detected failure), and there is a `k`-th row for it.  Its `root` is
the root estimate of the `k`-th row, that estimate is one of the two updated endpoints, and
when the updated endpoints are numbers (neither is `NaN`) it lies in the closed interval they
span: `a <= root <= b` or `b <= root <= a`. -/
theorem bracket_contains_numeric_root_after_update (func : F64 → F64) (a b tolerance : F64)
    (maxIterations : Nat) :
    ((bisectionF func a b tolerance maxIterations).states.length ≤
        (bisectionF func a b tolerance maxIterations).rows.length ∧
      ∀ p ∈ List.zip (bisectionF func a b tolerance maxIterations).rows
          (bisectionF func a b tolerance maxIterations).states,
        p.2.root = JsVal.num p.1.root ∧ (p.2.a = p.1.root ∨ p.2.b = p.1.root) ∧
        (p.2.a ≠ F64.nan → p.2.b ≠ F64.nan →
          ((p.2.a ≤ p.1.root ∧ p.1.root ≤ p.2.b) ∨ (p.2.b ≤ p.1.root ∧ p.1.root ≤ p.2.a)))) ∧
    ((falsePositionF func a b tolerance maxIterations).states.length ≤
        (falsePositionF func a b tolerance maxIterations).rows.length ∧
      ∀ p ∈ List.zip (falsePositionF func a b tolerance maxIterations).rows
          (falsePositionF func a b tolerance maxIterations).states,
        p.2.root = JsVal.num p.1.root ∧ (p.2.a = p.1.root ∨ p.2.b = p.1.root) ∧
        (p.2.a ≠ F64.nan → p.2.b ≠ F64.nan →
          ((p.2.a ≤ p.1.root ∧ p.1.root ≤ p.2.b) ∨ (p.2.b ≤ p.1.root ∧ p.1.root ≤ p.2.a)))) := by
  have hspan : ∀ (x y root : F64), (x = root ∨ y = root) → x ≠ F64.nan → y ≠ F64.nan →
      ((x ≤ root ∧ root ≤ y) ∨ (y ≤ root ∧ root ≤ x)) := by
    intro x y root h hx hy
    rcases h with h | h
    · subst h
      rcases F64.le_total_of_ne_nan x y hx hy with hle | hle
      · exact Or.inl ⟨F64.le_refl_of_ne_nan x hx, hle⟩
      · exact Or.inr ⟨hle, F64.le_refl_of_ne_nan x hx⟩
    · subst h
      rcases F64.le_total_of_ne_nan x y hx hy with hle | hle
      · exact Or.inl ⟨hle, F64.le_refl_of_ne_nan y hy⟩
      · exact Or.inr ⟨F64.le_refl_of_ne_nan y hy, hle⟩
  have hbis : ∀ (i : Nat) (s s1 : Vars F64),
      (bisectionBodyF func tolerance i s).flow = Flow.next s1 →
      ∃ r, (bisectionBodyF func tolerance i s).row = some r ∧
        (s1.root = JsVal.num r.root ∧ (s1.a = r.root ∨ s1.b = r.root) ∧
          (s1.a ≠ F64.nan → s1.b ≠ F64.nan →
            ((s1.a ≤ r.root ∧ r.root ≤ s1.b) ∨ (s1.b ≤ r.root ∧ r.root ≤ s1.a)))) := by
    intro i s s1 h
    unfold bisectionBodyF at h ⊢
    dsimp only at h ⊢
    split_ifs at h ⊢ with h1 h2 h3
    · injection h with h; subst h
      exact ⟨_, rfl, rfl, Or.inr rfl, hspan _ _ _ (Or.inr rfl)⟩
    · injection h with h; subst h
      exact ⟨_, rfl, rfl, Or.inl rfl, hspan _ _ _ (Or.inl rfl)⟩
  have hfp : ∀ (i : Nat) (s s1 : Vars F64),
      (falsePositionBodyF func tolerance i s).flow = Flow.next s1 →
      ∃ r, (falsePositionBodyF func tolerance i s).row = some r ∧
        (s1.root = JsVal.num r.root ∧ (s1.a = r.root ∨ s1.b = r.root) ∧
          (s1.a ≠ F64.nan → s1.b ≠ F64.nan →
            ((s1.a ≤ r.root ∧ r.root ≤ s1.b) ∨ (s1.b ≤ r.root ∧ r.root ≤ s1.a)))) := by
    intro i s s1 h
    unfold falsePositionBodyF at h ⊢
    dsimp only at h ⊢
    split_ifs at h ⊢ with h1 h2 h3 h4 h5
    · injection h with h; subst h
      exact ⟨_, rfl, rfl, Or.inr rfl, hspan _ _ _ (Or.inr rfl)⟩
    · injection h with h; subst h
      exact ⟨_, rfl, rfl, Or.inl rfl, hspan _ _ _ (Or.inl rfl)⟩
  refine ⟨⟨?_, ?_⟩, ⟨?_, ?_⟩⟩
  · exact whileLoop_states_length maxIterations _ _
      (fun i s s1 h => (hbis i s s1 h).imp fun _ hr => hr.1) 0 _
  · exact whileLoop_states maxIterations _ _ _ hbis 0 _
  · exact whileLoop_states_length maxIterations _ _
      (fun i s s1 h => (hfp i s s1 h).imp fun _ hr => hr.1) 0 _
  · exact whileLoop_states maxIterations _ _ _ hfp 0 _

/-- Witness of C10 (amended): on `func x = x * x - 2` with `a = 1`, `b = 2`, tolerance `0.001`
and one iteration, `bisection` in doubles inserts the row with root estimate `1.5` and leaves
the bracket `(1, 1.5)`, and `falsePosition` inserts the row with root estimate
`1.3333333333333333` and leaves the bracket `(1.3333333333333333, 2)`; the endpoints are
numbers. -/
theorem bracket_contains_numeric_root_after_update_witness :
    ((({ method := "Bisection", iteration := 1, a := some 1, b := some 2, root := 1.5,
          fa := -1, fb := some 2, froot := 0.25 } : IterationRecord F64),
        ({ a := 1, b := 1.5, root := JsVal.num 1.5 } : Vars F64)) ∈
        List.zip (bisectionF (fun x => x * x - 2) 1 2 0.001 1).rows
          (bisectionF (fun x => x * x - 2) 1 2 0.001 1).states ∧
      ((1 : F64) ≠ F64.nan ∧ (1.5 : F64) ≠ F64.nan) ∧
      (((1 : F64) ≤ 1.5 ∧ (1.5 : F64) ≤ 1.5) ∨ ((1.5 : F64) ≤ 1.5 ∧ (1.5 : F64) ≤ 1))) ∧
    ((({ method := "False Position", iteration := 1, a := some 1, b := some 2,
          root := 1.3333333333333333, fa := -1, fb := some 2,
          froot := -0.22222222222222232 } : IterationRecord F64),
        ({ a := 1.3333333333333333, b := 2,
           root := JsVal.num 1.3333333333333333 } : Vars F64)) ∈
        List.zip (falsePositionF (fun x => x * x - 2) 1 2 0.001 1).rows
          (falsePositionF (fun x => x * x - 2) 1 2 0.001 1).states ∧
      ((1.3333333333333333 : F64) ≠ F64.nan ∧ (2 : F64) ≠ F64.nan) ∧
      (((1.3333333333333333 : F64) ≤ 1.3333333333333333 ∧ (1.3333333333333333 : F64) ≤ 2) ∨
        ((2 : F64) ≤ 1.3333333333333333 ∧
          (1.3333333333333333 : F64) ≤ 1.3333333333333333))) := by
  have hb :
      (({ method := "Bisection", iteration := 1, a := some 1, b := some 2, root := 1.5,
          fa := -1, fb := some 2, froot := 0.25 } : IterationRecord F64),
        ({ a := 1, b := 1.5, root := JsVal.num 1.5 } : Vars F64)) ∈
        List.zip (bisectionF (fun x => x * x - 2) 1 2 0.001 1).rows
          (bisectionF (fun x => x * x - 2) 1 2 0.001 1).states := by
    unfold bisectionF
    rw [whileLoop_eq_unrolled 1 _ _ 1 0 _ (le_refl _)]
    decide!
  have hf :
      (({ method := "False Position", iteration := 1, a := some 1, b := some 2,
          root := 1.3333333333333333, fa := -1, fb := some 2,
          froot := -0.22222222222222232 } : IterationRecord F64),
        ({ a := 1.3333333333333333, b := 2,
           root := JsVal.num 1.3333333333333333 } : Vars F64)) ∈
        List.zip (falsePositionF (fun x => x * x - 2) 1 2 0.001 1).rows
          (falsePositionF (fun x => x * x - 2) 1 2 0.001 1).states := by
    unfold falsePositionF
    rw [whileLoop_eq_unrolled 1 _ _ 1 0 _ (le_refl _)]
    decide!
  have h := bracket_contains_numeric_root_after_update (fun x => x * x - 2) 1 2 0.001 1
  have n1 : (1 : F64) ≠ F64.nan := by decide!
  have n2 : (1.5 : F64) ≠ F64.nan := by decide!
  have n3 : (1.3333333333333333 : F64) ≠ F64.nan := by decide!
  have n4 : (2 : F64) ≠ F64.nan := by decide!
  exact ⟨⟨hb, ⟨n1, n2⟩, (h.1.2 _ hb).2.2 n1 n2⟩, ⟨hf, ⟨n3, n4⟩, (h.2.2 _ hf).2.2 n3 n4⟩⟩

/-- C11, as the claim states it, fails: with the unknown method name `"foo"` and an equation
from which no function can be built, the `try` block is left before the `switch` is reached, so
`"Invalid method"` is never sent to `console.error`; the only message is
`"Error parsing equation:"`. -/
theorem findRoot_unknown_method_unreported_when_build_throws :
    ("foo" ≠ "falsePosition" ∧ "foo" ≠ "bisection" ∧ "foo" ≠ "newtonRaphson" ∧
      "foo" ≠ "secant") ∧
    "Invalid method" ∉
      (findRoot "foo" (none : Option (ℚ → Option ℚ)) 0 1 0 (1/10000)).errors ∧
    (findRoot "foo" (none : Option (ℚ → Option ℚ)) 0 1 0 (1/10000)).errors =
      ["Error parsing equation:"] := by
  have h : (findRoot "foo" (none : Option (ℚ → Option ℚ)) 0 1 0 (1/10000)).errors =
      ["Error parsing equation:"] := by
    rw [findRoot_of_threw "foo" (none : Option (ℚ → Option ℚ)) 0 1 0 (1/10000) rfl]
    rfl
  refine ⟨⟨by decide, by decide, by decide, by decide⟩, ?_, h⟩
  rw [h]
  decide

/-- C11, amended: unknown method.  For every method name other than `"falsePosition"`,
`"bisection"`, `"newtonRaphson"` and `"secant"`, and every other input, `findRoot` calls none of
the four methods and inserts no row, the element `result` ends up showing
`"Failed to converge"` (the last call of `displayResult` is with `null`), and no exception
leaves `findRoot`.  When the function can be built from the equation, `"Invalid method"` is
sent to `console.error`, `displayResult(undefined)` throws inside the `try` block, and the
`catch` handler sends `"Error parsing equation:"` and calls `displayResult(null)`.  When
building the function throws, only the `catch` handler runs. -/
theorem findRoot_unknown_method (method : String) (build : Option (K → Option K))
    (a b initialGuess tolerance : K)
    (h1 : method ≠ "falsePosition") (h2 : method ≠ "bisection")
    (h3 : method ≠ "newtonRaphson") (h4 : method ≠ "secant") :
    (findRoot method build a b initialGuess tolerance).invoked = none ∧
    (findRoot method build a b initialGuess tolerance).rows = [] ∧
    (findRoot method build a b initialGuess tolerance).display =
      some Display.failedToConverge ∧
    (findRoot method build a b initialGuess tolerance).displayCalls.getLast? =
      some JsVal.null ∧
    (findRoot method build a b initialGuess tolerance).escaped = false ∧
    (build.isSome = true →
      (findRoot method build a b initialGuess tolerance).errors =
        ["Invalid method", "Error parsing equation:"] ∧
      (findRoot method build a b initialGuess tolerance).displayCalls =
        [JsVal.undefined, JsVal.null]) ∧
    (build = none →
      (findRoot method build a b initialGuess tolerance).errors =
        ["Error parsing equation:"] ∧
      (findRoot method build a b initialGuess tolerance).displayCalls = [JsVal.null]) := by
  cases build with
  | none =>
    rw [findRoot_of_threw method (none : Option (K → Option K)) a b initialGuess tolerance
      rfl]
    refine ⟨rfl, rfl, rfl, rfl, rfl, ?_, fun _ => ⟨rfl, rfl⟩⟩
    intro h; cases h
  | some func =>
    have htry : findRootTry method (some func) a b initialGuess tolerance =
        { threw := true, invoked := none, rows := [], errors := ["Invalid method"],
          displayCalls := [JsVal.undefined], display := none } := by
      unfold findRootTry
      simp only [h1, h2, h3, h4, if_false]
      rfl
    have hthrew : (findRootTry method (some func) a b initialGuess tolerance).threw = true := by
      rw [htry]
    rw [findRoot_of_threw _ _ _ _ _ _ hthrew, htry]
    refine ⟨rfl, rfl, rfl, rfl, rfl, fun _ => ⟨rfl, rfl⟩, ?_⟩
    intro h; cases h

/-- Witness of C11 (amended): the method name `"foo"` with the equation `x` (a function that
never throws) and the page numbers `0`, `1`, `0`, `1/10000`. -/
theorem findRoot_unknown_method_witness :
    ("foo" ≠ "falsePosition" ∧ "foo" ≠ "bisection" ∧ "foo" ≠ "newtonRaphson" ∧
      "foo" ≠ "secant") ∧
    (findRoot "foo" (some fun x : ℚ => some x) 0 1 0 (1/10000)).invoked = none ∧
    (findRoot "foo" (some fun x : ℚ => some x) 0 1 0 (1/10000)).rows = [] ∧
    (findRoot "foo" (some fun x : ℚ => some x) 0 1 0 (1/10000)).display =
      some Display.failedToConverge ∧
    (findRoot "foo" (some fun x : ℚ => some x) 0 1 0 (1/10000)).errors =
      ["Invalid method", "Error parsing equation:"] :=
  have h := findRoot_unknown_method "foo" (some fun x : ℚ => some x) 0 1 0 (1/10000)
    (by decide) (by decide) (by decide) (by decide)
  ⟨⟨by decide, by decide, by decide, by decide⟩, h.1, h.2.1, h.2.2.1, (h.2.2.2.2.2.1 rfl).1⟩

/-- C12, evaluation failure.  With the evaluator a function that may throw: for every method
name and every input no exception leaves `findRoot`.  If building the function from the
equation throws, or if for one of the four method names the selected method's call is left by an
exception thrown by an evaluation of the function, then `displayResult` is called exactly once,
with `null`, after `"Error parsing equation:"` was sent, and the element `result` shows
`"Failed to converge"`.  A call is left by an exception in particular when the first evaluation
throws: at `a` for the three bracket methods, at `initialGuess` for Newton-Raphson. -/
theorem findRoot_catches_evaluation_failure (method : String)
    (build : Option (K → Option K)) (a b initialGuess tolerance : K) :
    (findRoot method build a b initialGuess tolerance).escaped = false ∧
    (build = none →
      (findRoot method build a b initialGuess tolerance).displayCalls = [JsVal.null] ∧
      (findRoot method build a b initialGuess tolerance).display =
        some Display.failedToConverge ∧
      (findRoot method build a b initialGuess tolerance).errors =
        ["Error parsing equation:"]) ∧
    (∀ (func : K → Option K) (c : Call K), build = some func →
      ((method = "falsePosition" ∧ c = falsePositionM func a b tolerance 20) ∨
        (method = "bisection" ∧ c = bisectionM func a b tolerance 20) ∨
        (method = "newtonRaphson" ∧ c = newtonRaphsonM func initialGuess tolerance 20) ∨
        (method = "secant" ∧ c = secantM func a b tolerance 20)) →
      c.returned = none →
      (findRoot method build a b initialGuess tolerance).displayCalls = [JsVal.null] ∧
      (findRoot method build a b initialGuess tolerance).display =
        some Display.failedToConverge ∧
      (findRoot method build a b initialGuess tolerance).errors =
        c.errors ++ ["Error parsing equation:"]) ∧
    (∀ func : K → Option K,
      (func a = none →
        (falsePositionM func a b tolerance 20).returned = none ∧
        (bisectionM func a b tolerance 20).returned = none ∧
        (secantM func a b tolerance 20).returned = none) ∧
      (func initialGuess = none →
        (newtonRaphsonM func initialGuess tolerance 20).returned = none)) := by
  refine ⟨findRoot_never_escapes method build a b initialGuess tolerance, ?_, ?_, ?_⟩
  · intro hb
    subst hb
    rw [findRoot_of_threw method (none : Option (K → Option K)) a b initialGuess tolerance
      rfl]
    exact ⟨rfl, rfl, rfl⟩
  · intro func c hb hsel hret
    subst hb
    have htry : findRootTry method (some func) a b initialGuess tolerance =
        { threw := true, invoked := some method, rows := c.rows, errors := c.errors,
          displayCalls := [], display := none } := by
      have hm : ∀ name : String, tryMethod name c =
          { threw := true, invoked := some name, rows := c.rows, errors := c.errors,
            displayCalls := [], display := none } := by
        intro name
        unfold tryMethod
        rw [hret]
      rcases hsel with ⟨hm1, hc⟩ | ⟨hm1, hc⟩ | ⟨hm1, hc⟩ | ⟨hm1, hc⟩
      · subst hm1
        unfold findRootTry
        dsimp only
        rw [if_pos rfl, ← hc]; exact hm _
      · subst hm1
        unfold findRootTry
        dsimp only
        rw [if_neg (by decide), if_pos rfl, ← hc]; exact hm _
      · subst hm1
        unfold findRootTry
        dsimp only
        rw [if_neg (by decide), if_neg (by decide), if_pos rfl, ← hc]; exact hm _
      · subst hm1
        unfold findRootTry
        dsimp only
        rw [if_neg (by decide), if_neg (by decide), if_neg (by decide), if_pos rfl, ← hc]; exact hm _
    have hthrew : (findRootTry method (some func) a b initialGuess tolerance).threw = true := by
      rw [htry]
    rw [findRoot_of_threw _ _ _ _ _ _ hthrew, htry]
    exact ⟨rfl, rfl, rfl⟩
  · intro func
    constructor
    · intro ha
      refine ⟨?_, ?_, ?_⟩
      · unfold falsePositionM
        rw [whileLoopM]
        simp [falsePositionBodyM, ha]
      · unfold bisectionM
        rw [whileLoopM]
        simp [bisectionBodyM, ha]
      · unfold secantM
        rw [whileLoopM]
        simp [secantBodyM, ha]
    · intro hg
      unfold newtonRaphsonM
      rw [whileLoopM]
      simp [newtonRaphsonBodyM, hg]

/-- Witness of C12: the method `"bisection"` on `a = 1`, `b = 2` with a function that computes
`x ^ 2 - 2` except at `3/2`, where it throws.  The first pass evaluates the function at `1`,
at `2` and then at the midpoint `3/2`, so the call is left by an exception, and `findRoot`
shows `"Failed to converge"`. -/
theorem findRoot_catches_evaluation_failure_witness :
    (bisectionM (fun x : ℚ => if x = 3/2 then none else some (x ^ 2 - 2)) 1 2 (1/1000)
      20).returned = none ∧
    (findRoot "bisection" (some fun x : ℚ => if x = 3/2 then none else some (x ^ 2 - 2))
      1 2 0 (1/1000)).displayCalls = [JsVal.null] ∧
    (findRoot "bisection" (some fun x : ℚ => if x = 3/2 then none else some (x ^ 2 - 2))
      1 2 0 (1/1000)).display = some Display.failedToConverge := by
  have hret : (bisectionM (fun x : ℚ => if x = 3/2 then none else some (x ^ 2 - 2)) 1 2
      (1/1000) 20).returned = none := by
    unfold bisectionM
    rw [whileLoopM]
    norm_num [bisectionBodyM]
  have h := (findRoot_catches_evaluation_failure "bisection"
    (some fun x : ℚ => if x = 3/2 then none else some (x ^ 2 - 2)) 1 2 0 (1/1000)).2.2.1
    _ _ rfl (Or.inr (Or.inl ⟨rfl, rfl⟩)) hret
  exact ⟨hret, h.1, h.2.1⟩

/-- C13, stop at the first satisfying record.  For each of the four methods and every
`k < maxIterations`: if the first `k` passes all reach `iteration++` (no failure detected, no
record below the tolerance) and pass `k + 1` inserts a record `r` with `|f(root)| < tolerance`,
then the call inserts exactly `k + 1` rows, `r` last, and returns the number `r.root`.  The case
`k + 1 = maxIterations` is included: convergence in the last permitted iteration is not
reported as exhaustion. -/
theorem stops_at_first_satisfying_record (func : K → K) (a b initialGuess tolerance : K)
    (maxIterations k : Nat) (hk : k < maxIterations) :
    (∀ s r, stateAfter (bisectionBody func tolerance) 0
          { a := a, b := b, root := JsVal.undefined } k = some s →
        (bisectionBody func tolerance k s).row = some r → |r.froot| < tolerance →
        (bisection func a b tolerance maxIterations).rows.length = k + 1 ∧
        (bisection func a b tolerance maxIterations).rows.getLast? = some r ∧
        (bisection func a b tolerance maxIterations).result = JsVal.num r.root) ∧
    (∀ s r, stateAfter (falsePositionBody func tolerance) 0
          { a := a, b := b, root := JsVal.undefined } k = some s →
        (falsePositionBody func tolerance k s).row = some r → |r.froot| < tolerance →
        (falsePosition func a b tolerance maxIterations).rows.length = k + 1 ∧
        (falsePosition func a b tolerance maxIterations).rows.getLast? = some r ∧
        (falsePosition func a b tolerance maxIterations).result = JsVal.num r.root) ∧
    (∀ s r, stateAfter (newtonRaphsonBody func tolerance) 0 initialGuess k = some s →
        (newtonRaphsonBody func tolerance k s).row = some r → |r.froot| < tolerance →
        (newtonRaphson func initialGuess tolerance maxIterations).rows.length = k + 1 ∧
        (newtonRaphson func initialGuess tolerance maxIterations).rows.getLast? = some r ∧
        (newtonRaphson func initialGuess tolerance maxIterations).result =
          JsVal.num r.root) ∧
    (∀ s r, stateAfter (secantBody func tolerance) 0
          { a := a, b := b, root := JsVal.undefined } k = some s →
        (secantBody func tolerance k s).row = some r → |r.froot| < tolerance →
        (secant func a b tolerance maxIterations).rows.length = k + 1 ∧
        (secant func a b tolerance maxIterations).rows.getLast? = some r ∧
        (secant func a b tolerance maxIterations).result = JsVal.num r.root) := by
  have hstop := bodies_break_on_converged_row func tolerance
  have h0 : 0 + k < maxIterations := by omega
  refine ⟨?_, ?_, ?_, ?_⟩
  · intro s r hs hr hc
    have hr0 : (bisectionBody func tolerance (0 + k) s).row = some r := by
      rw [Nat.zero_add]; exact hr
    exact whileLoop_first_converged (bisectionBody_spec func tolerance) hstop.1
      maxIterations k 0 _ s r h0 hs hr0 hc
  · intro s r hs hr hc
    have hr0 : (falsePositionBody func tolerance (0 + k) s).row = some r := by
      rw [Nat.zero_add]; exact hr
    exact whileLoop_first_converged (falsePositionBody_spec func tolerance) hstop.2.1
      maxIterations k 0 _ s r h0 hs hr0 hc
  · intro s r hs hr hc
    have hr0 : (newtonRaphsonBody func tolerance (0 + k) s).row = some r := by
      rw [Nat.zero_add]; exact hr
    exact whileLoop_first_converged (newtonRaphsonBody_spec func tolerance) hstop.2.2.1
      maxIterations k 0 _ s r h0 hs hr0 hc
  · intro s r hs hr hc
    have hr0 : (secantBody func tolerance (0 + k) s).row = some r := by
      rw [Nat.zero_add]; exact hr
    exact whileLoop_first_converged (secantBody_spec func tolerance) hstop.2.2.2
      maxIterations k 0 _ s r h0 hs hr0 hc

/-- Witness of C13, with convergence in the last permitted iteration.  `bisection` on
`func x = x`, `a = -1`, `b = 3`, tolerance `1/2` and `maxIterations = 2`: the first pass reaches
`iteration++` leaving the bracket `(-1, 1)`, the second inserts a record with residual `0`, and
the call returns `0` after exactly 2 rows.  `newtonRaphson` on `func x = x` from
`initialGuess = 1` with `maxIterations = 1`: the first pass inserts a record with residual `0`,
and the call returns `0` after exactly 1 row. -/
theorem stops_at_first_satisfying_record_witness :
    ((1 < 2 ∧
      stateAfter (bisectionBody (fun x : ℚ => x) (1/2)) 0
        { a := -1, b := 3, root := JsVal.undefined } 1 =
        some { a := -1, b := 1, root := JsVal.num 1 } ∧
      (bisectionBody (fun x : ℚ => x) (1/2) 1 { a := -1, b := 1, root := JsVal.num 1 }).row =
        some { method := "Bisection", iteration := 2, a := some (-1), b := some 1, root := 0,
               fa := -1, fb := some 1, froot := 0 } ∧
      |(0 : ℚ)| < 1/2) ∧
      (bisection (fun x : ℚ => x) (-1) 3 (1/2) 2).rows.length = 2 ∧
      (bisection (fun x : ℚ => x) (-1) 3 (1/2) 2).result = JsVal.num 0) ∧
    ((0 < 1 ∧
      stateAfter (newtonRaphsonBody (fun x : ℚ => x) (1/2)) 0 (1 : ℚ) 0 = some 1 ∧
      (newtonRaphsonBody (fun x : ℚ => x) (1/2) 0 1).row =
        some { method := "Newton-Raphson", iteration := 1, a := none, b := none, root := 0,
               fa := 1, fb := none, froot := 0 } ∧
      |(0 : ℚ)| < 1/2) ∧
      (newtonRaphson (fun x : ℚ => x) 1 (1/2) 1).rows.length = 1 ∧
      (newtonRaphson (fun x : ℚ => x) 1 (1/2) 1).result = JsVal.num 0) := by
  have hb1 : stateAfter (bisectionBody (fun x : ℚ => x) (1/2)) 0
      { a := -1, b := 3, root := JsVal.undefined } 1 =
      some { a := -1, b := 1, root := JsVal.num 1 } := by
    norm_num [stateAfter, bisectionBody, abs_lt]
  have hb2 : (bisectionBody (fun x : ℚ => x) (1/2) 1
      { a := -1, b := 1, root := JsVal.num 1 }).row =
      some { method := "Bisection", iteration := 2, a := some (-1), b := some 1, root := 0,
             fa := -1, fb := some 1, froot := 0 } := by
    norm_num [bisectionBody]
  have hn1 : stateAfter (newtonRaphsonBody (fun x : ℚ => x) (1/2)) 0 (1 : ℚ) 0 = some 1 := rfl
  have hn2 : (newtonRaphsonBody (fun x : ℚ => x) (1/2) 0 1).row =
      some { method := "Newton-Raphson", iteration := 1, a := none, b := none, root := 0,
             fa := 1, fb := none, froot := 0 } := by
    norm_num [newtonRaphsonBody, derivative, defaultEpsilon]
  have hc : |(0 : ℚ)| < 1/2 := by norm_num
  have hB := (stops_at_first_satisfying_record (fun x : ℚ => x) (-1) 3 1 (1/2) 2 1
    (by decide)).1 _ _ hb1 hb2 hc
  have hN := (stops_at_first_satisfying_record (fun x : ℚ => x) (-1) 3 1 (1/2) 1 0
    (by decide)).2.2.1 _ _ hn1 hn2 hc
  exact ⟨⟨⟨by decide, hb1, hb2, hc⟩, hB.1, hB.2.2⟩, ⟨⟨by decide, hn1, hn2, hc⟩, hN.1, hN.2.2⟩⟩

/-- A zero at the endpoint `a` loses the bracket, already in exact arithmetic: on `func x = x`
with `a = 0`, `b = 1` (so `func a * func b ≤ 0`), tolerance `1/100 > 0` and 20 iterations, the
first iteration does not converge and leaves the bracket `(1/2, 1)` with `func a * func b > 0`,
and `bisection` returns `null` after one row with the same-sign message: neither convergence nor
exhaustion. -/
theorem bisection_zero_at_a_loses_bracket :
    (0 : ℚ) < 1/100 ∧ (fun x : ℚ => x) 0 * (fun x : ℚ => x) 1 ≤ 0 ∧
    (∃ s ∈ (bisection (fun x : ℚ => x) 0 1 (1/100) 20).states,
      ¬ (fun x : ℚ => x) s.a * (fun x : ℚ => x) s.b ≤ 0) ∧
    (bisection (fun x : ℚ => x) 0 1 (1/100) 20).errors =
      ["Bisection method failed: endpoints have the same sign or no convergence."] ∧
    (bisection (fun x : ℚ => x) 0 1 (1/100) 20).result = JsVal.null ∧
    (bisection (fun x : ℚ => x) 0 1 (1/100) 20).rows.length = 1 := by
  refine ⟨by norm_num, by norm_num, ?_, ?_, ?_, ?_⟩
  · refine ⟨{ a := 1/2, b := 1, root := JsVal.num (1/2) }, ?_, by norm_num⟩
    unfold bisection
    rw [whileLoop]; norm_num [bisectionBody, abs_lt]
  all_goals
    (unfold bisection
     iterate 2 (rw [whileLoop]; norm_num [bisectionBody, abs_lt]))

/-- C14, as the claim states it, fails, in exact arithmetic and in the numbers of the script.
Exactly: on `func x = x` with `a = 0`, `b = 1` (a zero at the endpoint `a`), tolerance `1/100`,
the first iteration leaves the bracket `(1/2, 1)` and `bisection` fails with the same-sign
message after one row.  In doubles, also with `func a ≠ 0`: let `func` take the value `-2^-600`
below `1.5`, `2^-600` from there up to `2.5` and `3 * 2^600` from `2.5` on, with `a = 1`,
`b = 3` and tolerance `2^-700 > 0`, so that `func a * func b = -3 <= 0`.  The midpoint `2` does
not converge and `froot * fa = -2^-1200` underflows to `-0`, which is not `< 0`; `a` is
replaced, the bracket `(2, 3)` has `func a * func b > 0`, and the run fails with the same-sign
message after one row. -/
theorem bisection_bracket_precondition_lost :
    ((0 : ℚ) < 1/100 ∧ (fun x : ℚ => x) 0 * (fun x : ℚ => x) 1 ≤ 0 ∧
      (∃ s ∈ (bisection (fun x : ℚ => x) 0 1 (1/100) 20).states,
        ¬ (fun x : ℚ => x) s.a * (fun x : ℚ => x) s.b ≤ 0) ∧
      (bisection (fun x : ℚ => x) 0 1 (1/100) 20).errors =
        ["Bisection method failed: endpoints have the same sign or no convergence."] ∧
      (bisection (fun x : ℚ => x) 0 1 (1/100) 20).result = JsVal.null ∧
      (bisection (fun x : ℚ => x) 0 1 (1/100) 20).rows.length = 1) ∧
    ((0 : F64) < F64.fin false 4503599627370496 (-752) ∧
      (fun x : F64 => if x < 1.5 then F64.fin true 4503599627370496 (-652)
        else if x < 2.5 then F64.fin false 4503599627370496 (-652)
        else F64.fin false 6755399441055744 549) 1 *
        (fun x : F64 => if x < 1.5 then F64.fin true 4503599627370496 (-652)
        else if x < 2.5 then F64.fin false 4503599627370496 (-652)
        else F64.fin false 6755399441055744 549) 3 = -3 ∧
      (-3 : F64) ≤ 0 ∧
      F64.strictEq
        ((fun x : F64 => if x < 1.5 then F64.fin true 4503599627370496 (-652)
        else if x < 2.5 then F64.fin false 4503599627370496 (-652)
        else F64.fin false 6755399441055744 549) 1)
        0 = false ∧
      (∀ s ∈ (bisectionF
          (fun x : F64 => if x < 1.5 then F64.fin true 4503599627370496 (-652)
        else if x < 2.5 then F64.fin false 4503599627370496 (-652)
        else F64.fin false 6755399441055744 549)
          1 3 (F64.fin false 4503599627370496 (-752)) 20).states,
        s.a = 2 ∧ s.b = 3 ∧
        (fun x : F64 => if x < 1.5 then F64.fin true 4503599627370496 (-652)
        else if x < 2.5 then F64.fin false 4503599627370496 (-652)
        else F64.fin false 6755399441055744 549) s.a *
          (fun x : F64 => if x < 1.5 then F64.fin true 4503599627370496 (-652)
        else if x < 2.5 then F64.fin false 4503599627370496 (-652)
        else F64.fin false 6755399441055744 549) s.b > 0 ∧
        ¬ (fun x : F64 => if x < 1.5 then F64.fin true 4503599627370496 (-652)
        else if x < 2.5 then F64.fin false 4503599627370496 (-652)
        else F64.fin false 6755399441055744 549) s.a *
          (fun x : F64 => if x < 1.5 then F64.fin true 4503599627370496 (-652)
        else if x < 2.5 then F64.fin false 4503599627370496 (-652)
        else F64.fin false 6755399441055744 549) s.b ≤ 0) ∧
      (bisectionF
        (fun x : F64 => if x < 1.5 then F64.fin true 4503599627370496 (-652)
        else if x < 2.5 then F64.fin false 4503599627370496 (-652)
        else F64.fin false 6755399441055744 549)
        1 3 (F64.fin false 4503599627370496 (-752)) 20).states.length = 1 ∧
      (bisectionF
        (fun x : F64 => if x < 1.5 then F64.fin true 4503599627370496 (-652)
        else if x < 2.5 then F64.fin false 4503599627370496 (-652)
        else F64.fin false 6755399441055744 549)
        1 3 (F64.fin false 4503599627370496 (-752)) 20).errors =
        ["Bisection method failed: endpoints have the same sign or no convergence."] ∧
      (bisectionF
        (fun x : F64 => if x < 1.5 then F64.fin true 4503599627370496 (-652)
        else if x < 2.5 then F64.fin false 4503599627370496 (-652)
        else F64.fin false 6755399441055744 549)
        1 3 (F64.fin false 4503599627370496 (-752)) 20).result = JsVal.null ∧
      (bisectionF
        (fun x : F64 => if x < 1.5 then F64.fin true 4503599627370496 (-652)
        else if x < 2.5 then F64.fin false 4503599627370496 (-652)
        else F64.fin false 6755399441055744 549)
        1 3 (F64.fin false 4503599627370496 (-752)) 20).rows.length = 1) := by
  refine ⟨bisection_zero_at_a_loses_bracket, ?_⟩
  unfold bisectionF
  rw [whileLoop_eq_unrolled 20 _ _ 20 0 _ (le_refl _)]
  decide!

/-- The bracket precondition of bisection read in exact arithmetic: it is kept when
`func a ≠ 0`.  For every function over an ordered field (no rounding, underflow, overflow or
`NaN`), `tolerance > 0` and bracket with `func a * func b ≤ 0` and `func a ≠ 0` (a sign change,
or a zero at the endpoint `b`): the bracket shown in every row and every updated bracket satisfy
`func a * func b ≤ 0` and `func a ≠ 0`, the same-sign failure never happens (no message is
sent), and the call either returns a number or returns `null` after exactly `maxIterations`
rows.  In doubles a product can underflow to a zero; the statement for the doubles follows. -/
theorem bisection_bracket_precondition_kept (func : K → K) (a b tolerance : K)
    (maxIterations : Nat) (htol : 0 < tolerance) (hab : func a * func b ≤ 0)
    (ha : func a ≠ 0) :
    (∀ r ∈ (bisection func a b tolerance maxIterations).rows,
      ∃ a1 b1, r.a = some a1 ∧ r.b = some b1 ∧ r.fa = func a1 ∧ r.fb = some (func b1) ∧
        func a1 * func b1 ≤ 0 ∧ func a1 ≠ 0) ∧
    (∀ s ∈ (bisection func a b tolerance maxIterations).states,
      func s.a * func s.b ≤ 0 ∧ func s.a ≠ 0) ∧
    (bisection func a b tolerance maxIterations).errors = [] ∧
    ((∃ x, (bisection func a b tolerance maxIterations).result = JsVal.num x) ∨
      ((bisection func a b tolerance maxIterations).result = JsVal.null ∧
        (bisection func a b tolerance maxIterations).rows.length = maxIterations)) := by
  obtain ⟨h1, h2, h3, h4⟩ := bisection_under_invariant func a b tolerance maxIterations
    (fun s => func s.a * func s.b ≤ 0 ∧ func s.a ≠ 0)
    (fun s hi => not_lt.mpr hi.1)
    (fun s hi _ h3 => by
      have hi : func s.a * func s.b ≤ 0 ∧ func s.a ≠ 0 := hi
      show func s.a * func (s.a + (s.b - s.a) / 2) ≤ 0 ∧ func s.a ≠ 0
      refine ⟨?_, hi.2⟩
      rw [mul_comm]; exact le_of_lt h3)
    (fun s hi h2 h3 => by
      have hi : func s.a * func s.b ≤ 0 ∧ func s.a ≠ 0 := hi
      show func (s.a + (s.b - s.a) / 2) * func s.b ≤ 0 ∧ func (s.a + (s.b - s.a) / 2) ≠ 0
      have hne : func (s.a + (s.b - s.a) / 2) ≠ 0 := by
        intro h0
        rw [h0, abs_zero] at h2
        exact h2 htol
      refine ⟨?_, hne⟩
      have hpos : 0 < func (s.a + (s.b - s.a) / 2) * func s.a :=
        lt_of_le_of_ne (not_lt.mp h3) (Ne.symm (mul_ne_zero hne hi.2))
      rcases lt_or_eq_of_le hi.1 with hlt | heq
      · exact le_of_lt (mul_neg_of_same_sign hlt hpos)
      · have hb0 : func s.b = 0 := by
          rcases mul_eq_zero.mp heq with h | h
          · exact absurd h hi.2
          · exact h
        rw [hb0, mul_zero])
    ⟨hab, ha⟩
  refine ⟨?_, h2, h3, h4⟩
  intro r hr
  obtain ⟨s, hs, hra, hrb, hfa, hfb⟩ := h1 r hr
  exact ⟨s.a, s.b, hra, hrb, hfa, hfb, hs.1, hs.2⟩

/-- An instance of the precondition kept in exact arithmetic: `func x = x - 1` on `a = 0`,
`b = 1` over the rationals, a zero at the endpoint `b`, with tolerance `1/100` and 3
iterations.  The run sends no message and, the midpoints `1/2`,
`3/4`, `7/8` not converging, returns `null` after exactly 3 rows. -/
theorem bisection_bracket_precondition_kept_witness :
    ((0 : ℚ) < 1/100 ∧ (fun x : ℚ => x - 1) 0 * (fun x : ℚ => x - 1) 1 ≤ 0 ∧
      (fun x : ℚ => x - 1) 0 ≠ 0) ∧
    (bisection (fun x : ℚ => x - 1) 0 1 (1/100) 3).errors = [] ∧
    ((∃ x, (bisection (fun x : ℚ => x - 1) 0 1 (1/100) 3).result = JsVal.num x) ∨
      ((bisection (fun x : ℚ => x - 1) 0 1 (1/100) 3).result = JsVal.null ∧
        (bisection (fun x : ℚ => x - 1) 0 1 (1/100) 3).rows.length = 3)) :=
  ⟨⟨by norm_num, by norm_num, by norm_num⟩,
    (bisection_bracket_precondition_kept (fun x : ℚ => x - 1) 0 1 (1/100) 3
      (by norm_num) (by norm_num) (by norm_num)).2.2⟩

/-- C14, amended: bisection keeps its bracket precondition when `func a` is not a zero, in the
numbers of the script.  For every function, `tolerance > 0` and bracket with
`func a * func b <= 0` and `func a` not a zero (a sign change, or a zero at the endpoint `b`),
all computed in doubles: if in every non-converging iteration the computed products
`froot * fa`, `froot * fb` and `fa * fb` have the signs of the exact products (none is `NaN`,
and none is a zero unless a factor is), then the bracket shown in every row and every updated
bracket satisfy `func a * func b <= 0` with `func a` not a zero, the same-sign failure never
happens (no message is sent), and the call either returns a number or returns `null` after
exactly `maxIterations` rows. -/
theorem bisection_precondition_kept_with_exact_signs (func : F64 → F64) (a b tolerance : F64)
    (maxIterations : Nat) (htol : 0 < tolerance) (hab : func a * func b ≤ 0)
    (ha : ¬ F64.strictEq (func a) 0 = true)
    (hex : ∀ r ∈ (bisectionF func a b tolerance maxIterations).rows,
      ¬ F64.abs r.froot < tolerance → signsExact r) :
    (∀ r ∈ (bisectionF func a b tolerance maxIterations).rows,
      ∃ a1 b1, r.a = some a1 ∧ r.b = some b1 ∧ r.fa = func a1 ∧ r.fb = some (func b1) ∧
        func a1 * func b1 ≤ 0 ∧ ¬ F64.strictEq (func a1) 0 = true) ∧
    (∀ s ∈ (bisectionF func a b tolerance maxIterations).states,
      func s.a * func s.b ≤ 0 ∧ ¬ F64.strictEq (func s.a) 0 = true) ∧
    (bisectionF func a b tolerance maxIterations).errors = [] ∧
    ((∃ x, (bisectionF func a b tolerance maxIterations).result = JsVal.num x) ∨
      ((bisectionF func a b tolerance maxIterations).result = JsVal.null ∧
        (bisectionF func a b tolerance maxIterations).rows.length = maxIterations)) := by
  obtain ⟨h1, h2, h3, h4⟩ := bisectionF_under_invariant func a b tolerance maxIterations
    (fun s => func s.a * func s.b ≤ 0 ∧ ¬ F64.strictEq (func s.a) 0 = true) signsExact
    (fun s hi hpos => by
      have hi : func s.a * func s.b ≤ 0 ∧ ¬ F64.strictEq (func s.a) 0 = true := hi
      have hp := (F64.zero_lt_iff _).mp hpos
      rcases (F64.le_zero_iff _).mp hi.1 with h | h
      · rw [h] at hp; exact absurd hp (by decide)
      · rw [h] at hp; exact absurd hp (by decide))
    (fun s r hi rfa rfb rfroot hG hc => by
      have hi : func s.a * func s.b ≤ 0 ∧ ¬ F64.strictEq (func s.a) 0 = true := hi
      have hu := precondition_update r (func s.b) tolerance rfb hG htol
        (by rw [rfa]; exact hi.1) (by rw [rfa]; exact hi.2) (by rw [rfroot]; exact hc)
      rw [rfa, rfroot] at hu
      exact ⟨fun h => ⟨hu.1 h, hi.2⟩, fun h => hu.2 h⟩)
    ⟨hab, ha⟩ hex
  refine ⟨?_, h2, h3, h4⟩
  intro r hr
  obtain ⟨s, hs, hra, hrb, hfa, hfb⟩ := h1 r hr
  exact ⟨s.a, s.b, hra, hrb, hfa, hfb, hs.1, hs.2⟩

/-- Witness of C14 (amended): `func x = x - 1` on `a = 0`, `b = 1` in doubles, a zero at the
endpoint `b`, with tolerance `0.01` and 3 iterations.  The products of every row have exact
signs (those with `func b = 0` are zeros), the run sends no message and, the midpoints `0.5`,
`0.75`, `0.875` not converging, returns `null` after exactly 3 rows. -/
theorem bisection_precondition_kept_with_exact_signs_witness :
    ((0 : F64) < 0.01 ∧ (fun x : F64 => x - 1) 0 * (fun x : F64 => x - 1) 1 ≤ 0 ∧
      ¬ F64.strictEq ((fun x : F64 => x - 1) 0) 0 = true ∧
      ∀ r ∈ (bisectionF (fun x => x - 1) 0 1 0.01 3).rows,
        ¬ F64.abs r.froot < 0.01 → signsExact r) ∧
    (bisectionF (fun x => x - 1) 0 1 0.01 3).errors = [] ∧
    ((∃ x, (bisectionF (fun x => x - 1) 0 1 0.01 3).result = JsVal.num x) ∨
      ((bisectionF (fun x => x - 1) 0 1 0.01 3).result = JsVal.null ∧
        (bisectionF (fun x => x - 1) 0 1 0.01 3).rows.length = 3)) := by
  have h1 : (0 : F64) < 0.01 := by decide!
  have h2 : (fun x : F64 => x - 1) 0 * (fun x : F64 => x - 1) 1 ≤ 0 := by decide!
  have h3 : ¬ F64.strictEq ((fun x : F64 => x - 1) 0) 0 = true := by decide!
  have h4 : ∀ r ∈ (bisectionF (fun x => x - 1) 0 1 0.01 3).rows,
      ¬ F64.abs r.froot < 0.01 → signsExact r := by
    unfold bisectionF
    rw [whileLoop_eq_unrolled 3 _ _ 3 0 _ (le_refl _)]
    decide!
  exact ⟨⟨h1, h2, h3, h4⟩,
    (bisection_precondition_kept_with_exact_signs (fun x => x - 1) 0 1 0.01 3
      h1 h2 h3 h4).2.2⟩

/-- C15, secant needs no sign change.  On `func x = x`, `a = 1`, `b = 2`, tolerance `1e-6` and
20 iterations the endpoints have the same sign (`func a * func b > 0`); `secant` returns the
number `0` after exactly one row and with no message, while `bisection` on the same inputs
returns `null` with zero rows, after the same-sign message. -/
theorem secant_converges_without_sign_change :
    (fun x : ℚ => x) 1 * (fun x : ℚ => x) 2 > 0 ∧
    (secant (fun x : ℚ => x) 1 2 1e-6 20).result = JsVal.num 0 ∧
    (secant (fun x : ℚ => x) 1 2 1e-6 20).rows.length = 1 ∧
    (secant (fun x : ℚ => x) 1 2 1e-6 20).errors = [] ∧
    (bisection (fun x : ℚ => x) 1 2 1e-6 20).result = JsVal.null ∧
    (bisection (fun x : ℚ => x) 1 2 1e-6 20).rows = [] ∧
    (bisection (fun x : ℚ => x) 1 2 1e-6 20).errors =
      ["Bisection method failed: endpoints have the same sign or no convergence."] := by
  refine ⟨by norm_num, ?_, ?_, ?_, ?_, ?_, ?_⟩
  all_goals first
    | (unfold secant; rw [whileLoop]; norm_num [secantBody])
    | (unfold bisection; rw [whileLoop]; norm_num [bisectionBody])

/-- C16, as the claim states it, fails in the numbers of the script.  Let `func` take the value
`-2^-600` below `1.5`, `2^-600` from there up to `2.5` and `3 * 2^600` from `2.5` on, with
`a = 1`, `b = 3`, tolerance `2^-700 > 0` and 20 iterations.  Then `func a * func b = -3 < 0`.
The midpoint `2` does not converge, and `froot * fa = -2^-1200` underflows to `-0`, which is
not `< 0`, so `a` is replaced: the bracket `(2, 3)` has two positive function values and the run
returns `null` with the same-sign message after one row. -/
theorem bisection_sign_change_lost_on_underflow :
    (0 : F64) < F64.fin false 4503599627370496 (-752) ∧
    (fun x : F64 => if x < 1.5 then F64.fin true 4503599627370496 (-652)
      else if x < 2.5 then F64.fin false 4503599627370496 (-652)
      else F64.fin false 6755399441055744 549) 1 *
    (fun x : F64 => if x < 1.5 then F64.fin true 4503599627370496 (-652)
      else if x < 2.5 then F64.fin false 4503599627370496 (-652)
      else F64.fin false 6755399441055744 549) 3 = -3 ∧
    (-3 : F64) < 0 ∧
    (bisectionF (fun x : F64 => if x < 1.5 then F64.fin true 4503599627370496 (-652)
      else if x < 2.5 then F64.fin false 4503599627370496 (-652)
      else F64.fin false 6755399441055744 549) 1 3
      (F64.fin false 4503599627370496 (-752)) 20).errors =
      ["Bisection method failed: endpoints have the same sign or no convergence."] ∧
    (bisectionF (fun x : F64 => if x < 1.5 then F64.fin true 4503599627370496 (-652)
      else if x < 2.5 then F64.fin false 4503599627370496 (-652)
      else F64.fin false 6755399441055744 549) 1 3
      (F64.fin false 4503599627370496 (-752)) 20).rows.length = 1 ∧
    (bisectionF (fun x : F64 => if x < 1.5 then F64.fin true 4503599627370496 (-652)
      else if x < 2.5 then F64.fin false 4503599627370496 (-652)
      else F64.fin false 6755399441055744 549) 1 3
      (F64.fin false 4503599627370496 (-752)) 20).result = JsVal.null ∧
    (∀ s ∈ (bisectionF (fun x : F64 => if x < 1.5 then F64.fin true 4503599627370496 (-652)
      else if x < 2.5 then F64.fin false 4503599627370496 (-652)
      else F64.fin false 6755399441055744 549) 1 3
      (F64.fin false 4503599627370496 (-752)) 20).states, s.a = 2 ∧ s.b = 3) := by
  unfold bisectionF
  rw [whileLoop_eq_unrolled 20 _ _ 20 0 _ (le_refl _)]
  decide!

/-- Bisection on a strict sign change read in exact arithmetic.  For every function
over an ordered field (no rounding, underflow, overflow or `NaN`), `tolerance > 0`,
`maxIterations` and `a`, `b` with `func a * func b < 0`: the bracket shown in every row (the
bracket of every iteration) satisfies `func a * func b < 0`, and so does every updated bracket;
the same-sign failure never happens (no message is sent), and the call either returns a number
or returns `null` after exactly `maxIterations` rows.  In doubles a product can underflow to a
zero; the statement for the doubles follows. -/
theorem bisection_strict_sign_change_kept (func : K → K) (a b tolerance : K)
    (maxIterations : Nat) (htol : 0 < tolerance) (hab : func a * func b < 0) :
    (∀ r ∈ (bisection func a b tolerance maxIterations).rows,
      ∃ a1 b1, r.a = some a1 ∧ r.b = some b1 ∧ r.fa = func a1 ∧ r.fb = some (func b1) ∧
        func a1 * func b1 < 0) ∧
    (∀ s ∈ (bisection func a b tolerance maxIterations).states, func s.a * func s.b < 0) ∧
    (bisection func a b tolerance maxIterations).errors = [] ∧
    ((∃ x, (bisection func a b tolerance maxIterations).result = JsVal.num x) ∨
      ((bisection func a b tolerance maxIterations).result = JsVal.null ∧
        (bisection func a b tolerance maxIterations).rows.length = maxIterations)) := by
  obtain ⟨h1, h2, h3, h4⟩ := bisection_under_invariant func a b tolerance maxIterations
    (fun s => func s.a * func s.b < 0)
    (fun s hi => not_lt.mpr (le_of_lt hi))
    (fun s hi _ h3 => by
      show func s.a * func (s.a + (s.b - s.a) / 2) < 0
      rw [mul_comm]; exact h3)
    (fun s hi h2 h3 => by
      show func (s.a + (s.b - s.a) / 2) * func s.b < 0
      have hi : func s.a * func s.b < 0 := hi
      have hne : func (s.a + (s.b - s.a) / 2) ≠ 0 := by
        intro h0
        rw [h0, abs_zero] at h2
        exact h2 htol
      have hane : func s.a ≠ 0 := by
        intro h0
        rw [h0, zero_mul] at hi
        exact lt_irrefl _ hi
      have hpos : 0 < func (s.a + (s.b - s.a) / 2) * func s.a :=
        lt_of_le_of_ne (not_lt.mp h3) (Ne.symm (mul_ne_zero hne hane))
      exact mul_neg_of_same_sign hi hpos)
    hab
  refine ⟨?_, h2, h3, h4⟩
  intro r hr
  obtain ⟨s, hs, ha, hb, hfa, hfb⟩ := h1 r hr
  exact ⟨s.a, s.b, ha, hb, hfa, hfb, hs⟩

/-- An instance of the sign change kept in exact arithmetic: `func x = x ^ 2 - 2` on `a = 1`,
`b = 2` over the rationals, with tolerance `1/1000` and 2 iterations; the hypotheses hold and
the run sends no message. -/
theorem bisection_strict_sign_change_kept_witness :
    ((0 : ℚ) < 1/1000 ∧ (fun x : ℚ => x ^ 2 - 2) 1 * (fun x : ℚ => x ^ 2 - 2) 2 < 0) ∧
    (bisection (fun x : ℚ => x ^ 2 - 2) 1 2 (1/1000) 2).errors = [] ∧
    ((∃ x, (bisection (fun x : ℚ => x ^ 2 - 2) 1 2 (1/1000) 2).result = JsVal.num x) ∨
      ((bisection (fun x : ℚ => x ^ 2 - 2) 1 2 (1/1000) 2).result = JsVal.null ∧
        (bisection (fun x : ℚ => x ^ 2 - 2) 1 2 (1/1000) 2).rows.length = 2)) :=
  ⟨⟨by norm_num, by norm_num⟩,
    (bisection_strict_sign_change_kept (fun x : ℚ => x ^ 2 - 2) 1 2 (1/1000) 2
      (by norm_num) (by norm_num)).2.2⟩

/-- C16, amended: bisection on a strict sign change, in the numbers of the script.  For every
function, `tolerance > 0`, `maxIterations` and `a`, `b` with `func a * func b < 0`, all computed
in doubles: if in every non-converging iteration the computed products `froot * fa`,
`froot * fb` and `fa * fb` have the signs of the exact products (none is `NaN`, and none is a
zero unless a factor is), then the bracket shown in every row (the bracket of every iteration)
satisfies `func a * func b < 0`, and so does every updated bracket; the same-sign failure never
happens (no message is sent), and the call either returns a number or returns `null` after
exactly `maxIterations` rows. -/
theorem bisection_sign_change_kept_with_exact_signs (func : F64 → F64) (a b tolerance : F64)
    (maxIterations : Nat) (htol : 0 < tolerance) (hab : func a * func b < 0)
    (hex : ∀ r ∈ (bisectionF func a b tolerance maxIterations).rows,
      ¬ F64.abs r.froot < tolerance → signsExact r) :
    (∀ r ∈ (bisectionF func a b tolerance maxIterations).rows,
      ∃ a1 b1, r.a = some a1 ∧ r.b = some b1 ∧ r.fa = func a1 ∧ r.fb = some (func b1) ∧
        func a1 * func b1 < 0) ∧
    (∀ s ∈ (bisectionF func a b tolerance maxIterations).states, func s.a * func s.b < 0) ∧
    (bisectionF func a b tolerance maxIterations).errors = [] ∧
    ((∃ x, (bisectionF func a b tolerance maxIterations).result = JsVal.num x) ∨
      ((bisectionF func a b tolerance maxIterations).result = JsVal.null ∧
        (bisectionF func a b tolerance maxIterations).rows.length = maxIterations)) := by
  obtain ⟨h1, h2, h3, h4⟩ := bisectionF_under_invariant func a b tolerance maxIterations
    (fun s => func s.a * func s.b < 0) signsExact
    (fun s hi => F64.lt_asymm _ _ hi)
    (fun s r hi rfa rfb rfroot hG hc => by
      have hi : func s.a * func s.b < 0 := hi
      have hu := sign_change_update r (func s.b) tolerance rfb hG htol
        (by rw [rfa]; exact hi) (by rw [rfroot]; exact hc)
      rw [rfa, rfroot] at hu
      exact hu)
    hab hex
  refine ⟨?_, h2, h3, h4⟩
  intro r hr
  obtain ⟨s, hs, ha, hb, hfa, hfb⟩ := h1 r hr
  exact ⟨s.a, s.b, ha, hb, hfa, hfb, hs⟩

/-- Witness of C16 (amended): `func x = x * x - 2` on `a = 1`, `b = 2` in doubles, with
tolerance `0.001` and 2 iterations; the hypotheses hold (the products of the two rows are
`-0.25`, `0.5`, `-2` and `0.4375`, `-0.109375`, `-0.25`) and the run sends no message. -/
theorem bisection_sign_change_kept_with_exact_signs_witness :
    ((0 : F64) < 0.001 ∧ (fun x : F64 => x * x - 2) 1 * (fun x : F64 => x * x - 2) 2 < 0 ∧
      ∀ r ∈ (bisectionF (fun x => x * x - 2) 1 2 0.001 2).rows,
        ¬ F64.abs r.froot < 0.001 → signsExact r) ∧
    (bisectionF (fun x => x * x - 2) 1 2 0.001 2).errors = [] ∧
    ((∃ x, (bisectionF (fun x => x * x - 2) 1 2 0.001 2).result = JsVal.num x) ∨
      ((bisectionF (fun x => x * x - 2) 1 2 0.001 2).result = JsVal.null ∧
        (bisectionF (fun x => x * x - 2) 1 2 0.001 2).rows.length = 2)) := by
  have h1 : (0 : F64) < 0.001 := by decide!
  have h2 : (fun x : F64 => x * x - 2) 1 * (fun x : F64 => x * x - 2) 2 < 0 := by decide!
  have h3 : ∀ r ∈ (bisectionF (fun x => x * x - 2) 1 2 0.001 2).rows,
      ¬ F64.abs r.froot < 0.001 → signsExact r := by
    unfold bisectionF
    rw [whileLoop_eq_unrolled 2 _ _ 2 0 _ (le_refl _)]
    decide!
  exact ⟨⟨h1, h2, h3⟩,
    (bisection_sign_change_kept_with_exact_signs (fun x => x * x - 2) 1 2 0.001 2
      h1 h2 h3).2.2⟩

/-- C17, as the claim states it, fails in the numbers of the script: for `func x = x`,
`a = -1e200 < b = 1e200` with `func a * func b < 0` and tolerance `0.5 > 0`, the estimate of
every one of the 20 rows of `falsePosition` is `NaN`, which is not between the endpoints, and
every updated bracket has `a = NaN`, so that `a < b` is false. -/
theorem falsePosition_ordered_bracket_lost_on_overflow :
    (0 : F64) < 0.5 ∧ (-1e200 : F64) < 1e200 ∧
    (fun x : F64 => x) (-1e200) * (fun x : F64 => x) 1e200 < 0 ∧
    (falsePositionF (fun x => x) (-1e200) 1e200 0.5 20).rows.length = 20 ∧
    (∀ r ∈ (falsePositionF (fun x => x) (-1e200) 1e200 0.5 20).rows,
      r.root = F64.nan ∧ ¬ ((-1e200 : F64) < r.root ∧ r.root < (1e200 : F64))) ∧
    (falsePositionF (fun x => x) (-1e200) 1e200 0.5 20).states.length = 20 ∧
    (∀ s ∈ (falsePositionF (fun x => x) (-1e200) 1e200 0.5 20).states,
      s.a = F64.nan ∧ ¬ (s.a < s.b)) := by
  unfold falsePositionF
  rw [whileLoop_eq_unrolled 20 _ _ 20 0 _ (le_refl _)]
  decide!

/-- False position on an ordered sign-changing bracket read in exact arithmetic.  For
every function over an ordered field (no rounding, underflow, overflow or `NaN`),
`tolerance > 0`, `maxIterations` and `a < b` with `func a * func b < 0`: the bracket shown in
every row satisfies `a < b` and `func a * func b < 0` and the estimate of that row lies strictly
between its endpoints; every updated bracket satisfies the same two conditions; neither the
equal-function-value check nor the outside-interval guard fires (no message is sent); and the
call returns a number or returns `null` after exactly `maxIterations` rows. -/
theorem falsePosition_ordered_bracket_kept (func : K → K) (a b tolerance : K)
    (maxIterations : Nat) (htol : 0 < tolerance) (hab : a < b) (hf : func a * func b < 0) :
    (∀ r ∈ (falsePosition func a b tolerance maxIterations).rows,
      ∃ a1 b1, r.a = some a1 ∧ r.b = some b1 ∧ r.fa = func a1 ∧ r.fb = some (func b1) ∧
        a1 < b1 ∧ func a1 * func b1 < 0 ∧ a1 < r.root ∧ r.root < b1) ∧
    (∀ s ∈ (falsePosition func a b tolerance maxIterations).states,
      s.a < s.b ∧ func s.a * func s.b < 0) ∧
    (falsePosition func a b tolerance maxIterations).errors = [] ∧
    ((∃ x, (falsePosition func a b tolerance maxIterations).result = JsVal.num x) ∨
      ((falsePosition func a b tolerance maxIterations).result = JsVal.null ∧
        (falsePosition func a b tolerance maxIterations).rows.length = maxIterations)) := by
  have hinv : ∀ (i : Nat) (s s1 : Vars K), (s.a < s.b ∧ func s.a * func s.b < 0) →
      (falsePositionBody func tolerance i s).flow = Flow.next s1 →
      (s1.a < s1.b ∧ func s1.a * func s1.b < 0) :=
    fun i s s1 hi hfl => (falsePositionBody_ordered func tolerance i s htol hi.1 hi.2).2.2 s1 hfl
  have h0 : ({ a := a, b := b, root := JsVal.undefined } : Vars K).a <
      ({ a := a, b := b, root := JsVal.undefined } : Vars K).b ∧
      func ({ a := a, b := b, root := JsVal.undefined } : Vars K).a *
        func ({ a := a, b := b, root := JsVal.undefined } : Vars K).b < 0 := ⟨hab, hf⟩
  have hstates := whileLoop_invariant_states maxIterations Vars.root
    (falsePositionBody func tolerance) (fun _ s => s.a < s.b ∧ func s.a * func s.b < 0)
    hinv 0 _ h0
  have herrors := whileLoop_invariant_errors maxIterations Vars.root
    (falsePositionBody func tolerance) (fun _ s => s.a < s.b ∧ func s.a * func s.b < 0)
    hinv (fun i s hi => (falsePositionBody_ordered func tolerance i s htol hi.1 hi.2).1)
    0 _ h0
  have hrows := whileLoop_invariant_rows maxIterations Vars.root
    (falsePositionBody func tolerance) (fun _ s => s.a < s.b ∧ func s.a * func s.b < 0)
    hinv
    (fun r => ∃ a1 b1, r.a = some a1 ∧ r.b = some b1 ∧ r.fa = func a1 ∧
      r.fb = some (func b1) ∧ a1 < b1 ∧ func a1 * func b1 < 0 ∧ a1 < r.root ∧ r.root < b1)
    (fun i s r hi hr => by
      obtain ⟨r0, hr0, h1, h2, h3, h4, h5, h6⟩ :=
        (falsePositionBody_ordered func tolerance i s htol hi.1 hi.2).2.1
      rw [hr0] at hr
      injection hr with hr
      rw [← hr]
      exact ⟨s.a, s.b, h1, h2, h3, h4, hi.1, hi.2, h5, h6⟩)
    0 _ h0
  refine ⟨hrows, ?_, herrors, ?_⟩
  · intro s hs
    obtain ⟨_, h⟩ := hstates s hs
    exact h
  · rcases whileLoop_result (falsePositionBody_spec func tolerance) maxIterations 0
        { a := a, b := b, root := JsVal.undefined } with h | h
    · exact Or.inr ⟨h, (whileLoop_exhausted (falsePositionBody_spec func tolerance)
        maxIterations 0 _ h herrors).1⟩
    · exact Or.inl h

/-- An instance of the ordered bracket kept in exact arithmetic: `func x = x ^ 2 - 2` on
`a = 1 < b = 2` over the rationals, with tolerance `1/1000` and 2 iterations; the hypotheses
hold and the run sends no message. -/
theorem falsePosition_ordered_bracket_kept_witness :
    ((0 : ℚ) < 1/1000 ∧ (1 : ℚ) < 2 ∧
      (fun x : ℚ => x ^ 2 - 2) 1 * (fun x : ℚ => x ^ 2 - 2) 2 < 0) ∧
    (falsePosition (fun x : ℚ => x ^ 2 - 2) 1 2 (1/1000) 2).errors = [] ∧
    ((∃ x, (falsePosition (fun x : ℚ => x ^ 2 - 2) 1 2 (1/1000) 2).result = JsVal.num x) ∨
      ((falsePosition (fun x : ℚ => x ^ 2 - 2) 1 2 (1/1000) 2).result = JsVal.null ∧
        (falsePosition (fun x : ℚ => x ^ 2 - 2) 1 2 (1/1000) 2).rows.length = 2)) :=
  ⟨⟨by norm_num, by norm_num, by norm_num⟩,
    (falsePosition_ordered_bracket_kept (fun x : ℚ => x ^ 2 - 2) 1 2 (1/1000) 2
      (by norm_num) (by norm_num) (by norm_num)).2.2⟩

/-- C17, amended: false position on an ordered sign-changing bracket, in the numbers of the
script.  For every function, `tolerance > 0`, `maxIterations` and `a < b` with
`func a * func b < 0`, all computed in doubles: if in every non-converging iteration the
computed estimate lies strictly between the endpoints of the iteration and the computed
products `froot * fa`, `froot * fb` and `fa * fb` have the signs of the exact products (none
is `NaN`, and none is a zero unless a factor is), then the bracket shown in every row satisfies
`a < b` and `func a * func b < 0`, and so does every updated bracket; neither the
equal-function-value check nor the outside-interval guard fires (no message is sent); and the
call returns a number or returns `null` after exactly `maxIterations` rows. -/
theorem falsePosition_ordered_bracket_kept_with_estimates_inside (func : F64 → F64)
    (a b tolerance : F64) (maxIterations : Nat) (htol : 0 < tolerance) (hab : a < b)
    (hf : func a * func b < 0)
    (hex : ∀ r ∈ (falsePositionF func a b tolerance maxIterations).rows,
      ¬ F64.abs r.froot < tolerance → signsExact r ∧ estimateInside r) :
    (∀ r ∈ (falsePositionF func a b tolerance maxIterations).rows,
      ∃ a1 b1, r.a = some a1 ∧ r.b = some b1 ∧ r.fa = func a1 ∧ r.fb = some (func b1) ∧
        a1 < b1 ∧ func a1 * func b1 < 0) ∧
    (∀ s ∈ (falsePositionF func a b tolerance maxIterations).states,
      s.a < s.b ∧ func s.a * func s.b < 0) ∧
    (falsePositionF func a b tolerance maxIterations).errors = [] ∧
    ((∃ x, (falsePositionF func a b tolerance maxIterations).result = JsVal.num x) ∨
      ((falsePositionF func a b tolerance maxIterations).result = JsVal.null ∧
        (falsePositionF func a b tolerance maxIterations).rows.length = maxIterations)) := by
  obtain ⟨h1, h2, h3, h4⟩ := falsePositionF_under_invariant func a b tolerance maxIterations
    (fun s => s.a < s.b ∧ func s.a * func s.b < 0)
    (fun r => signsExact r ∧ estimateInside r)
    (fun s hi heq => by
      have hi : s.a < s.b ∧ func s.a * func s.b < 0 := hi
      obtain ⟨sa, sb, e1, e2, e3⟩ :=
        F64.sign_mul _ _ (-1) ((F64.lt_zero_iff _).mp hi.2) (by decide)
      have hs := F64.sign_eq_of_strictEq _ _ heq
      rw [e1, e2] at hs
      injection hs with hs
      subst hs
      rcases F64.sign_range _ _ e1 with h | h | h <;> rw [h] at e3 <;> exact absurd e3 (by decide))
    (fun s r root hi hroot ra rb rroot rfa rfb rfroot hG hc => by
      have hi : s.a < s.b ∧ func s.a * func s.b < 0 := hi
      obtain ⟨hsg, hin⟩ := hG
      have hin := hin s.a ra s.b rb
      rw [rroot] at hin
      have hu := sign_change_update r (func s.b) tolerance rfb hsg htol
        (by rw [rfa]; exact hi.2) (by rw [rfroot]; exact hc)
      rw [rfa, rfroot] at hu
      refine ⟨fun h3 => ⟨?_, hin.1, hu.1 h3⟩, fun h3 => ⟨?_, hin.2, hu.2 h3⟩⟩
      · rintro (h | h)
        · exact F64.lt_asymm _ _ hin.1 h
        · exact F64.lt_irrefl _ h
      · rintro (h | h)
        · exact F64.lt_irrefl _ h
        · exact F64.lt_asymm _ _ hin.2 h)
    ⟨hab, hf⟩ hex
  refine ⟨?_, h2, h3, h4⟩
  intro r hr
  obtain ⟨s, hs, ha, hb, hfa, hfb⟩ := h1 r hr
  exact ⟨s.a, s.b, ha, hb, hfa, hfb, hs.1, hs.2⟩

/-- Witness of C17 (amended): `func x = x * x - 2` on `a = 1 < b = 2` in doubles, with
tolerance `0.001` and 2 iterations.  The estimates `1.3333333333333333` and `1.4` lie strictly
inside their brackets `(1, 2)` and `(1.3333333333333333, 2)`, the products have exact signs,
and the run sends no message. -/
theorem falsePosition_ordered_bracket_kept_with_estimates_inside_witness :
    ((0 : F64) < 0.001 ∧ (1 : F64) < 2 ∧
      (fun x : F64 => x * x - 2) 1 * (fun x : F64 => x * x - 2) 2 < 0 ∧
      ∀ r ∈ (falsePositionF (fun x => x * x - 2) 1 2 0.001 2).rows,
        ¬ F64.abs r.froot < 0.001 → signsExact r ∧ estimateInside r) ∧
    (falsePositionF (fun x => x * x - 2) 1 2 0.001 2).errors = [] ∧
    ((∃ x, (falsePositionF (fun x => x * x - 2) 1 2 0.001 2).result = JsVal.num x) ∨
      ((falsePositionF (fun x => x * x - 2) 1 2 0.001 2).result = JsVal.null ∧
        (falsePositionF (fun x => x * x - 2) 1 2 0.001 2).rows.length = 2)) := by
  have h1 : (0 : F64) < 0.001 := by decide!
  have h2 : (1 : F64) < 2 := by decide!
  have h3 : (fun x : F64 => x * x - 2) 1 * (fun x : F64 => x * x - 2) 2 < 0 := by decide!
  have h4 : ∀ r ∈ (falsePositionF (fun x => x * x - 2) 1 2 0.001 2).rows,
      ¬ F64.abs r.froot < 0.001 → signsExact r ∧ estimateInside r := by
    unfold falsePositionF
    rw [whileLoop_eq_unrolled 2 _ _ 2 0 _ (le_refl _)]
    decide!
  exact ⟨⟨h1, h2, h3, h4⟩,
    (falsePosition_ordered_bracket_kept_with_estimates_inside (fun x => x * x - 2) 1 2 0.001 2
      h1 h2 h3 h4).2.2⟩

/-- C18, as the claim states it, fails in the numbers of the script: for `func x = x` on the
reversed bracket `a = 1e200 > b = -1e200` with `func a * func b < 0` and tolerance `0.5`, the
first estimate is `NaN` and does not satisfy the tolerance, `a` becomes `NaN`, the guard
`root < a || root > b` is false, and `falsePosition` goes on: it returns `null` after 20 rows
and without a message, not after exactly one row. -/
theorem falsePosition_reversed_bracket_runs_on_with_nan :
    (-1e200 : F64) < 1e200 ∧
    (fun x : F64 => x) 1e200 * (fun x : F64 => x) (-1e200) < 0 ∧
    ((falsePositionF (fun x => x) 1e200 (-1e200) 0.5 20).rows.head?.map
      IterationRecord.froot = some F64.nan) ∧
    ¬ (F64.abs F64.nan < (0.5 : F64)) ∧
    (falsePositionF (fun x => x) 1e200 (-1e200) 0.5 20).rows.length = 20 ∧
    (falsePositionF (fun x => x) 1e200 (-1e200) 0.5 20).errors = [] ∧
    (falsePositionF (fun x => x) 1e200 (-1e200) 0.5 20).result = JsVal.null := by
  unfold falsePositionF
  rw [whileLoop_eq_unrolled 20 _ _ 20 0 _ (le_refl _)]
  decide!

/-- The outside-interval guard of `falsePosition` read in exact arithmetic.  In any pass over an
ordered field that inserts a row and does not converge, with `root` the estimate and `(a1, b1)`
the endpoints after the bracket update, the guard `root < a1 || root > b1` holds if and only if
`a1 > b1`; when it holds the pass returns `null` after the outside-interval message, otherwise
it reaches `iteration++` with the bracket `(a1, b1)`.  In exact arithmetic the first estimate of
a reversed sign-changing bracket (`a > b`, `func a * func b < 0`) lies strictly between `b` and
`a`; so when it does not satisfy the tolerance, the call returns `null` after exactly one row,
with the outside-interval message: both when the first estimate is given by its formula (and
`maxIterations ≥ 1`) and when it is read from the first row.  In doubles the estimate can be
`NaN` or an endpoint; the statement for the doubles follows. -/
theorem falsePosition_outside_guard_iff_inverted (func : K → K) (a b tolerance : K)
    (maxIterations : Nat) :
    (∀ (i : Nat) (s : Vars K) (root a1 b1 : K),
      root = (s.a * func s.b - s.b * func s.a) / (func s.b - func s.a) →
      a1 = (if func root * func s.a < 0 then s.a else root) →
      b1 = (if func root * func s.a < 0 then root else s.b) →
      func s.a ≠ func s.b → ¬ |func root| < tolerance →
      ((root < a1 ∨ root > b1) ↔ a1 > b1) ∧
      (a1 > b1 →
        (falsePositionBody func tolerance i s).flow = Flow.ret JsVal.null ∧
        (falsePositionBody func tolerance i s).error = some
          "False Position method failed: root estimate outside the interval [a, b].") ∧
      (¬ a1 > b1 →
        (falsePositionBody func tolerance i s).flow =
          Flow.next { a := a1, b := b1, root := JsVal.num root } ∧
        (falsePositionBody func tolerance i s).error = none)) ∧
    (a > b → func a * func b < 0 → 1 ≤ maxIterations →
      ¬ |func ((a * func b - b * func a) / (func b - func a))| < tolerance →
      (falsePosition func a b tolerance maxIterations).result = JsVal.null ∧
      (falsePosition func a b tolerance maxIterations).rows.length = 1 ∧
      (falsePosition func a b tolerance maxIterations).errors =
        ["False Position method failed: root estimate outside the interval [a, b]."]) ∧
    (a > b → func a * func b < 0 →
      ∀ r, (falsePosition func a b tolerance maxIterations).rows.head? = some r →
      ¬ |r.froot| < tolerance →
      (falsePosition func a b tolerance maxIterations).result = JsVal.null ∧
      (falsePosition func a b tolerance maxIterations).rows = [r] ∧
      (falsePosition func a b tolerance maxIterations).errors =
        ["False Position method failed: root estimate outside the interval [a, b]."]) := by
  have hiff : ∀ (s : Vars K) (root a1 b1 : K),
      a1 = (if func root * func s.a < 0 then s.a else root) →
      b1 = (if func root * func s.a < 0 then root else s.b) →
      ((root < a1 ∨ root > b1) ↔ a1 > b1) := by
    intro s root a1 b1 ha1 hb1
    by_cases h3 : func root * func s.a < 0
    · rw [if_pos h3] at ha1 hb1
      subst ha1 hb1
      constructor
      · rintro (h | h)
        · exact h
        · exact absurd h (lt_irrefl _)
      · intro h; exact Or.inl h
    · rw [if_neg h3] at ha1 hb1
      subst ha1 hb1
      constructor
      · rintro (h | h)
        · exact absurd h (lt_irrefl _)
        · exact h
      · intro h; exact Or.inr h
  have hbody : ∀ (i : Nat) (s : Vars K) (root a1 b1 : K),
      root = (s.a * func s.b - s.b * func s.a) / (func s.b - func s.a) →
      a1 = (if func root * func s.a < 0 then s.a else root) →
      b1 = (if func root * func s.a < 0 then root else s.b) →
      func s.a ≠ func s.b → ¬ |func root| < tolerance →
      ((root < a1 ∨ root > b1) ↔ a1 > b1) ∧
      (a1 > b1 →
        (falsePositionBody func tolerance i s).flow = Flow.ret JsVal.null ∧
        (falsePositionBody func tolerance i s).error = some
          "False Position method failed: root estimate outside the interval [a, b].") ∧
      (¬ a1 > b1 →
        (falsePositionBody func tolerance i s).flow =
          Flow.next { a := a1, b := b1, root := JsVal.num root } ∧
        (falsePositionBody func tolerance i s).error = none) := by
    intro i s root a1 b1 hroot ha1 hb1 hne h2
    have hg := hiff s root a1 b1 ha1 hb1
    obtain ⟨_, _, c3, c4⟩ := falsePositionBody_cases func tolerance i s root a1 b1 _
      hroot rfl ha1 hb1
    refine ⟨hg, ?_, ?_⟩
    · intro h
      rw [c3 hne h2 (hg.mpr h)]
      exact ⟨rfl, rfl⟩
    · intro h
      rw [c4 hne h2 (fun hgu => h (hg.mp hgu))]
      exact ⟨rfl, rfl⟩
  have hrun : a > b → func a * func b < 0 → 1 ≤ maxIterations →
      ¬ |func ((a * func b - b * func a) / (func b - func a))| < tolerance →
      falsePosition func a b tolerance maxIterations =
        { result := JsVal.null,
          rows := [{ method := "False Position", iteration := 1, a := some a, b := some b,
                     root := (a * func b - b * func a) / (func b - func a), fa := func a,
                     fb := some (func b),
                     froot := func ((a * func b - b * func a) / (func b - func a)) }],
          errors := ["False Position method failed: root estimate outside the interval [a, b]."],
          divisors := [func b - func a], passes := 1, states := [] } := by
    intro hab hf hmax h2
    have hne : func a ≠ func b := by
      intro h
      rw [h] at hf
      exact absurd hf (not_lt.mpr (mul_self_nonneg _))
    have hf' : func b * func a < 0 := by rw [mul_comm]; exact hf
    have hbetween := interpolation_strictly_between hab hf'
    have hsym : (b * func a - a * func b) / (func a - func b) =
        (a * func b - b * func a) / (func b - func a) := by
      rw [← neg_sub (a * func b) (b * func a), ← neg_sub (func b) (func a), neg_div_neg_eq]
    rw [hsym] at hbetween
    obtain ⟨hlo, hhi⟩ := hbetween
    have hinverted :
        (if func ((a * func b - b * func a) / (func b - func a)) * func a < 0 then a
          else (a * func b - b * func a) / (func b - func a)) >
        (if func ((a * func b - b * func a) / (func b - func a)) * func a < 0
          then (a * func b - b * func a) / (func b - func a) else b) := by
      by_cases h3 : func ((a * func b - b * func a) / (func b - func a)) * func a < 0
      · rw [if_pos h3, if_pos h3]; exact hhi
      · rw [if_neg h3, if_neg h3]; exact hlo
    have hgu := (hiff { a := a, b := b, root := JsVal.undefined } _ _ _ rfl rfl).mpr hinverted
    have hc := (falsePositionBody_cases func tolerance 0
      { a := a, b := b, root := JsVal.undefined } _ _ _ _ rfl rfl rfl rfl).2.2.1 hne h2 hgu
    unfold falsePosition
    rw [whileLoop_ret maxIterations Vars.root _ 0 _ JsVal.null hmax (by rw [hc]), hc]
    rfl
  refine ⟨hbody, ?_, ?_⟩
  · intro hab hf hmax h2
    rw [hrun hab hf hmax h2]
    exact ⟨rfl, rfl, rfl⟩
  · intro hab hf r hhead hr
    have hmax : 1 ≤ maxIterations := by
      by_contra hcon
      have h0 : ¬ 0 < maxIterations := by omega
      unfold falsePosition at hhead
      rw [whileLoop_exit maxIterations Vars.root _ 0 _ h0] at hhead
      cases hhead
    have hne : func a ≠ func b := by
      intro h
      rw [h] at hf
      exact absurd hf (not_lt.mpr (mul_self_nonneg _))
    by_cases h2 : |func ((a * func b - b * func a) / (func b - func a))| < tolerance
    · exfalso
      have hc := (falsePositionBody_cases func tolerance 0
        { a := a, b := b, root := JsVal.undefined } _ _ _ _ rfl rfl rfl rfl).2.1 hne h2
      unfold falsePosition at hhead
      rw [whileLoop_brk maxIterations Vars.root _ 0 _ _ hmax (by rw [hc]), hc] at hhead
      simp only [Option.toList, List.head?_cons, Option.some.injEq] at hhead
      rw [← hhead] at hr
      exact hr h2
    · rw [hrun hab hf hmax h2] at hhead ⊢
      simp only [List.head?_cons, Option.some.injEq] at hhead
      rw [← hhead]
      exact ⟨rfl, rfl, rfl⟩

/-- An instance of the guard in exact arithmetic: the reversed bracket `a = 2 > b = 1` for
`func x = x ^ 2 - 2`, tolerance `1/1000`, 20 iterations.  The first estimate `4/3` has residual
`-2/9`, and the call returns `null` after exactly one row. -/
theorem falsePosition_outside_guard_iff_inverted_witness :
    ((2 : ℚ) > 1 ∧ (fun x : ℚ => x ^ 2 - 2) 2 * (fun x : ℚ => x ^ 2 - 2) 1 < 0 ∧ 1 ≤ 20 ∧
      ¬ |(fun x : ℚ => x ^ 2 - 2)
          ((2 * (fun x : ℚ => x ^ 2 - 2) 1 - 1 * (fun x : ℚ => x ^ 2 - 2) 2) /
            ((fun x : ℚ => x ^ 2 - 2) 1 - (fun x : ℚ => x ^ 2 - 2) 2))| < 1/1000) ∧
    (falsePosition (fun x : ℚ => x ^ 2 - 2) 2 1 (1/1000) 20).result = JsVal.null ∧
    (falsePosition (fun x : ℚ => x ^ 2 - 2) 2 1 (1/1000) 20).rows.length = 1 ∧
    (falsePosition (fun x : ℚ => x ^ 2 - 2) 2 1 (1/1000) 20).errors =
      ["False Position method failed: root estimate outside the interval [a, b]."] := by
  have h1 : (2 : ℚ) > 1 := by norm_num
  have h2 : (fun x : ℚ => x ^ 2 - 2) 2 * (fun x : ℚ => x ^ 2 - 2) 1 < 0 := by norm_num
  have h3 : ¬ |(fun x : ℚ => x ^ 2 - 2)
      ((2 * (fun x : ℚ => x ^ 2 - 2) 1 - 1 * (fun x : ℚ => x ^ 2 - 2) 2) /
        ((fun x : ℚ => x ^ 2 - 2) 1 - (fun x : ℚ => x ^ 2 - 2) 2))| < 1/1000 := by
    norm_num [abs_lt]
  exact ⟨⟨h1, h2, by decide, h3⟩,
    (falsePosition_outside_guard_iff_inverted (fun x : ℚ => x ^ 2 - 2) 2 1 (1/1000) 20).2.1
      h1 h2 (by decide) h3⟩

/-- C18, amended: the outside-interval guard of `falsePosition` in the numbers of the script.
In any pass of `falsePosition` computed in doubles that inserts a row and does not converge,
with `root` the estimate and `(a1, b1)` the endpoints after the bracket update, the guard
`root < a1 || root > b1` holds if and only if `a1 > b1`; when it holds the pass returns `null`
after the outside-interval message, otherwise it reaches `iteration++` with the bracket
`(a1, b1)`.  Consequently, on a reversed sign-changing bracket (`a > b`,
`func a * func b < 0`) whose first estimate lies strictly between `b` and `a` and does not
satisfy the tolerance, the call returns `null` after exactly one row, with the outside-interval
message. -/
theorem falsePosition_guard_fires_iff_inverted (func : F64 → F64) (a b tolerance : F64)
    (maxIterations : Nat) :
    (∀ (i : Nat) (s : Vars F64) (root a1 b1 : F64),
      root = (s.a * func s.b - s.b * func s.a) / (func s.b - func s.a) →
      a1 = (if func root * func s.a < 0 then s.a else root) →
      b1 = (if func root * func s.a < 0 then root else s.b) →
      ¬ F64.strictEq (func s.a) (func s.b) = true → ¬ F64.abs (func root) < tolerance →
      ((root < a1 ∨ root > b1) ↔ a1 > b1) ∧
      (a1 > b1 →
        (falsePositionBodyF func tolerance i s).flow = Flow.ret JsVal.null ∧
        (falsePositionBodyF func tolerance i s).error = some
          "False Position method failed: root estimate outside the interval [a, b].") ∧
      (¬ a1 > b1 →
        (falsePositionBodyF func tolerance i s).flow =
          Flow.next { a := a1, b := b1, root := JsVal.num root } ∧
        (falsePositionBodyF func tolerance i s).error = none)) ∧
    (a > b → func a * func b < 0 →
      ∀ r, (falsePositionF func a b tolerance maxIterations).rows.head? = some r →
      b < r.root → r.root < a → ¬ F64.abs r.froot < tolerance →
      (falsePositionF func a b tolerance maxIterations).result = JsVal.null ∧
      (falsePositionF func a b tolerance maxIterations).rows = [r] ∧
      (falsePositionF func a b tolerance maxIterations).errors =
        ["False Position method failed: root estimate outside the interval [a, b]."]) := by
  have hiff : ∀ (s : Vars F64) (root a1 b1 : F64),
      a1 = (if func root * func s.a < 0 then s.a else root) →
      b1 = (if func root * func s.a < 0 then root else s.b) →
      ((root < a1 ∨ root > b1) ↔ a1 > b1) := by
    intro s root a1 b1 ha1 hb1
    by_cases h3 : func root * func s.a < 0
    · rw [if_pos h3] at ha1 hb1
      subst ha1 hb1
      constructor
      · rintro (h | h)
        · exact h
        · exact absurd h (F64.lt_irrefl _)
      · intro h; exact Or.inl h
    · rw [if_neg h3] at ha1 hb1
      subst ha1 hb1
      constructor
      · rintro (h | h)
        · exact absurd h (F64.lt_irrefl _)
        · exact h
      · intro h; exact Or.inr h
  refine ⟨?_, ?_⟩
  · intro i s root a1 b1 hroot ha1 hb1 hne h2
    have hg := hiff s root a1 b1 ha1 hb1
    subst hroot
    refine ⟨hg, ?_, ?_⟩
    · intro h
      have hgu := hg.mpr h
      rw [ha1, hb1] at hgu
      unfold falsePositionBodyF
      dsimp only
      rw [if_neg hne, if_neg h2, if_pos hgu]
      exact ⟨rfl, rfl⟩
    · intro h
      have hgu : ¬ (_ < a1 ∨ _ > b1) := fun hgu => h (hg.mp hgu)
      rw [ha1, hb1] at hgu
      unfold falsePositionBodyF
      dsimp only
      rw [if_neg hne, if_neg h2, if_neg hgu, ha1, hb1]
      exact ⟨rfl, rfl⟩
  · intro _ _ r hhead hlo hhi hr
    have hmax : 0 < maxIterations := by
      by_contra hcon
      unfold falsePositionF at hhead
      rw [whileLoop_exit maxIterations Vars.root _ 0 _ hcon] at hhead
      cases hhead
    have hret : (falsePositionBodyF func tolerance 0
          { a := a, b := b, root := JsVal.undefined }).flow = Flow.ret JsVal.null →
        (falsePositionF func a b tolerance maxIterations).result = JsVal.null ∧
        (falsePositionF func a b tolerance maxIterations).rows =
          (falsePositionBodyF func tolerance 0
            { a := a, b := b, root := JsVal.undefined }).row.toList ∧
        (falsePositionF func a b tolerance maxIterations).errors =
          (falsePositionBodyF func tolerance 0
            { a := a, b := b, root := JsVal.undefined }).error.toList := by
      intro hfl
      unfold falsePositionF
      rw [whileLoop_ret maxIterations Vars.root _ 0 _ JsVal.null hmax hfl]
      exact ⟨rfl, rfl, rfl⟩
    have hrow : ∃ r0, (falsePositionBodyF func tolerance 0
          { a := a, b := b, root := JsVal.undefined }).row = some r0 ∧
        (falsePositionF func a b tolerance maxIterations).rows.head? = some r0 := by
      unfold falsePositionF
      cases hfl : (falsePositionBodyF func tolerance 0
          { a := a, b := b, root := JsVal.undefined }).flow with
      | ret v =>
        unfold falsePositionF at hhead
        rw [whileLoop_ret maxIterations Vars.root _ 0 _ v hmax hfl] at hhead ⊢
        cases hrw : (falsePositionBodyF func tolerance 0
            { a := a, b := b, root := JsVal.undefined }).row with
        | none => rw [hrw] at hhead; cases hhead
        | some r0 => exact ⟨r0, rfl, rfl⟩
      | brk s1 =>
        unfold falsePositionF at hhead
        rw [whileLoop_brk maxIterations Vars.root _ 0 _ s1 hmax hfl] at hhead ⊢
        cases hrw : (falsePositionBodyF func tolerance 0
            { a := a, b := b, root := JsVal.undefined }).row with
        | none => rw [hrw] at hhead; cases hhead
        | some r0 => exact ⟨r0, rfl, rfl⟩
      | next s1 =>
        obtain ⟨r0, hr0, _⟩ := (falsePositionBodyF_spec func tolerance).2.2 0 _ s1 hfl
        rw [whileLoop_next maxIterations Vars.root _ 0 _ s1 hmax hfl, hr0]
        exact ⟨r0, rfl, rfl⟩
    obtain ⟨r0, hr0, hhead0⟩ := hrow
    have hrr : r0 = r := by
      rw [hhead0] at hhead
      injection hhead
    subst hrr
    have hbody : (falsePositionBodyF func tolerance 0
          { a := a, b := b, root := JsVal.undefined }).flow = Flow.ret JsVal.null ∧
        (falsePositionBodyF func tolerance 0
          { a := a, b := b, root := JsVal.undefined }).error = some
            "False Position method failed: root estimate outside the interval [a, b]." := by
      unfold falsePositionBodyF at hr0 ⊢
      dsimp only at hr0 ⊢
      by_cases h1 : F64.strictEq (func a) (func b) = true
      · rw [if_pos h1] at hr0; cases hr0
      · rw [if_neg h1] at hr0 ⊢
        by_cases h2 : F64.abs (func ((a * func b - b * func a) / (func b - func a))) < tolerance
        · rw [if_pos h2] at hr0
          injection hr0 with hr0
          subst hr0
          exact absurd h2 hr
        · rw [if_neg h2] at hr0 ⊢
          by_cases h3 : func ((a * func b - b * func a) / (func b - func a)) * func a < 0
          · have hgu : (a * func b - b * func a) / (func b - func a) < a ∨
                (a * func b - b * func a) / (func b - func a) >
                  (a * func b - b * func a) / (func b - func a) := by
              left
              rw [if_pos h3, if_pos h3] at hr0
              split_ifs at hr0 <;> (injection hr0 with hr0; subst hr0; exact hhi)
            rw [if_pos h3, if_pos h3, if_pos hgu]
            exact ⟨rfl, rfl⟩
          · have hgu : (a * func b - b * func a) / (func b - func a) <
                  (a * func b - b * func a) / (func b - func a) ∨
                (a * func b - b * func a) / (func b - func a) > b := by
              right
              rw [if_neg h3, if_neg h3] at hr0
              split_ifs at hr0 <;> (injection hr0 with hr0; subst hr0; exact hlo)
            rw [if_neg h3, if_neg h3, if_pos hgu]
            exact ⟨rfl, rfl⟩
    obtain ⟨h1, h2, h3⟩ := hret hbody.1
    rw [h1, h2, h3, hr0, hbody.2]
    exact ⟨rfl, rfl, rfl⟩

/-- Witness of C18 (amended): the reversed bracket `a = 2 > b = 1` for `func x = x * x - 2`,
tolerance `0.001`, 20 iterations, in doubles.  The first estimate `1.3333333333333333` lies
strictly between `1` and `2` and has the residual `-0.22222222222222232`; the call returns
`null` after exactly that one row. -/
theorem falsePosition_guard_fires_iff_inverted_witness :
    ((2 : F64) > 1 ∧ (fun x : F64 => x * x - 2) 2 * (fun x : F64 => x * x - 2) 1 < 0 ∧
      (falsePositionF (fun x => x * x - 2) 2 1 0.001 20).rows.head? = some
        { method := "False Position", iteration := 1, a := some 2, b := some 1,
          root := 1.3333333333333333, fa := 2, fb := some (-1),
          froot := -0.22222222222222232 } ∧
      (1 : F64) < 1.3333333333333333 ∧ (1.3333333333333333 : F64) < 2 ∧
      ¬ F64.abs (-0.22222222222222232) < (0.001 : F64)) ∧
    (falsePositionF (fun x => x * x - 2) 2 1 0.001 20).result = JsVal.null ∧
    (falsePositionF (fun x => x * x - 2) 2 1 0.001 20).rows =
      [{ method := "False Position", iteration := 1, a := some 2, b := some 1,
         root := 1.3333333333333333, fa := 2, fb := some (-1),
         froot := -0.22222222222222232 }] ∧
    (falsePositionF (fun x => x * x - 2) 2 1 0.001 20).errors =
      ["False Position method failed: root estimate outside the interval [a, b]."] := by
  have h1 : (2 : F64) > 1 := by decide!
  have h2 : (fun x : F64 => x * x - 2) 2 * (fun x : F64 => x * x - 2) 1 < 0 := by decide!
  have h3 : (falsePositionF (fun x => x * x - 2) 2 1 0.001 20).rows.head? = some
      { method := "False Position", iteration := 1, a := some 2, b := some 1,
        root := 1.3333333333333333, fa := 2, fb := some (-1),
        froot := -0.22222222222222232 } := by
    unfold falsePositionF
    rw [whileLoop_eq_unrolled 20 _ _ 20 0 _ (le_refl _)]
    decide!
  have h4 : (1 : F64) < 1.3333333333333333 := by decide!
  have h5 : (1.3333333333333333 : F64) < 2 := by decide!
  have h6 : ¬ F64.abs (-0.22222222222222232) < (0.001 : F64) := by decide!
  exact ⟨⟨h1, h2, h3, h4, h5, h6⟩,
    (falsePosition_guard_fires_iff_inverted (fun x => x * x - 2) 2 1 0.001 20).2
      h1 h2 _ h3 h4 h5 h6⟩

/-- C19, as the claim states it, fails in the numbers of the script.  First, `func x = x - 0.5`
on `a = 0.1`, `b = 0.7` with tolerance `0.001` and 2 iterations: the first iteration leaves the
bracket `(0.4, 0.7)`, whose width the script computes as `0.29999999999999993`, while half the
initial width is `(0.7 - 0.1) / 2 = 0.3`.  Second, take `func` with the value `1` above `1` and
`-1` elsewhere, the bracket of the adjacent doubles `a = 1` and
`b = 1.0000000000000002 = 1 + 2^-52`, tolerance `0.5` and 3 iterations: the midpoint
`1 + 2^-53` is not a double and rounds to `1`, so every iteration leaves the bracket
`(1, 1 + 2^-52)` as it was, of width `2^-52` and not half of it, and rows 2 and 3 show the
initial bracket again. -/
theorem bisection_bracket_not_halved_in_doubles :
    ((bisectionF (fun x => x - 0.5) 0.1 0.7 0.001 2).errors = [] ∧
      (bisectionF (fun x => x - 0.5) 0.1 0.7 0.001 2).rows.length = 2 ∧
      (bisectionF (fun x => x - 0.5) 0.1 0.7 0.001 2).states.head? =
        some { a := 0.4, b := 0.7, root := JsVal.num 0.4 } ∧
      (0.7 - 0.4 : F64) = 0.29999999999999993 ∧
      ((0.7 - 0.1) / 2 : F64) = 0.3 ∧
      (0.29999999999999993 : F64) ≠ 0.3) ∧
    ((1.0000000000000002 : F64) = F64.fin false 4503599627370497 (-52) ∧
      (1 : F64) = F64.fin false 4503599627370496 (-52) ∧
      (1.0000000000000002 - 1 : F64) = F64.fin false 4503599627370496 (-104) ∧
      ((1.0000000000000002 - 1) / 2 : F64) = F64.fin false 4503599627370496 (-105) ∧
      (bisectionF (fun x : F64 => if 1 < x then 1 else -1) 1 1.0000000000000002 0.5
        3).errors = [] ∧
      (bisectionF (fun x : F64 => if 1 < x then 1 else -1) 1 1.0000000000000002 0.5
        3).rows.length = 3 ∧
      (∀ r ∈ (bisectionF (fun x : F64 => if 1 < x then 1 else -1) 1 1.0000000000000002 0.5
          3).rows,
        r.a = some 1 ∧ r.b = some 1.0000000000000002 ∧ r.root = 1) ∧
      (bisectionF (fun x : F64 => if 1 < x then 1 else -1) 1 1.0000000000000002 0.5
        3).states.length = 3 ∧
      (∀ s ∈ (bisectionF (fun x : F64 => if 1 < x then 1 else -1) 1 1.0000000000000002 0.5
          3).states,
        s.a = 1 ∧ s.b = 1.0000000000000002 ∧
        s.b - s.a = F64.fin false 4503599627370496 (-104))) := by
  constructor
  · unfold bisectionF
    rw [whileLoop_eq_unrolled 2 _ _ 2 0 _ (le_refl _)]
    decide!
  · unfold bisectionF
    rw [whileLoop_eq_unrolled 3 _ _ 3 0 _ (le_refl _)]
    decide!

/-- The halving of the bracket read in exact arithmetic.  For every function and
all inputs over an ordered field (no rounding or overflow of the midpoint): each iteration of
`bisection` that reaches `iteration++` (neither converges nor fails) replaces the bracket
`(a1, b1)` shown in its row by one with `b - a = (b1 - a1) / 2` exactly; the rows are numbered
`1, 2, ...` in order, and the row numbered `k` of a run started at `(a, b)` shows a bracket with
`b1 - a1 = (b - a) / 2 ^ (k - 1)` and the estimate `root = a1 + (b - a) / 2 ^ k`. -/
theorem bisection_halves_bracket (func : K → K) (a b tolerance : K) (maxIterations : Nat) :
    (∀ p ∈ List.zip (bisection func a b tolerance maxIterations).rows
        (bisection func a b tolerance maxIterations).states,
      ∃ a1 b1, p.1.a = some a1 ∧ p.1.b = some b1 ∧ p.2.b - p.2.a = (b1 - a1) / 2) ∧
    (bisection func a b tolerance maxIterations).rows.map IterationRecord.iteration =
      List.range' 1 (bisection func a b tolerance maxIterations).rows.length ∧
    (∀ r ∈ (bisection func a b tolerance maxIterations).rows,
      ∃ a1 b1, r.a = some a1 ∧ r.b = some b1 ∧ 1 ≤ r.iteration ∧
        b1 - a1 = (b - a) / 2 ^ (r.iteration - 1) ∧
        r.root = a1 + (b - a) / 2 ^ r.iteration) := by
  have hhalf : ∀ (i : Nat) (x : K), x / 2 ^ i / 2 = x / 2 ^ (i + 1) := by
    intro i x
    rw [pow_succ, div_div]
  refine ⟨?_, whileLoop_indices (bisectionBody_spec func tolerance) maxIterations 0 _, ?_⟩
  · refine whileLoop_states maxIterations Vars.root (bisectionBody func tolerance)
      (fun r s1 => ∃ a1 b1, r.a = some a1 ∧ r.b = some b1 ∧ s1.b - s1.a = (b1 - a1) / 2)
      ?_ 0 _
    intro i s s1 hf
    obtain ⟨r, hr, _, _⟩ := (bisectionBody_spec func tolerance).next_spec i s s1 hf
    refine ⟨r, hr, s.a, s.b, ?_, ?_, bisectionBody_next_width func tolerance i s s1 hf⟩
    · rw [bisectionBody_row func tolerance i s r hr]
    · rw [bisectionBody_row func tolerance i s r hr]
  · refine whileLoop_invariant_rows maxIterations Vars.root (bisectionBody func tolerance)
      (fun i s => s.b - s.a = (b - a) / 2 ^ i) ?_
      (fun r => ∃ a1 b1, r.a = some a1 ∧ r.b = some b1 ∧ 1 ≤ r.iteration ∧
        b1 - a1 = (b - a) / 2 ^ (r.iteration - 1) ∧
        r.root = a1 + (b - a) / 2 ^ r.iteration) ?_ 0 _ ?_
    · intro i s s1 hi hf
      have hi : s.b - s.a = (b - a) / 2 ^ i := hi
      show s1.b - s1.a = (b - a) / 2 ^ (i + 1)
      rw [bisectionBody_next_width func tolerance i s s1 hf, hi, hhalf]
    · intro i s r hi hr
      have hi : s.b - s.a = (b - a) / 2 ^ i := hi
      rw [bisectionBody_row func tolerance i s r hr]
      refine ⟨s.a, s.b, rfl, rfl, Nat.le_add_left 1 i, ?_, ?_⟩
      · show s.b - s.a = (b - a) / 2 ^ (i + 1 - 1)
        rw [Nat.add_sub_cancel]; exact hi
      · show s.a + (s.b - s.a) / 2 = s.a + (b - a) / 2 ^ (i + 1)
        rw [hi, hhalf]
    · show b - a = (b - a) / 2 ^ 0
      rw [pow_zero, div_one]

/-- An instance of the halving in exact arithmetic: `func x = x ^ 2 - 2` on `a = 1`, `b = 2`
over the rationals, with tolerance `1/1000` and 2 iterations.  The row numbered 2 shows the bracket `(1, 3/2)` of width `(2 - 1) / 2 ^ 1` and the
estimate `5/4 = 1 + (2 - 1) / 2 ^ 2`. -/
theorem bisection_halves_bracket_witness :
    ({ method := "Bisection", iteration := 2, a := some 1, b := some (3/2), root := 5/4,
       fa := -1, fb := some (1/4), froot := -7/16 } : IterationRecord ℚ) ∈
      (bisection (fun x : ℚ => x ^ 2 - 2) 1 2 (1/1000) 2).rows ∧
    ∃ a1 b1 : ℚ, some (1 : ℚ) = some a1 ∧ some (3/2 : ℚ) = some b1 ∧ 1 ≤ 2 ∧
      b1 - a1 = (2 - 1) / 2 ^ (2 - 1) ∧ (5/4 : ℚ) = a1 + (2 - 1) / 2 ^ 2 := by
  have hmem :
      ({ method := "Bisection", iteration := 2, a := some 1, b := some (3/2), root := 5/4,
         fa := -1, fb := some (1/4), froot := -7/16 } : IterationRecord ℚ) ∈
      (bisection (fun x : ℚ => x ^ 2 - 2) 1 2 (1/1000) 2).rows := by
    unfold bisection
    iterate 2 (rw [whileLoop]; norm_num [bisectionBody, abs_lt])
  exact ⟨hmem, (bisection_halves_bracket (fun x : ℚ => x ^ 2 - 2) 1 2 (1/1000) 2).2.2 _ hmem⟩

/-- C19, amended: bisection halves the bracket when the midpoint is computed without rounding,
in the numbers of the script.  For every function and all inputs, computed in doubles: each
iteration of `bisection` that reaches `iteration++` (neither converges nor fails) replaces one
endpoint of the bracket `(a1, b1)` shown in its row by the computed midpoint
`root = a1 + (b1 - a1) / 2`, and when that midpoint is computed without rounding (it is the real
number `a1 + (b1 - a1) / 2`) the new bracket has, as real numbers,
`b - a = (b1 - a1) / 2` exactly; the rows are numbered `1, 2, ...` in order, and when the
midpoint of every non-converging iteration is computed without rounding, the row numbered `k`
of a run started at `(a, b)` shows a bracket with `b1 - a1 = (b - a) / 2 ^ (k - 1)` and, if its
own midpoint is exact too, the estimate `root = a1 + (b - a) / 2 ^ k`. -/
theorem bisection_halves_bracket_with_exact_midpoints (func : F64 → F64)
    (a b tolerance : F64) (maxIterations : Nat) :
    (∀ p ∈ List.zip (bisectionF func a b tolerance maxIterations).rows
        (bisectionF func a b tolerance maxIterations).states,
      ∃ a1 b1, p.1.a = some a1 ∧ p.1.b = some b1 ∧ p.1.root = a1 + (b1 - a1) / 2 ∧
        ((p.2.a = a1 ∧ p.2.b = p.1.root) ∨ (p.2.a = p.1.root ∧ p.2.b = b1)) ∧
        (midpointExact p.1 → p.2.b.toRat - p.2.a.toRat = (b1.toRat - a1.toRat) / 2)) ∧
    (bisectionF func a b tolerance maxIterations).rows.map IterationRecord.iteration =
      List.range' 1 (bisectionF func a b tolerance maxIterations).rows.length ∧
    ((∀ r ∈ (bisectionF func a b tolerance maxIterations).rows,
        ¬ F64.abs r.froot < tolerance → midpointExact r) →
      ∀ r ∈ (bisectionF func a b tolerance maxIterations).rows,
        ∃ a1 b1, r.a = some a1 ∧ r.b = some b1 ∧ 1 ≤ r.iteration ∧
          b1.toRat - a1.toRat = (b.toRat - a.toRat) / 2 ^ (r.iteration - 1) ∧
          (midpointExact r →
            r.root.toRat = a1.toRat + (b.toRat - a.toRat) / 2 ^ r.iteration)) := by
  have hhalf : ∀ (i : Nat) (x : ℚ), x / 2 ^ i / 2 = x / 2 ^ (i + 1) := by
    intro i x
    rw [pow_succ, div_div]
  -- the widths after an update whose midpoint is exact
  have hwidth : ∀ (s s1 : Vars F64),
      ((s1.a = s.a ∧ s1.b = s.a + (s.b - s.a) / 2) ∨
        (s1.a = s.a + (s.b - s.a) / 2 ∧ s1.b = s.b)) →
      (s.a + (s.b - s.a) / 2).toRat = s.a.toRat + (s.b.toRat - s.a.toRat) / 2 →
      s1.b.toRat - s1.a.toRat = (s.b.toRat - s.a.toRat) / 2 := by
    intro s s1 h hm
    rcases h with ⟨h1, h2⟩ | ⟨h1, h2⟩
    · rw [h1, h2, hm]; ring
    · rw [h1, h2, hm]; ring
  refine ⟨?_, ?_, ?_⟩
  · refine whileLoop_states maxIterations Vars.root (bisectionBodyF func tolerance)
      (fun r s1 => ∃ a1 b1, r.a = some a1 ∧ r.b = some b1 ∧ r.root = a1 + (b1 - a1) / 2 ∧
        ((s1.a = a1 ∧ s1.b = r.root) ∨ (s1.a = r.root ∧ s1.b = b1)) ∧
        (midpointExact r → s1.b.toRat - s1.a.toRat = (b1.toRat - a1.toRat) / 2))
      ?_ 0 _
    intro i s s1 hf
    obtain ⟨_, hr, hs1⟩ := bisectionBodyF_next func tolerance i s s1 hf
    refine ⟨_, hr, s.a, s.b, rfl, rfl, rfl, hs1, ?_⟩
    intro hm
    exact hwidth s s1 hs1 (hm s.a rfl s.b rfl).2.2.2
  · exact whileLoop_row_numbers maxIterations Vars.root (bisectionBodyF func tolerance)
      (fun i s s1 hf => ⟨_, (bisectionBodyF_next func tolerance i s s1 hf).2.1⟩)
      (fun i s r hr => by rw [bisectionBodyF_row func tolerance i s r hr])
      0 _
  · intro hex
    have key := whileLoop_cases maxIterations Vars.root (bisectionBodyF func tolerance)
      (fun i s run =>
        (∀ r ∈ run.rows, ¬ F64.abs r.froot < tolerance → midpointExact r) →
        s.b.toRat - s.a.toRat = (b.toRat - a.toRat) / 2 ^ i →
        ∀ r ∈ run.rows, ∃ a1 b1, r.a = some a1 ∧ r.b = some b1 ∧ 1 ≤ r.iteration ∧
          b1.toRat - a1.toRat = (b.toRat - a.toRat) / 2 ^ (r.iteration - 1) ∧
          (midpointExact r →
            r.root.toRat = a1.toRat + (b.toRat - a.toRat) / 2 ^ r.iteration))
      ?_ ?_ ?_ ?_ 0 { a := a, b := b, root := JsVal.undefined }
    · exact key hex (by rw [pow_zero, div_one])
    · intro i s _ _ _ r hr; cases hr
    · intro i s v _ _ _ hw r hr
      have hrow : (bisectionBodyF func tolerance i s).row = some r := by
        cases hrw : (bisectionBodyF func tolerance i s).row with
        | none => rw [hrw] at hr; cases hr
        | some r0 =>
          rw [hrw] at hr
          simp only [Option.toList, List.mem_singleton] at hr
          rw [hr]
      rw [bisectionBodyF_row func tolerance i s r hrow]
      refine ⟨s.a, s.b, rfl, rfl, Nat.le_add_left 1 i, ?_, ?_⟩
      · show s.b.toRat - s.a.toRat = (b.toRat - a.toRat) / 2 ^ (i + 1 - 1)
        rw [Nat.add_sub_cancel]; exact hw
      · intro hm
        have := (hm s.a rfl s.b rfl).2.2.2
        show (s.a + (s.b - s.a) / 2).toRat = s.a.toRat + (b.toRat - a.toRat) / 2 ^ (i + 1)
        rw [this, hw, hhalf]
    · intro i s s1 _ _ _ hw r hr
      have hrow : (bisectionBodyF func tolerance i s).row = some r := by
        cases hrw : (bisectionBodyF func tolerance i s).row with
        | none => rw [hrw] at hr; cases hr
        | some r0 =>
          rw [hrw] at hr
          simp only [Option.toList, List.mem_singleton] at hr
          rw [hr]
      rw [bisectionBodyF_row func tolerance i s r hrow]
      refine ⟨s.a, s.b, rfl, rfl, Nat.le_add_left 1 i, ?_, ?_⟩
      · show s.b.toRat - s.a.toRat = (b.toRat - a.toRat) / 2 ^ (i + 1 - 1)
        rw [Nat.add_sub_cancel]; exact hw
      · intro hm
        have := (hm s.a rfl s.b rfl).2.2.2
        show (s.a + (s.b - s.a) / 2).toRat = s.a.toRat + (b.toRat - a.toRat) / 2 ^ (i + 1)
        rw [this, hw, hhalf]
    · intro i s s1 run _ hf _ ih hG hw r hr
      obtain ⟨hnc, hrow, hs1⟩ := bisectionBodyF_next func tolerance i s s1 hf
      rw [hrow] at hG hr
      simp only [Option.toList, List.singleton_append, List.mem_cons] at hr
      have hm0 : midpointExact
          { method := "Bisection", iteration := i + 1, a := some s.a, b := some s.b,
            root := s.a + (s.b - s.a) / 2, fa := func s.a, fb := some (func s.b),
            froot := func (s.a + (s.b - s.a) / 2) } := hG _ (by simp) hnc
      have hmid := (hm0 s.a rfl s.b rfl).2.2.2
      rcases hr with rfl | hr
      · refine ⟨s.a, s.b, rfl, rfl, Nat.le_add_left 1 i, ?_, ?_⟩
        · show s.b.toRat - s.a.toRat = (b.toRat - a.toRat) / 2 ^ (i + 1 - 1)
          rw [Nat.add_sub_cancel]; exact hw
        · intro _
          show (s.a + (s.b - s.a) / 2).toRat = s.a.toRat + (b.toRat - a.toRat) / 2 ^ (i + 1)
          rw [hmid, hw, hhalf]
      · refine ih (fun r1 hr1 hc => hG r1 (by simp [hr1]) hc) ?_ r hr
        rw [hwidth s s1 hs1 hmid, hw, hhalf]

/-- Witness of C19 (amended): `func x = x * x - 2` on `a = 1`, `b = 2` in doubles, with
tolerance `0.001` and 2 iterations.  The midpoints `1.5` and `1.25` are computed without
rounding, and the row numbered 2 shows the bracket `(1, 1.5)` of width `(2 - 1) / 2 ^ 1` and
the estimate `1.25 = 1 + (2 - 1) / 2 ^ 2`. -/
theorem bisection_halves_bracket_with_exact_midpoints_witness :
    (∀ r ∈ (bisectionF (fun x => x * x - 2) 1 2 0.001 2).rows,
      ¬ F64.abs r.froot < 0.001 → midpointExact r) ∧
    ({ method := "Bisection", iteration := 2, a := some 1, b := some 1.5, root := 1.25,
       fa := -1, fb := some 0.25, froot := -0.4375 } : IterationRecord F64) ∈
      (bisectionF (fun x => x * x - 2) 1 2 0.001 2).rows ∧
    ∃ a1 b1 : F64, some (1 : F64) = some a1 ∧ some (1.5 : F64) = some b1 ∧ 1 ≤ 2 ∧
      b1.toRat - a1.toRat = (F64.toRat 2 - F64.toRat 1) / 2 ^ (2 - 1) ∧
      (midpointExact { method := "Bisection", iteration := 2, a := some 1, b := some 1.5,
                       root := 1.25, fa := -1, fb := some 0.25, froot := -0.4375 } →
        F64.toRat 1.25 = a1.toRat + (F64.toRat 2 - F64.toRat 1) / 2 ^ 2) := by
  have hex : ∀ r ∈ (bisectionF (fun x => x * x - 2) 1 2 0.001 2).rows,
      ¬ F64.abs r.froot < 0.001 → midpointExact r := by
    unfold bisectionF
    rw [whileLoop_eq_unrolled 2 _ _ 2 0 _ (le_refl _)]
    decide!
  have hmem :
      ({ method := "Bisection", iteration := 2, a := some 1, b := some 1.5, root := 1.25,
         fa := -1, fb := some 0.25, froot := -0.4375 } : IterationRecord F64) ∈
      (bisectionF (fun x => x * x - 2) 1 2 0.001 2).rows := by
    unfold bisectionF
    rw [whileLoop_eq_unrolled 2 _ _ 2 0 _ (le_refl _)]
    decide!
  exact ⟨hex, hmem,
    (bisection_halves_bracket_with_exact_midpoints (fun x => x * x - 2) 1 2 0.001 2).2.2
      hex _ hmem⟩

/-- C20, Newton-Raphson on linear functions.  For `func x = m * x + c` with `m ≠ 0`, every
`initialGuess`, every `tolerance > 0` and every `maxIterations ≥ 1`, in exact arithmetic: the
central-difference derivative equals `m` at every point, and `newtonRaphson` returns the number
`-c / m` after exactly one row (whose root estimate is `-c / m`), with no message. -/
theorem newtonRaphson_exact_on_linear (m c initialGuess tolerance : K) (maxIterations : Nat)
    (hm : m ≠ 0) (htol : 0 < tolerance) (hmax : 1 ≤ maxIterations) :
    (∀ x : K, derivative (fun t : K => m * t + c) x defaultEpsilon = m) ∧
    (newtonRaphson (fun t : K => m * t + c) initialGuess tolerance maxIterations).result =
      JsVal.num (-c / m) ∧
    (newtonRaphson (fun t : K => m * t + c) initialGuess tolerance maxIterations).rows.map
      IterationRecord.root = [-c / m] ∧
    (newtonRaphson (fun t : K => m * t + c) initialGuess tolerance maxIterations).rows.length =
      1 ∧
    (newtonRaphson (fun t : K => m * t + c) initialGuess tolerance maxIterations).errors =
      [] := by
  have hd : ∀ x : K, derivative (fun t : K => m * t + c) x defaultEpsilon = m := by
    intro x
    have h2 : (2 * 1e-6 : K) ≠ 0 := by norm_num
    unfold derivative defaultEpsilon
    rw [div_eq_iff h2]
    ring
  have hroot : initialGuess - (m * initialGuess + c) / m = -c / m := by
    field_simp
    ring
  have hzero : m * (-c / m) + c = 0 := by
    field_simp
    ring
  have hlt : 0 < maxIterations := hmax
  have hrun : newtonRaphson (fun t : K => m * t + c) initialGuess tolerance maxIterations =
      { result := JsVal.num (-c / m),
        rows := [{ method := "Newton-Raphson", iteration := 1, a := none, b := none,
                   root := -c / m, fa := m * initialGuess + c, fb := none, froot := 0 }],
        errors := [], divisors := [derivativeDivisor defaultEpsilon, m], passes := 1,
        states := [] } := by
    unfold newtonRaphson
    rw [whileLoop]
    simp [newtonRaphsonBody, hlt, hd, hm, hroot, hzero, htol]
  rw [hrun]
  exact ⟨hd, rfl, rfl, rfl, rfl⟩

/-- Witness of C20: `func x = 2 * x + 3` from `initialGuess = 5`, tolerance `1/10000`, 20
iterations. -/
theorem newtonRaphson_exact_on_linear_witness :
    ((2 : ℚ) ≠ 0 ∧ (0 : ℚ) < 1/10000 ∧ 1 ≤ 20) ∧
    (newtonRaphson (fun t : ℚ => 2 * t + 3) 5 (1/10000) 20).result = JsVal.num (-3 / 2) ∧
    (newtonRaphson (fun t : ℚ => 2 * t + 3) 5 (1/10000) 20).rows.length = 1 :=
  have h := newtonRaphson_exact_on_linear (2 : ℚ) 3 5 (1/10000) 20 (by norm_num) (by norm_num)
    (by decide)
  ⟨⟨by norm_num, by norm_num, by decide⟩, h.2.1, h.2.2.2.1⟩

end Claims

end RootFinding
